import Mathlib

/-!
# fnodcmanon: the study anonymizer

A shallow embedding of `StudyAnonymizer` (src/src/DicomAnonymizer.cpp), followed by theorems
about identifier remapping and the de-identification profile.

The DCMTK library is outside the repository.  Its three effects that the anonymizer depends on
are made explicit:

* the unique identifier generator is a function of the root and of the number of identifiers
  generated so far in the process (`Dcmtk.uidOf`);
* the data dictionary is a function from tag keys to tag names (`Dcmtk.tagName`);
* whether a file can be written is a predicate on its path (`Dcmtk.canSave`).

A data set is the list of its elements in tag order, each with its value as a string; the files
on disk are a list of paths with their data sets, the most recent write first.
-/

namespace Fnodcmanon

/-! ## Environment -/

/-- The enumeration `E_FILENAMES` of DicomAnonymizer.hpp. -/
inductive E_FILENAMES where
  | F_HEX
  | F_MODALITY_SOPINSTUID
  deriving DecidableEq, Repr

/-- Modelled from the spec: the enumeration `E_ANONYM_METHODS` used by
`StudyAnonymizer::anonymizeStudy` and by `main` is declared in a header that is not part of the
sources at hand; its four members are the ones the two files name (the basic profile and the three
optional retain methods of the profile selection). -/
inductive E_ANONYM_METHODS where
  | M_113100
  | M_113108
  | M_113109
  | M_113112
  deriving DecidableEq, Repr

/-- A DICOM tag key: group and element number. -/
structure DcmTagKey where
  group : Nat
  element : Nat
  deriving DecidableEq, Repr

/-- A data set: its elements in order, each a tag key with its string value. -/
abbrev DcmDataset := List (DcmTagKey × String)

/-- The behaviour of the library that the anonymizer cannot see into. -/
structure Dcmtk where
  /-- Identifier returned by the n-th call of `dcmGenerateUniqueIdentifier` for a root. -/
  uidOf : Option String → Nat → String
  /-- Name of a tag in the data dictionary (`DcmTag::getTagName`). -/
  tagName : DcmTagKey → String
  /-- Whether `saveFile` succeeds for a path. -/
  canSave : String → Bool

/-- The state outside the anonymizer object: how many identifiers the generator has handed out,
and the files on disk (the most recent write of a path comes first). -/
structure World where
  uidCalls : Nat
  files : List (String × DcmDataset)

/-- The fields of `StudyAnonymizer` that DicomAnonymizer.cpp reads and writes. -/
structure StudyAnonymizer where
  m_dicom_files : List String
  m_series_uids : List (String × String)
  m_oldName : String
  m_oldID : String
  m_filenameType : E_FILENAMES
  m_outputStudyDir : String
  m_dataset : Option DcmDataset

/-- A freshly constructed anonymizer (all members default-initialised, `m_dataset` null). -/
def StudyAnonymizer.default : StudyAnonymizer :=
  { m_dicom_files := [], m_series_uids := [], m_oldName := "", m_oldID := "",
    m_filenameType := E_FILENAMES.F_HEX, m_outputStudyDir := "", m_dataset := none }

/-! ## `std::unordered_map<std::string, std::string>` -/

/-- Lookup of a key (the first entry with that key). -/
def umapFind : List (String × String) → String → Option String
  | [], _ => none
  | (k', v) :: t, k => if k' = k then some v else umapFind t k

/-- The member function `contains`. -/
def umapContains (m : List (String × String)) (k : String) : Bool :=
  (umapFind m k).isSome

/-- The assignment `m[k] = v`: overwrites the entry of `k`, or inserts one. -/
def umapAssign : List (String × String) → String → String → List (String × String)
  | [], k, v => [(k, v)]
  | (k', v') :: t, k, v => if k' = k then (k', v) :: t else (k', v') :: umapAssign t k v

/-- Reading `m[k]`: the value of `k`; a missing key is inserted with the empty string. -/
def umapSubscript (m : List (String × String)) (k : String) : String × List (String × String) :=
  match umapFind m k with
  | some v => (v, m)
  | none => ("", umapAssign m k "")

/-! ## Identifier generation and the series map -/

/-- The library call `dcmGenerateUniqueIdentifier(uid, root)`. -/
def dcmGenerateUniqueIdentifier (env : Dcmtk) (root : Option String) (w : World) :
    String × World :=
  (env.uidOf root w.uidCalls, { w with uidCalls := w.uidCalls + 1 })

/-- The member function `StudyAnonymizer::getSeriesUids` (DicomAnonymizer.cpp, lines 160-172). -/
def getSeriesUids (env : Dcmtk) (root : Option String) (w : World) (self : StudyAnonymizer)
    (old_series_uid : String) : String × World × StudyAnonymizer :=
  if !umapContains self.m_series_uids old_series_uid then
    let (uid, w1) := dcmGenerateUniqueIdentifier env root w
    let m1 := umapAssign self.m_series_uids old_series_uid uid
    let (r, m2) := umapSubscript m1 old_series_uid
    (r, w1, { self with m_series_uids := m2 })
  else
    let (r, m2) := umapSubscript self.m_series_uids old_series_uid
    (r, w, { self with m_series_uids := m2 })

/-- An entry of a directory iteration: its path, its file name, whether it is a directory. -/
structure DirEntry where
  path : String
  filename : String
  is_directory : Bool

/-- The loop of `getStudyFilenames` over the recursive directory iteration (lines 25-29). -/
def collectFilenames : List String → List DirEntry → List String
  | acc, [] => acc
  | acc, e :: es =>
    if e.is_directory || e.filename = "DICOMDIR" then collectFilenames acc es
    else collectFilenames (acc ++ [e.path]) es

/-- The member function `StudyAnonymizer::getStudyFilenames` (DicomAnonymizer.cpp, lines 19-38);
`entries` is what the recursive iteration of the study directory yields. -/
def getStudyFilenames (self : StudyAnonymizer) (entries : List DirEntry) :
    Bool × StudyAnonymizer :=
  let files0 := if !self.m_dicom_files.isEmpty then [] else self.m_dicom_files
  let uids0 := if !self.m_series_uids.isEmpty then [] else self.m_series_uids
  let files1 := collectFilenames files0 entries
  let self1 := { self with m_dicom_files := files1, m_series_uids := uids0 }
  if files1.isEmpty then (false, self1) else (true, self1)

/-- A sequence of `getSeriesUids` calls with no reset in between: the returned identifiers in
order, and the state after the last call. -/
def resolveAll (env : Dcmtk) (root : Option String) :
    World → StudyAnonymizer → List String → List String × World × StudyAnonymizer
  | w, self, [] => ([], w, self)
  | w, self, x :: xs =>
    let r := getSeriesUids env root w self x
    let rest := resolveAll env root r.2.1 r.2.2 xs
    (r.1 :: rest.1, rest.2.1, rest.2.2)

/-! ## The data set of one record -/

def DCM_InstitutionName : DcmTagKey := ⟨0x0008, 0x0080⟩
def DCM_InstitutionAddress : DcmTagKey := ⟨0x0008, 0x0081⟩
def DCM_ReferringPhysicianName : DcmTagKey := ⟨0x0008, 0x0090⟩
def DCM_StationName : DcmTagKey := ⟨0x0008, 0x1010⟩
def DCM_InstitutionalDepartmentName : DcmTagKey := ⟨0x0008, 0x1040⟩
def DCM_PhysiciansOfRecord : DcmTagKey := ⟨0x0008, 0x1048⟩
def DCM_PerformingPhysicianName : DcmTagKey := ⟨0x0008, 0x1050⟩
def DCM_NameOfPhysiciansReadingStudy : DcmTagKey := ⟨0x0008, 0x1060⟩
def DCM_OperatorsName : DcmTagKey := ⟨0x0008, 0x1070⟩
def DCM_SOPInstanceUID : DcmTagKey := ⟨0x0008, 0x0018⟩
def DCM_Modality : DcmTagKey := ⟨0x0008, 0x0060⟩
def DCM_PatientName : DcmTagKey := ⟨0x0010, 0x0010⟩
def DCM_PatientID : DcmTagKey := ⟨0x0010, 0x0020⟩
def DCM_PatientSex : DcmTagKey := ⟨0x0010, 0x0040⟩
def DCM_PatientAge : DcmTagKey := ⟨0x0010, 0x1010⟩
def DCM_PatientAddress : DcmTagKey := ⟨0x0010, 0x1040⟩
def DCM_AdditionalPatientHistory : DcmTagKey := ⟨0x0010, 0x21B0⟩
def DCM_StudyInstanceUID : DcmTagKey := ⟨0x0020, 0x000D⟩
def DCM_SeriesInstanceUID : DcmTagKey := ⟨0x0020, 0x000E⟩
def DCM_PatientInstitutionResidence : DcmTagKey := ⟨0x0038, 0x0400⟩

/-- Tag keys are ordered by group, then by element. -/
def DcmTagKey.before (a b : DcmTagKey) : Bool :=
  decide (a.group < b.group) || (decide (a.group = b.group) && decide (a.element < b.element))

/-- The value of the first element with the given tag key, if there is one. -/
def findElement : DcmDataset → DcmTagKey → Option String
  | [], _ => none
  | (k', v) :: t, k => if k' = k then some v else findElement t k

/-- The library call `findAndGetOFString(tag, value)`: the value is cleared when the element is
absent. -/
def findAndGetOFString (ds : DcmDataset) (k : DcmTagKey) : String :=
  (findElement ds k).getD ""

/-- The library call `findAndGetString(tag, value)`: the pointer is null when the element is
absent or its value is empty. -/
def findAndGetString (ds : DcmDataset) (k : DcmTagKey) : Option String :=
  match findElement ds k with
  | some v => if v = "" then none else some v
  | none => none

/-- The library calls `putAndInsertOFStringArray(tag, value)` and `putAndInsertString(tag, value)`:
the element of that tag is replaced, or a new element is inserted at its place in tag order. -/
def putAndInsert : DcmDataset → DcmTagKey → String → DcmDataset
  | [], k, v => [(k, v)]
  | (k', v') :: t, k, v =>
    if k' = k then (k, v) :: t
    else if k.before k' then (k, v) :: (k', v') :: t
    else (k', v') :: putAndInsert t k v

/-- The library call `remove(tag)`: the first element of that tag is taken out. -/
def removeTag : DcmDataset → DcmTagKey → DcmDataset
  | [], _ => []
  | (k', v') :: t, k => if k' = k then t else (k', v') :: removeTag t k

/-- The number of values of the type `unsigned long` of the loop index (64 bits). -/
def ulongModulus : Nat := 2 ^ 64

/-- The decrement `--i` of an `unsigned long`: it wraps at zero. -/
def ulongDec (i : Nat) : Nat := (i + ulongModulus - 1) % ulongModulus

/-- The increment `++i` of an `unsigned long`: it wraps at the largest value. -/
def ulongInc (i : Nat) : Nat := (i + 1) % ulongModulus

/-- The loop of `removeInvalidTags` (lines 182-191) from index `i` on: an element whose tag name
is "Unknown Tag & Data" is removed by its tag key and the index is decremented before the
increment of the loop; otherwise the index is only incremented.  `fuel` bounds the number of
iterations; `none` means the bound was too small. -/
def removeInvalidLoop (env : Dcmtk) : Nat → DcmDataset → Nat → Option DcmDataset
  | 0, ds, i => if i < ds.length then none else some ds
  | fuel + 1, ds, i =>
    match ds[i]? with
    | none => some ds
    | some element =>
      if env.tagName element.1 = "Unknown Tag & Data" then
        removeInvalidLoop env fuel (removeTag ds element.1) (ulongInc (ulongDec i))
      else
        removeInvalidLoop env fuel ds (ulongInc i)

/-- The member function `StudyAnonymizer::removeInvalidTags` (lines 174-194) on the data set that
`m_dataset` points to: the returned flag and the data set afterwards.  The loop gets as many
iterations as the data set has elements; the outer `none` stands for a loop that has not ended by
then. -/
def removeInvalidTags (env : Dcmtk) (m_dataset : Option DcmDataset) :
    Option (Bool × Option DcmDataset) :=
  match m_dataset with
  | none => some (false, none)
  | some ds =>
    match removeInvalidLoop env ds.length ds 0 with
    | none => none
    | some ds1 => some (true, some ds1)

/-! ## The transformation of one record -/

/-- Lines 65-112 of `anonymizeStudy`: the basic profile and the two optional retain methods the
function looks at. -/
def applyProfile (pseudoname : String) (methods : List E_ANONYM_METHODS) (ds : DcmDataset) :
    DcmDataset :=
  let ds1 :=
    if methods.contains E_ANONYM_METHODS.M_113100 then
      let d := putAndInsert ds DCM_PatientName pseudoname
      let d := putAndInsert d DCM_PatientID pseudoname
      let d := putAndInsert d DCM_PatientAddress ""
      let d := putAndInsert d DCM_AdditionalPatientHistory ""
      let d := removeTag d DCM_PatientInstitutionResidence
      if !methods.contains E_ANONYM_METHODS.M_113108 then
        let d := putAndInsert d DCM_PatientAge "000Y"
        putAndInsert d DCM_PatientSex "O"
      else d
    else ds
  if !methods.contains E_ANONYM_METHODS.M_113112 then
    let d := putAndInsert ds1 DCM_InstitutionName ""
    let d := putAndInsert d DCM_InstitutionAddress ""
    let d := putAndInsert d DCM_InstitutionalDepartmentName ""
    let d := putAndInsert d DCM_OperatorsName ""
    let d := putAndInsert d DCM_ReferringPhysicianName ""
    let d := putAndInsert d DCM_PerformingPhysicianName ""
    let d := putAndInsert d DCM_PhysiciansOfRecord ""
    putAndInsert d DCM_NameOfPhysiciansReadingStudy ""
  else ds1

/-- One hexadecimal digit in upper case. -/
def hexDigit (d : Nat) : Char :=
  if d < 10 then Char.ofNat (48 + d) else Char.ofNat (55 + d)

/-- The call `fmt::format("{:08X}", fileNumber)` for a file number that is not negative: the
upper-case hexadecimal digits, padded with zeros on the left to at least eight characters. -/
def formatHex08 (fileNumber : Nat) : String :=
  let digits := ((Nat.digits 16 fileNumber).reverse).map hexDigit
  let digits := if digits.isEmpty then ['0'] else digits
  String.mk (List.replicate (8 - digits.length) '0' ++ digits)

/-- The file on disk at a path (the most recent write). -/
def loadFile : List (String × DcmDataset) → String → Option DcmDataset
  | [], _ => none
  | (p, ds) :: t, file => if p = file then some ds else loadFile t file

/-- How one pass through the body of the loop of `anonymizeStudy` ends. -/
inductive Flow where
  /-- The body reached its end; the loop goes on with the next file. -/
  | next (w : World) (self : StudyAnonymizer) (fileNumber : Nat)
  /-- The function returned. -/
  | ret (result : Bool) (w : World) (self : StudyAnonymizer)
  /-- The function does not return: a null pointer was turned into a string.  The world and the
  object are the ones at that moment. -/
  | abort (w : World) (self : StudyAnonymizer)

/-- The world at the end of a pass through the loop body. -/
def Flow.world : Flow → World
  | Flow.next w _ _ => w
  | Flow.ret _ w _ => w
  | Flow.abort w _ => w

/-- The anonymizer object at the end of a pass through the loop body. -/
def Flow.self : Flow → StudyAnonymizer
  | Flow.next _ self _ => self
  | Flow.ret _ _ self => self
  | Flow.abort _ self => self

/-- The three writes of lines 122, 126 and 128: the new series, instance and study identifier. -/
def writeIdentifiers (ds : DcmDataset) (newSeriesUID newSOPInstanceUID newStudyUID : String) :
    DcmDataset :=
  let ds := putAndInsert ds DCM_SeriesInstanceUID newSeriesUID
  let ds := putAndInsert ds DCM_SOPInstanceUID newSOPInstanceUID
  putAndInsert ds DCM_StudyInstanceUID newStudyUID

/-- Lines 57-60: the data set pointer is set, and the original patient name and ID are read for the
key list before any field is changed. -/
def captureOriginal (self : StudyAnonymizer) (ds0 : DcmDataset) : StudyAnonymizer :=
  { self with
    m_dataset := some ds0,
    m_oldName := findAndGetOFString ds0 DCM_PatientName,
    m_oldID := findAndGetOFString ds0 DCM_PatientID }

/-- Lines 115-154 of `anonymizeStudy`: the identifiers, the sweep and the save, for the data set
`ds` that the profile was applied to and the series identifier found in it.  `fileNumber` is the
`int` counter of the saved files; it starts at 0 and is only incremented, and it is taken as a
natural number here (the files of a study are fewer than 2^31).  A null modality pointer in the
second naming mode makes the formatting call throw, so the function does not return. -/
def finishRecord (env : Dcmtk) (root : Option String) (newStudyUID : String) (w : World)
    (self : StudyAnonymizer) (fileNumber : Nat) (ds : DcmDataset) (oldSeriesUID : String) :
    Flow :=
  let (newSeriesUID, w1, self1) := getSeriesUids env root w self oldSeriesUID
  let (newSOPInstanceUID, w2) := dcmGenerateUniqueIdentifier env root w1
  let ds := writeIdentifiers ds newSeriesUID newSOPInstanceUID newStudyUID
  match removeInvalidTags env (some ds) with
  | none => Flow.abort w2 { self1 with m_dataset := some ds }
  | some (false, d) => Flow.ret false w2 { self1 with m_dataset := d }
  | some (true, none) => Flow.abort w2 { self1 with m_dataset := none }
  | some (true, some ds) =>
    let self2 := { self1 with m_dataset := some ds }
    let outputName : Option String :=
      match self2.m_filenameType with
      | E_FILENAMES.F_HEX => some (formatHex08 fileNumber)
      | E_FILENAMES.F_MODALITY_SOPINSTUID =>
        match findAndGetString ds DCM_Modality with
        | none => none
        | some modality => some (modality ++ newSOPInstanceUID)
    match outputName with
    | none => Flow.abort w2 self2
    | some outputName =>
      let outputPath := self2.m_outputStudyDir ++ "/" ++ outputName
      if env.canSave outputPath then
        Flow.next { w2 with files := (outputPath, ds) :: w2.files } self2 (fileNumber + 1)
      else
        Flow.ret false w2 self2

/-- The body of the loop of `anonymizeStudy` for one file (lines 50-154).  A null series
identifier pointer is turned into a `std::string` for the call of `getSeriesUids`, which is
undefined; the function is taken not to return then. -/
def anonymizeFile (env : Dcmtk) (pseudoname : String) (methods : List E_ANONYM_METHODS)
    (root : Option String) (newStudyUID : String) (w : World) (self : StudyAnonymizer)
    (fileNumber : Nat) (file : String) : Flow :=
  match loadFile w.files file with
  | none => Flow.ret false w self
  | some ds0 =>
    let self0 := captureOriginal self ds0
    let ds := applyProfile pseudoname methods ds0
    match findAndGetString ds DCM_SeriesInstanceUID with
    | none => Flow.abort w { self0 with m_dataset := some ds }
    | some oldSeriesUID =>
      finishRecord env root newStudyUID w self0 fileNumber ds oldSeriesUID

/-- How a call of `anonymizeStudy` ends: it returns its result, or it does not return (see
`Flow.abort`). -/
inductive Outcome where
  | returned (result : Bool) (w : World) (self : StudyAnonymizer)
  | aborted (w : World) (self : StudyAnonymizer)

/-- The world at the end of a call. -/
def Outcome.world : Outcome → World
  | Outcome.returned _ w _ => w
  | Outcome.aborted w _ => w

/-- The anonymizer object at the end of a call. -/
def Outcome.self : Outcome → StudyAnonymizer
  | Outcome.returned _ _ self => self
  | Outcome.aborted _ self => self

/-- The loop of `anonymizeStudy` over the remaining files (lines 49-157). -/
def anonymizeLoop (env : Dcmtk) (pseudoname : String) (methods : List E_ANONYM_METHODS)
    (root : Option String) (newStudyUID : String) :
    World → StudyAnonymizer → Nat → List String → Outcome
  | w, self, _, [] => Outcome.returned true w self
  | w, self, fileNumber, file :: files =>
    match anonymizeFile env pseudoname methods root newStudyUID w self fileNumber file with
    | Flow.next w1 self1 n1 =>
      anonymizeLoop env pseudoname methods root newStudyUID w1 self1 n1 files
    | Flow.ret b w1 self1 => Outcome.returned b w1 self1
    | Flow.abort w1 self1 => Outcome.aborted w1 self1

/-- The member function `StudyAnonymizer::anonymizeStudy` (DicomAnonymizer.cpp, lines 40-158). -/
def anonymizeStudy (env : Dcmtk) (w : World) (self : StudyAnonymizer) (pseudoname : String)
    (methods : List E_ANONYM_METHODS) (root : Option String) : Outcome :=
  let (newStudyUID, w1) := dcmGenerateUniqueIdentifier env root w
  anonymizeLoop env pseudoname methods root newStudyUID w1 self 0 self.m_dicom_files

/-! ## Predicates used in the statements -/

/-- The fields that the basic profile overwrites with the empty string (lines 69-70). -/
def basicClearedTags : List DcmTagKey :=
  [DCM_PatientAddress, DCM_AdditionalPatientHistory]

/-- The patient characteristics that are replaced unless they are retained (lines 79-80). -/
def characteristicsTags : List DcmTagKey :=
  [DCM_PatientAge, DCM_PatientSex]

/-- The institution and personnel fields that are cleared unless they are retained
(lines 93-102). -/
def institutionTags : List DcmTagKey :=
  [DCM_InstitutionName, DCM_InstitutionAddress, DCM_InstitutionalDepartmentName,
    DCM_OperatorsName, DCM_ReferringPhysicianName, DCM_PerformingPhysicianName,
    DCM_PhysiciansOfRecord, DCM_NameOfPhysiciansReadingStudy]

/-- What a stretch of a run from world `w` and series map `m` to world `w'` and series map `m'`
that saved the files `writes` does with identifiers: the saved files are in front of the old
ones; the instance identifier of each is one that the generator handed out during the stretch;
no two of them have the same instance identifier; and an entry of the series map at the end was
there at the start, or was generated during the stretch and is no instance identifier of a
saved file. -/
def FreshWrites (env : Dcmtk) (root : Option String) (w : World) (m : List (String × String))
    (w' : World) (m' : List (String × String)) (writes : List (String × DcmDataset)) : Prop :=
  w'.files = writes ++ w.files ∧
  w.uidCalls ≤ w'.uidCalls ∧
  (∀ p ∈ writes, ∃ n, w.uidCalls ≤ n ∧ n < w'.uidCalls ∧
    findElement p.2 DCM_SOPInstanceUID = some (env.uidOf root n)) ∧
  writes.Pairwise (fun p q =>
    findElement p.2 DCM_SOPInstanceUID ≠ findElement q.2 DCM_SOPInstanceUID) ∧
  (∀ a v, umapFind m' a = some v →
    umapFind m a = some v ∨
      ∃ n, w.uidCalls ≤ n ∧ n < w'.uidCalls ∧ v = env.uidOf root n ∧
        ∀ p ∈ writes, findElement p.2 DCM_SOPInstanceUID ≠ some v)

/-! ## Sample data for the examples -/

/-- A library for the examples: the n-th identifier is the digit 1 written n + 1 times, the tags
of odd group number are not in the dictionary, every file can be saved. -/
def sampleDcmtk : Dcmtk :=
  { uidOf := fun _ n => String.mk (List.replicate (n + 1) '1'),
    tagName := fun k => if k.group % 2 = 1 then "Unknown Tag & Data" else "Known",
    canSave := fun _ => true }

/-- A record with patient, institution, device and identifier fields and one private field. -/
def sampleRecord : DcmDataset :=
  [ (DCM_SOPInstanceUID, "9.1"), (DCM_Modality, "CT"), (DCM_InstitutionName, "Hospital"),
    (DCM_InstitutionAddress, "Street 1"), (DCM_ReferringPhysicianName, "Dr A"),
    (DCM_StationName, "CT01"), (DCM_InstitutionalDepartmentName, "Radiology"),
    (DCM_PhysiciansOfRecord, "Dr B"), (DCM_PerformingPhysicianName, "Dr C"),
    (DCM_NameOfPhysiciansReadingStudy, "Dr D"), (DCM_OperatorsName, "Op E"),
    (⟨0x0009, 0x0010⟩, "private"),
    (DCM_PatientName, "Doe^John"), (DCM_PatientID, "P-17"), (DCM_PatientSex, "M"),
    (DCM_PatientAge, "042Y"), (DCM_PatientAddress, "Home 2"),
    (DCM_AdditionalPatientHistory, "none"), (DCM_StudyInstanceUID, "9.2"),
    (DCM_SeriesInstanceUID, "9.3"), (DCM_PatientInstitutionResidence, "Ward 3") ]

/-- The directory of the sample study: two files and a DICOMDIR. -/
def sampleEntries : List DirEntry :=
  [⟨"in/a", "a", false⟩, ⟨"in/DICOMDIR", "DICOMDIR", false⟩, ⟨"in/b", "b", false⟩]

/-- A world with two files of the sample record, and no identifier generated yet. -/
def sampleWorld : World :=
  { uidCalls := 0, files := [("in/a", sampleRecord), ("in/b", sampleRecord)] }

/-- An anonymizer that has found the two files of the sample world. -/
def sampleAnonymizer : StudyAnonymizer :=
  { StudyAnonymizer.default with
    m_dicom_files := ["in/a", "in/b"], m_outputStudyDir := "out/P01/DATA" }

/-! ## The sweep, in the words of the specification -/

/-- Whether the dictionary knows the tag of an element. -/
def recognized (env : Dcmtk) (element : DcmTagKey × String) : Bool :=
  decide (env.tagName element.1 ≠ "Unknown Tag & Data")

/-- The sweep as the specification words it: the recognized fields of the record, in their
order. -/
def recognizedFields (env : Dcmtk) (ds : DcmDataset) : DcmDataset :=
  ds.filter (recognized env)

/-! ## Output names -/

/-- The name under which lines 138-145 save a record, from the naming mode, the file number, the
swept data set and the new instance identifier; `none` when the modality pointer is null. -/
def outputNameOf (filenameType : E_FILENAMES) (fileNumber : Nat) (ds : DcmDataset)
    (newSOPInstanceUID : String) : Option String :=
  match filenameType with
  | E_FILENAMES.F_HEX => some (formatHex08 fileNumber)
  | E_FILENAMES.F_MODALITY_SOPINSTUID =>
    match findAndGetString ds DCM_Modality with
    | none => none
    | some modality => some (modality ++ newSOPInstanceUID)

/-- The value of a hexadecimal digit in upper case. -/
def hexValue (c : Char) : Nat :=
  if c.toNat < 58 then c.toNat - 48 else c.toNat - 55

/-- The number that a string of hexadecimal digits in upper case denotes. -/
def decodeHex (s : String) : Nat :=
  Nat.ofDigits 16 (s.data.reverse.map hexValue)

/-! ## Results and failures -/

/-- The value that a call returned, if it returned. -/
def Outcome.result : Outcome → Option Bool
  | Outcome.returned b _ _ => some b
  | Outcome.aborted _ _ => none

/-- The record in `file` cannot be saved: it loads, has a series identifier, is swept and gets a
name, and `saveFile` fails for the path under that name in the output directory. -/
def SaveFails (env : Dcmtk) (pseudoname : String) (methods : List E_ANONYM_METHODS)
    (root : Option String) (newStudyUID : String) (w : World) (self : StudyAnonymizer)
    (fileNumber : Nat) (file : String) : Prop :=
  ∃ ds0 old ds' name,
    loadFile w.files file = some ds0 ∧
    findAndGetString ds0 DCM_SeriesInstanceUID = some old ∧
    removeInvalidTags env
      (some (writeIdentifiers (applyProfile pseudoname methods ds0)
        (getSeriesUids env root w (captureOriginal self ds0) old).1
        (env.uidOf root (getSeriesUids env root w (captureOriginal self ds0) old).2.1.uidCalls)
        newStudyUID)) = some (true, some ds') ∧
    outputNameOf self.m_filenameType fileNumber ds'
      (env.uidOf root (getSeriesUids env root w (captureOriginal self ds0) old).2.1.uidCalls)
      = some name ∧
    env.canSave (self.m_outputStudyDir ++ "/" ++ name) = false

/-- An anonymizer that has found three files, the second of which is not on the disk of the
sample world. -/
def sampleAnonymizerMissing : StudyAnonymizer :=
  { sampleAnonymizer with m_dicom_files := ["in/a", "in/x", "in/b"] }

/-- A library like the sample one in which the file "out/P01/DATA/CT1111" cannot be saved. -/
def sampleDcmtkNoSave : Dcmtk :=
  { sampleDcmtk with canSave := fun p => decide (p ≠ "out/P01/DATA/CT1111") }

/-- The sample anonymizer in the naming mode with modality and instance identifier. -/
def sampleAnonymizerModality : StudyAnonymizer :=
  { sampleAnonymizer with m_filenameType := E_FILENAMES.F_MODALITY_SOPINSTUID }

/-! ## `main` of src/main.cpp: the loop over the studies -/

/-- The characters of `std::to_string` of a number that is not negative: its decimal digits, the
most significant one first. -/
def decimalDigits (n : Nat) : List Char :=
  Nat.toDigits 10 n

/-- The value of a decimal digit. -/
def decimalValue (c : Char) : Nat :=
  c.toNat - 48

/-- The number that a string of decimal digits denotes. -/
def decodeDecimal (s : String) : Nat :=
  Nat.ofDigits 10 (s.data.reverse.map decimalValue)

/-- The replacement field `{:0{}}` of the format call of line 245 for an index that is not
negative: its decimal digits, padded with zeros on the left to at least the given width. -/
def formatZeroPadded (index width : Nat) : String :=
  String.mk (List.replicate (width - (decimalDigits index).length) '0' ++ decimalDigits index)

/-- An entry of the input directory: its path, whether it is a directory, and what the recursive
iteration of it yields. -/
structure StudyDir where
  path : String
  is_directory : Bool
  entries : List DirEntry

/-- The function `getNumberOfStudies` (src/main.cpp, lines 26-44): every entry with a path that
is not empty is counted, a directory or not. -/
def getNumberOfStudies : List StudyDir → Nat
  | [] => 0
  | d :: ds => if d.path.isEmpty then getNumberOfStudies ds else getNumberOfStudies ds + 1

/-- The width `indexWidth` of src/main.cpp, line 221: the length of `std::to_string` of the
number of studies. -/
def indexWidth (numberOfStudies : Nat) : Nat :=
  (decimalDigits numberOfStudies).length

/-- The function `findStudyDirectories` (src/src/main.cpp, lines 34-44): the paths of the entries
of the input directory that are directories, in their order. -/
def findStudyDirectories (entries : List StudyDir) : List String :=
  (entries.filter (fun entry => entry.is_directory)).map (fun entry => entry.path)

/-- The width `m_count_width` of src/src/main.cpp, lines 275-277, for `N` study directories: the
length of `std::to_string(N)` cast to `unsigned short`, then incremented. -/
def m_count_width (N : Nat) : Nat :=
  ((decimalDigits N).length % 2 ^ 16 + 1) % 2 ^ 16

/-- What `main` of src/main.cpp has read from the command line. -/
structure MainOptions where
  opt_anonymizedPrefix : String
  opt_outDirectory : String
  opt_rootUID : Option String
  opt_filenameType : E_FILENAMES
  opt_anonymizationMethods : List E_ANONYM_METHODS

/-- The variables of `main` of src/main.cpp that change in the loop: the world, the anonymizer,
the index of the next pseudonym, the lines printed to the key list file, and the pseudonyms
applied so far (each is logged at line 249). -/
structure MainState where
  world : World
  anonymizer : StudyAnonymizer
  index : Nat
  keyListFile : List String
  applied : List String

/-- How the pass of the loop of `main` for one entry ends. -/
inductive StudyResult where
  /-- No file was found (lines 237-243): `continue`. -/
  | noFiles
  /-- The call of `anonymizeStudy` returned false (lines 265-273): `continue`. -/
  | failed
  /-- The row was printed to the key list file (line 275). -/
  | completed (row : String)
  /-- The pass did not end: the entry is no directory, so that its recursive iteration throws,
  or `anonymizeStudy` did not return. -/
  | crashed
  deriving DecidableEq, Repr

/-- The body of the loop of `main` (src/main.cpp, lines 235-275) for one entry of the input
directory, with the width computed at line 221.  The index is an `int` there; it is a natural
number here, which is the same as long as fewer than 2^31 - 1 pseudonyms are assigned. -/
def processStudy (env : Dcmtk) (opts : MainOptions) (width : Nat) (s : MainState)
    (studyDir : StudyDir) : StudyResult × MainState :=
  if !studyDir.is_directory then (StudyResult.crashed, s)
  else
    let (cond, a1) := getStudyFilenames s.anonymizer studyDir.entries
    if !cond then (StudyResult.noFiles, { s with anonymizer := a1 })
    else
      let pseudoname := opts.opt_anonymizedPrefix ++ formatZeroPadded s.index width
      let a2 := { a1 with
        m_outputStudyDir := opts.opt_outDirectory ++ "/" ++ pseudoname ++ "/DATA" }
      let s1 := { s with index := s.index + 1, applied := s.applied ++ [pseudoname] }
      match anonymizeStudy env s.world a2 pseudoname opts.opt_anonymizationMethods
          opts.opt_rootUID with
      | Outcome.aborted w a3 => (StudyResult.crashed, { s1 with world := w, anonymizer := a3 })
      | Outcome.returned false w a3 =>
        (StudyResult.failed, { s1 with world := w, anonymizer := a3 })
      | Outcome.returned true w a3 =>
        let row := a3.m_oldName ++ "," ++ a3.m_oldID ++ "," ++ pseudoname ++ "\n"
        (StudyResult.completed row,
          { s1 with world := w, anonymizer := a3, keyListFile := s1.keyListFile ++ [row] })

/-- The loop of `main` (src/main.cpp, lines 234-276): what happened entry by entry, and the state
at the end; a pass that does not end is the last one. -/
def mainLoop (env : Dcmtk) (opts : MainOptions) (width : Nat) :
    MainState → List StudyDir → List StudyResult × MainState
  | s, [] => ([], s)
  | s, d :: ds =>
    match processStudy env opts width s d with
    | (StudyResult.crashed, s1) => ([StudyResult.crashed], s1)
    | (r, s1) =>
      let rest := mainLoop env opts width s1 ds
      (r :: rest.1, rest.2)

/-- The run of `main` of src/main.cpp from line 217 on, for the entries of the input
directory. -/
def mainRun (env : Dcmtk) (opts : MainOptions) (w : World) (inDirectory : List StudyDir) :
    List StudyResult × MainState :=
  let numberOfStudies := getNumberOfStudies inDirectory
  let width := indexWidth numberOfStudies
  let anonymizer := { StudyAnonymizer.default with m_filenameType := opts.opt_filenameType }
  mainLoop env opts width
    { world := w, anonymizer := anonymizer, index := 1,
      keyListFile := ["old name, old id, new name/id\n"], applied := [] }
    inDirectory

/-- The rows of the studies that were completed, in their order. -/
def completedRows : List StudyResult → List String
  | [] => []
  | StudyResult.completed row :: rs => row :: completedRows rs
  | _ :: rs => completedRows rs

/-! ## `main` of src/src/main.cpp: the loop that writes the crosswalk -/

/-- The public members of the anonymizer that a crosswalk row is made of
(DicomAnonymizer.hpp, lines 71-76). -/
structure CrosswalkFields where
  m_pseudoname : String
  m_old_name : String
  m_old_id : String
  m_old_studyuid : String
  m_new_studyuid : String
  m_study_date : String

/-- The row that lines 327-330 of src/src/main.cpp print for a study. -/
def crosswalkRow (a : CrosswalkFields) : String :=
  a.m_old_id ++ "," ++ a.m_old_name ++ "," ++ a.m_pseudoname ++ "," ++ a.m_study_date ++ "," ++
    a.m_old_studyuid ++ "," ++ a.m_new_studyuid ++ "\n"

/-- The loop of lines 313-331 of src/src/main.cpp over the study directories.  The state `σ` is
the anonymizer together with the world; `anonymizeStudy` is the member function of that name,
whose body is not among the sources: it is a parameter that gives whether the returned condition
is good, and the state afterwards.  The second component is the lines written to the file. -/
def crosswalkLoop {σ : Type} (anonymizeStudy : σ → String → Bool × σ)
    (fields : σ → CrosswalkFields) : σ × List String → List String → σ × List String
  | acc, [] => acc
  | (s, lines), study_dir :: rest =>
    let (good, s1) := anonymizeStudy s study_dir
    if !good then crosswalkLoop anonymizeStudy fields (s1, lines) rest
    else crosswalkLoop anonymizeStudy fields (s1, lines ++ [crosswalkRow (fields s1)]) rest

/-- The header that line 310 of src/src/main.cpp writes. -/
def crosswalkHeader : String :=
  "PatientID,PatientName,Pseudoname,StudyDate,OldStudyInstanceUID,NewStudyInstanceUID\n"

/-- The conditions and states of the calls of `anonymizeStudy` over the study directories, in
order: for each study whether the condition was good, and the state after the call. -/
def studyOutcomes {σ : Type} (anonymizeStudy : σ → String → Bool × σ) :
    σ → List String → List (Bool × σ)
  | _, [] => []
  | s, study_dir :: rest =>
    anonymizeStudy s study_dir :: studyOutcomes anonymizeStudy (anonymizeStudy s study_dir).2 rest

/-- The crosswalk as the specification words it: the header, then one row for each study that
was anonymized successfully, in the order of processing. -/
def crosswalkSpec {σ : Type} (fields : σ → CrosswalkFields) (outcomes : List (Bool × σ)) :
    List String :=
  crosswalkHeader :: (outcomes.filter (fun o => o.1)).map (fun o => crosswalkRow (fields o.2))

/-- A record with no series identifier. -/
def sampleRecordNoSeries : DcmDataset :=
  [ (DCM_SOPInstanceUID, "9.1"), (DCM_Modality, "CT"), (DCM_PatientName, "Doe^John"),
    (DCM_PatientID, "P-17"), (DCM_StudyInstanceUID, "9.2") ]

/-- A world whose file "in/a" holds the record with no series identifier. -/
def sampleWorldNoSeries : World :=
  { uidCalls := 0, files := [("in/a", sampleRecordNoSeries), ("in/b", sampleRecord)] }

/-- Options for the examples: prefix "P", output directory "out", hex file names. -/
def sampleOptions : MainOptions :=
  { opt_anonymizedPrefix := "P", opt_outDirectory := "out", opt_rootUID := none,
    opt_filenameType := E_FILENAMES.F_HEX,
    opt_anonymizationMethods := [E_ANONYM_METHODS.M_113100] }

/-- An input directory with four study directories: the first and the last hold a file of the
sample world, the second holds only a DICOMDIR, the file of the third cannot be loaded. -/
def sampleInDirectory : List StudyDir :=
  [ ⟨"in/s1", true, [⟨"in/a", "a", false⟩]⟩,
    ⟨"in/s2", true, [⟨"in/s2/DICOMDIR", "DICOMDIR", false⟩]⟩,
    ⟨"in/s3", true, [⟨"in/x", "x", false⟩]⟩,
    ⟨"in/s4", true, [⟨"in/b", "b", false⟩]⟩ ]

/-- A stand-in for the member function `anonymizeStudy` of the newer sources in the examples: the
state is the number of studies seen, and the study directory "bad" fails. -/
def sampleAnonymizeStudy (s : Nat) (study_dir : String) : Bool × Nat :=
  (decide (study_dir ≠ "bad"), s + 1)

/-- The members of the stand-in anonymizer after a study: the pseudonym is the letter S and the
number of the study. -/
def sampleFields (s : Nat) : CrosswalkFields :=
  { m_pseudoname := String.mk ('S' :: decimalDigits s), m_old_name := "Doe^John",
    m_old_id := "P-17", m_old_studyuid := "9.2", m_new_studyuid := "1", m_study_date := "" }

/-- An input directory with five study directories, each with a file of the sample world. -/
def sampleFiveStudies : List StudyDir :=
  [ ⟨"in/s1", true, [⟨"in/a", "a", false⟩]⟩, ⟨"in/s2", true, [⟨"in/b", "b", false⟩]⟩,
    ⟨"in/s3", true, [⟨"in/a", "a", false⟩]⟩, ⟨"in/s4", true, [⟨"in/b", "b", false⟩]⟩,
    ⟨"in/s5", true, [⟨"in/a", "a", false⟩]⟩ ]

/-! ## Theorems -/

/-! ### The series map -/

/-- The sample generator never returns the same identifier twice. -/
theorem sampleDcmtk_uidOf_injective (root : Option String) (a b : Nat)
    (h : sampleDcmtk.uidOf root a = sampleDcmtk.uidOf root b) : a = b := by
  have := congrArg String.length h
  simpa [sampleDcmtk] using this

theorem umapFind_assign_same (m : List (String × String)) (k v : String) :
    umapFind (umapAssign m k v) k = some v := by
  induction m with
  | nil => simp [umapAssign, umapFind]
  | cons p t ih =>
    obtain ⟨k', v'⟩ := p
    by_cases h : k' = k
    · simp [umapAssign, umapFind, h]
    · simp [umapAssign, umapFind, h, ih]

theorem umapFind_assign_other (m : List (String × String)) (k v a : String) (h : a ≠ k) :
    umapFind (umapAssign m k v) a = umapFind m a := by
  have hka : ¬ k = a := fun e => h e.symm
  induction m with
  | nil => simp [umapAssign, umapFind, hka]
  | cons p t ih =>
    obtain ⟨k', v'⟩ := p
    by_cases hk : k' = k
    · subst hk
      simp [umapAssign, umapFind, hka]
    · by_cases ha : k' = a
      · subst ha
        simp [umapAssign, umapFind, hk]
      · simp [umapAssign, umapFind, hk, ha, ih]

/-- A call for a key that is in the map returns the stored value and changes nothing. -/
theorem getSeriesUids_hit (env : Dcmtk) (root : Option String) (w : World)
    (self : StudyAnonymizer) (x v : String) (h : umapFind self.m_series_uids x = some v) :
    getSeriesUids env root w self x = (v, w, self) := by
  simp [getSeriesUids, umapContains, umapSubscript, h]

/-- A call for a key that is not in the map generates an identifier and stores it. -/
theorem getSeriesUids_miss (env : Dcmtk) (root : Option String) (w : World)
    (self : StudyAnonymizer) (x : String) (h : umapFind self.m_series_uids x = none) :
    getSeriesUids env root w self x =
      (env.uidOf root w.uidCalls, { w with uidCalls := w.uidCalls + 1 },
        { self with
          m_series_uids := umapAssign self.m_series_uids x (env.uidOf root w.uidCalls) }) := by
  simp [getSeriesUids, umapContains, umapSubscript, h, dcmGenerateUniqueIdentifier,
    umapFind_assign_same]

/-- The map after a call, as a function of the map before. -/
theorem getSeriesUids_find (env : Dcmtk) (root : Option String) (w : World)
    (self : StudyAnonymizer) (x a : String) :
    umapFind (getSeriesUids env root w self x).2.2.m_series_uids a =
      if a = x then some (getSeriesUids env root w self x).1
      else umapFind self.m_series_uids a := by
  cases h : umapFind self.m_series_uids x with
  | some v =>
    rw [getSeriesUids_hit env root w self x v h]
    by_cases ha : a = x
    · simp [ha, h]
    · simp [ha]
  | none =>
    rw [getSeriesUids_miss env root w self x h]
    by_cases ha : a = x
    · simp [ha, umapFind_assign_same]
    · simp [ha, umapFind_assign_other _ _ _ _ ha]

theorem getSeriesUids_preserves (env : Dcmtk) (root : Option String) (w : World)
    (self : StudyAnonymizer) (x a v : String) (h : umapFind self.m_series_uids a = some v) :
    umapFind (getSeriesUids env root w self x).2.2.m_series_uids a = some v := by
  rw [getSeriesUids_find]
  by_cases ha : a = x
  · subst ha
    rw [getSeriesUids_hit env root w self a v h]
    simp
  · simp [ha, h]

theorem resolveAll_preserves (env : Dcmtk) (root : Option String) (xs : List String) :
    ∀ (w : World) (self : StudyAnonymizer) (a v : String),
      umapFind self.m_series_uids a = some v →
      umapFind (resolveAll env root w self xs).2.2.m_series_uids a = some v := by
  induction xs with
  | nil => intro w self a v h; simpa [resolveAll] using h
  | cons x xs ih =>
    intro w self a v h
    simp only [resolveAll]
    exact ih _ _ a v (getSeriesUids_preserves env root w self x a v h)

/-- Once a key is in the map, every later call for it returns the stored value. -/
theorem resolveAll_hit (env : Dcmtk) (root : Option String) (xs : List String) :
    ∀ (w : World) (self : StudyAnonymizer) (x v : String) (j : Nat),
      umapFind self.m_series_uids x = some v → xs[j]? = some x →
      (resolveAll env root w self xs).1[j]? = some v := by
  induction xs with
  | nil => intro w self x v j _ hj; simp at hj
  | cons y ys ih =>
    intro w self x v j h hj
    cases j with
    | zero =>
      simp at hj
      subst hj
      simp [resolveAll, getSeriesUids_hit env root w self y v h]
    | succ j =>
      simp at hj
      simp only [resolveAll, List.getElem?_cons_succ]
      exact ih _ _ x v j (getSeriesUids_preserves env root w self y x v h) hj

/-- Every returned identifier is the value of its key in the map after the sequence. -/
theorem resolveAll_stored (env : Dcmtk) (root : Option String) (xs : List String) :
    ∀ (w : World) (self : StudyAnonymizer) (x v : String) (i : Nat),
      xs[i]? = some x → (resolveAll env root w self xs).1[i]? = some v →
      umapFind (resolveAll env root w self xs).2.2.m_series_uids x = some v := by
  induction xs with
  | nil => intro w self x v i hi; simp at hi
  | cons y ys ih =>
    intro w self x v i hi hv
    cases i with
    | zero =>
      simp at hi
      subst hi
      simp [resolveAll] at hv
      simp only [resolveAll]
      apply resolveAll_preserves
      rw [getSeriesUids_find]
      simp [hv]
    | succ i =>
      simp at hi
      simp only [resolveAll, List.getElem?_cons_succ] at hv ⊢
      exact ih _ _ x v i hi hv

theorem resolveAll_length (env : Dcmtk) (root : Option String) (xs : List String) :
    ∀ (w : World) (self : StudyAnonymizer),
      (resolveAll env root w self xs).1.length = xs.length := by
  induction xs with
  | nil => intro w self; simp [resolveAll]
  | cons y ys ih => intro w self; simp [resolveAll, ih]

/-- C1 (UID stability): in a sequence of `getSeriesUids` calls with no reset in between, started
in any state, two calls with the same old series identifier return the same new identifier,
whatever was resolved between them. -/
theorem getSeriesUids_stable (env : Dcmtk) (root : Option String) (w : World)
    (self : StudyAnonymizer) (xs : List String) (i j : Nat) (x : String)
    (hi : xs[i]? = some x) (hj : xs[j]? = some x) :
    ∃ v, (resolveAll env root w self xs).1[i]? = some v ∧
      (resolveAll env root w self xs).1[j]? = some v := by
  have hlen := resolveAll_length env root xs w self
  have hi' : i < (resolveAll env root w self xs).1.length := by
    rw [hlen]
    by_contra hc
    rw [List.getElem?_eq_none (Nat.le_of_not_lt hc)] at hi
    cases hi
  obtain ⟨v, hv⟩ : ∃ v, (resolveAll env root w self xs).1[i]? = some v :=
    ⟨_, List.getElem?_eq_getElem hi'⟩
  refine ⟨v, hv, ?_⟩
  have hst := resolveAll_stored env root xs w self x v i hi hv
  clear hi' hlen
  induction xs generalizing w self i j with
  | nil => simp at hi
  | cons y ys ih =>
    cases j with
    | zero =>
      simp at hj
      subst hj
      simp only [resolveAll, List.getElem?_cons_zero, Option.some.injEq]
      simp only [resolveAll] at hst
      have h1 := getSeriesUids_find env root w self y y
      simp only [if_true] at h1
      have h2 := resolveAll_preserves env root ys (getSeriesUids env root w self y).2.1 _ y _ h1
      rw [h2] at hst
      exact Option.some.inj hst
    | succ j =>
      simp at hj
      cases i with
      | zero =>
        simp at hi
        subst hi
        simp only [resolveAll, List.getElem?_cons_zero, Option.some.injEq] at hv
        simp only [resolveAll, List.getElem?_cons_succ]
        have h1 := getSeriesUids_find env root w self y y
        simp only [if_true] at h1
        rw [hv] at h1
        exact resolveAll_hit env root ys _ _ y v j h1 hj
      | succ i =>
        simp at hi
        simp only [resolveAll, List.getElem?_cons_succ] at hv hst ⊢
        exact ih _ _ i j hi hj hv hst

/-- Witness of C1: the calls for "a", "b", "a" return the same identifier at positions 0 and 2. -/
theorem getSeriesUids_stable_witness :
    ∃ v, (resolveAll sampleDcmtk
        none ⟨0, []⟩ StudyAnonymizer.default ["a", "b", "a"]).1[0]? = some v ∧
      (resolveAll sampleDcmtk
        none ⟨0, []⟩ StudyAnonymizer.default ["a", "b", "a"]).1[2]? = some v :=
  getSeriesUids_stable _ none ⟨0, []⟩ StudyAnonymizer.default ["a", "b", "a"] 0 2 "a"
    (by decide) (by decide)

/-- The values of the map are identifiers that the generator handed out at positions from `lo`
up to the current one. -/
theorem getSeriesUids_generated (env : Dcmtk) (root : Option String) (lo : Nat) (w : World)
    (self : StudyAnonymizer) (x : String) (hlo : lo ≤ w.uidCalls)
    (h : ∀ a v, umapFind self.m_series_uids a = some v →
      ∃ n, lo ≤ n ∧ n < w.uidCalls ∧ v = env.uidOf root n) :
    lo ≤ (getSeriesUids env root w self x).2.1.uidCalls ∧
    w.uidCalls ≤ (getSeriesUids env root w self x).2.1.uidCalls ∧
    ∀ a v, umapFind (getSeriesUids env root w self x).2.2.m_series_uids a = some v →
      ∃ n, lo ≤ n ∧ n < (getSeriesUids env root w self x).2.1.uidCalls ∧
        v = env.uidOf root n := by
  cases hx : umapFind self.m_series_uids x with
  | some v0 =>
    rw [getSeriesUids_hit env root w self x v0 hx]
    exact ⟨hlo, Nat.le_refl _, h⟩
  | none =>
    rw [getSeriesUids_miss env root w self x hx]
    refine ⟨Nat.le_succ_of_le hlo, Nat.le_succ _, ?_⟩
    intro a v hav
    by_cases ha : a = x
    · subst ha
      simp only [umapFind_assign_same, Option.some.injEq] at hav
      exact ⟨w.uidCalls, hlo, Nat.lt_succ_self _, hav.symm⟩
    · simp only [umapFind_assign_other _ _ _ _ ha] at hav
      obtain ⟨n, h1, h2, h3⟩ := h a v hav
      exact ⟨n, h1, Nat.lt_succ_of_lt h2, h3⟩

theorem resolveAll_generated (env : Dcmtk) (root : Option String) (lo : Nat)
    (xs : List String) :
    ∀ (w : World) (self : StudyAnonymizer), lo ≤ w.uidCalls →
      (∀ a v, umapFind self.m_series_uids a = some v →
        ∃ n, lo ≤ n ∧ n < w.uidCalls ∧ v = env.uidOf root n) →
      lo ≤ (resolveAll env root w self xs).2.1.uidCalls ∧
      w.uidCalls ≤ (resolveAll env root w self xs).2.1.uidCalls ∧
      ∀ a v, umapFind (resolveAll env root w self xs).2.2.m_series_uids a = some v →
        ∃ n, lo ≤ n ∧ n < (resolveAll env root w self xs).2.1.uidCalls ∧
          v = env.uidOf root n := by
  induction xs with
  | nil => intro w self hlo h; exact ⟨hlo, Nat.le_refl _, h⟩
  | cons y ys ih =>
    intro w self hlo h
    obtain ⟨g1, g2, g3⟩ := getSeriesUids_generated env root lo w self y hlo h
    obtain ⟨r1, r2, r3⟩ := ih _ _ g1 g3
    exact ⟨r1, Nat.le_trans g2 r2, r3⟩

/-- With a generator that does not repeat, a call keeps the map injective. -/
theorem getSeriesUids_keeps_injective (env : Dcmtk) (root : Option String)
    (hgen : ∀ a b, env.uidOf root a = env.uidOf root b → a = b) (w : World)
    (self : StudyAnonymizer) (x : String)
    (hg : ∀ a v, umapFind self.m_series_uids a = some v →
      ∃ n, n < w.uidCalls ∧ v = env.uidOf root n)
    (hinj : ∀ a b v, umapFind self.m_series_uids a = some v →
      umapFind self.m_series_uids b = some v → a = b) :
    ∀ a b v, umapFind (getSeriesUids env root w self x).2.2.m_series_uids a = some v →
      umapFind (getSeriesUids env root w self x).2.2.m_series_uids b = some v → a = b := by
  cases hx : umapFind self.m_series_uids x with
  | some v0 =>
    rw [getSeriesUids_hit env root w self x v0 hx]
    exact hinj
  | none =>
    rw [getSeriesUids_miss env root w self x hx]
    have fresh : ∀ c v, c ≠ x → umapFind self.m_series_uids c = some v →
        v ≠ env.uidOf root w.uidCalls := by
      intro c v _ hc e
      obtain ⟨n, hn, hv⟩ := hg c v hc
      have := hgen n w.uidCalls (hv.symm.trans e)
      omega
    intro a b v ha hb
    by_cases hax : a = x <;> by_cases hbx : b = x
    · rw [hax, hbx]
    · subst hax
      simp only [umapFind_assign_same, Option.some.injEq] at ha
      simp only [umapFind_assign_other _ _ _ _ hbx] at hb
      exact absurd ha.symm (fresh b v hbx hb)
    · subst hbx
      simp only [umapFind_assign_same, Option.some.injEq] at hb
      simp only [umapFind_assign_other _ _ _ _ hax] at ha
      exact absurd hb.symm (fresh a v hax ha)
    · simp only [umapFind_assign_other _ _ _ _ hax] at ha
      simp only [umapFind_assign_other _ _ _ _ hbx] at hb
      exact hinj a b v ha hb

theorem resolveAll_keeps_injective (env : Dcmtk) (root : Option String)
    (hgen : ∀ a b, env.uidOf root a = env.uidOf root b → a = b) (xs : List String) :
    ∀ (w : World) (self : StudyAnonymizer),
      (∀ a v, umapFind self.m_series_uids a = some v →
        ∃ n, 0 ≤ n ∧ n < w.uidCalls ∧ v = env.uidOf root n) →
      (∀ a b v, umapFind self.m_series_uids a = some v →
        umapFind self.m_series_uids b = some v → a = b) →
      ∀ a b v, umapFind (resolveAll env root w self xs).2.2.m_series_uids a = some v →
        umapFind (resolveAll env root w self xs).2.2.m_series_uids b = some v → a = b := by
  induction xs with
  | nil => intro w self _ hinj; exact hinj
  | cons y ys ih =>
    intro w self hg hinj
    simp only [resolveAll]
    apply ih
    · exact (getSeriesUids_generated env root 0 w self y (Nat.zero_le _) hg).2.2
    · apply getSeriesUids_keeps_injective env root hgen w self y _ hinj
      intro a v hav
      obtain ⟨n, _, h2, h3⟩ := hg a v hav
      exact ⟨n, h2, h3⟩

/-- The keys of the map after a sequence of calls: the keys before, and the resolved ones. -/
theorem resolveAll_keys (env : Dcmtk) (root : Option String) (xs : List String) :
    ∀ (w : World) (self : StudyAnonymizer) (a : String),
      umapContains (resolveAll env root w self xs).2.2.m_series_uids a = true ↔
        (umapContains self.m_series_uids a = true ∨ a ∈ xs) := by
  induction xs with
  | nil => intro w self a; simp [resolveAll]
  | cons y ys ih =>
    intro w self a
    simp only [resolveAll]
    rw [ih]
    simp only [umapContains, getSeriesUids_find, List.mem_cons]
    by_cases ha : a = y
    · simp [ha]
    · simp [ha]

/-- The reset at the start of `getStudyFilenames` leaves the series map empty. -/
theorem getStudyFilenames_clears (self : StudyAnonymizer) (entries : List DirEntry) :
    (getStudyFilenames self entries).2.m_series_uids = [] := by
  have key : ∀ (c : Bool) (s : StudyAnonymizer),
      (if c then (false, s) else (true, s)).2 = s := by
    intro c s
    cases c <;> rfl
  unfold getStudyFilenames
  simp only [key]
  cases h : self.m_series_uids <;> simp

/-- C2 (UID injectivity): with a generator that never returns the same string twice, after every
sequence of `getSeriesUids` calls in the scope that `getStudyFilenames` opens, two old series
identifiers with the same new identifier are equal, distinct old identifiers were answered with
distinct new identifiers, and the keys of the map are exactly the resolved identifiers. -/
theorem getSeriesUids_injective (env : Dcmtk) (root : Option String)
    (hgen : ∀ a b, env.uidOf root a = env.uidOf root b → a = b)
    (w : World) (self : StudyAnonymizer) (entries : List DirEntry) (xs : List String) :
    (∀ a b v,
      umapFind (resolveAll env root w (getStudyFilenames self entries).2 xs).2.2.m_series_uids a
        = some v →
      umapFind (resolveAll env root w (getStudyFilenames self entries).2 xs).2.2.m_series_uids b
        = some v → a = b) ∧
    (∀ (i j : Nat) (a b : String), xs[i]? = some a → xs[j]? = some b → a ≠ b →
      (resolveAll env root w (getStudyFilenames self entries).2 xs).1[i]? ≠
        (resolveAll env root w (getStudyFilenames self entries).2 xs).1[j]?) ∧
    (∀ a,
      umapContains (resolveAll env root w (getStudyFilenames self entries).2 xs).2.2.m_series_uids
        a = true ↔ a ∈ xs) := by
  have h0 := getStudyFilenames_clears self entries
  have hinj := resolveAll_keeps_injective env root hgen xs w (getStudyFilenames self entries).2
    (by intro a v hav; rw [h0] at hav; simp [umapFind] at hav)
    (by intro a b v hav; rw [h0] at hav; simp [umapFind] at hav)
  refine ⟨hinj, ?_, ?_⟩
  · intro i j a b hi hj hab e
    have hlen := resolveAll_length env root xs w (getStudyFilenames self entries).2
    have hi' : i < (resolveAll env root w (getStudyFilenames self entries).2 xs).1.length := by
      rw [hlen]
      by_contra hc
      rw [List.getElem?_eq_none (Nat.le_of_not_lt hc)] at hi
      cases hi
    have hv := List.getElem?_eq_getElem hi'
    have s1 := resolveAll_stored env root xs w _ a _ i hi hv
    have s2 := resolveAll_stored env root xs w _ b _ j hj (e ▸ hv)
    exact hab (hinj a b _ s1 s2)
  · intro a
    rw [resolveAll_keys, h0]
    simp [umapContains, umapFind]

/-- Witness of C2 for the generator whose n-th identifier is n times the letter u: the calls for
"a" and "b" are answered with different identifiers. -/
theorem getSeriesUids_injective_witness :
    (resolveAll sampleDcmtk
        none ⟨0, []⟩ (getStudyFilenames StudyAnonymizer.default []).2 ["a", "b", "a"]).1[0]? ≠
      (resolveAll sampleDcmtk
        none ⟨0, []⟩ (getStudyFilenames StudyAnonymizer.default []).2 ["a", "b", "a"]).1[1]? :=
  (getSeriesUids_injective sampleDcmtk
    none (sampleDcmtk_uidOf_injective none)
    ⟨0, []⟩ StudyAnonymizer.default [] ["a", "b", "a"]).2.1 0 1 "a" "b"
    (by decide) (by decide) (by decide)

/-- C3 (UID scope isolation): the reset in `getStudyFilenames` leaves the series map empty, and
with a generator that never repeats, an old identifier that was resolved in one study scope is
answered after the reset (and after any further calls of the new scope) with an identifier that
the generator handed out after the reset and that differs from the one returned before. -/
theorem getSeriesUids_scope_isolation (env : Dcmtk) (root : Option String)
    (hgen : ∀ a b, env.uidOf root a = env.uidOf root b → a = b)
    (w : World) (self : StudyAnonymizer) (entries entries' : List DirEntry)
    (xs ys : List String) (i : Nat) (x v : String)
    (hx : xs[i]? = some x)
    (hv : (resolveAll env root w (getStudyFilenames self entries).2 xs).1[i]? = some v) :
    (getStudyFilenames
      (resolveAll env root w (getStudyFilenames self entries).2 xs).2.2
      entries').2.m_series_uids = [] ∧
    (getSeriesUids env root
      (resolveAll env root (resolveAll env root w (getStudyFilenames self entries).2 xs).2.1
        (getStudyFilenames (resolveAll env root w (getStudyFilenames self entries).2 xs).2.2
          entries').2 ys).2.1
      (resolveAll env root (resolveAll env root w (getStudyFilenames self entries).2 xs).2.1
        (getStudyFilenames (resolveAll env root w (getStudyFilenames self entries).2 xs).2.2
          entries').2 ys).2.2 x).1 ≠ v ∧
    ∃ n, (resolveAll env root w (getStudyFilenames self entries).2 xs).2.1.uidCalls ≤ n ∧
      (getSeriesUids env root
        (resolveAll env root (resolveAll env root w (getStudyFilenames self entries).2 xs).2.1
          (getStudyFilenames (resolveAll env root w (getStudyFilenames self entries).2 xs).2.2
            entries').2 ys).2.1
        (resolveAll env root (resolveAll env root w (getStudyFilenames self entries).2 xs).2.1
          (getStudyFilenames (resolveAll env root w (getStudyFilenames self entries).2 xs).2.2
            entries').2 ys).2.2 x).1 = env.uidOf root n := by
  -- the first scope
  have h0 := getStudyFilenames_clears self entries
  have g1 := resolveAll_generated env root 0 xs w (getStudyFilenames self entries).2
    (Nat.zero_le _) (by intro a v hav; rw [h0] at hav; simp [umapFind] at hav)
  have hst := resolveAll_stored env root xs w _ x v i hx hv
  obtain ⟨n1, _, hn1, hv1⟩ := g1.2.2 x v hst
  generalize resolveAll env root w (getStudyFilenames self entries).2 xs = r1 at hn1 ⊢
  -- the reset and the second scope
  have h1 := getStudyFilenames_clears r1.2.2 entries'
  have g2 := resolveAll_generated env root r1.2.1.uidCalls ys r1.2.1
    (getStudyFilenames r1.2.2 entries').2
    (Nat.le_refl _) (by intro a v hav; rw [h1] at hav; simp [umapFind] at hav)
  generalize resolveAll env root r1.2.1 (getStudyFilenames r1.2.2 entries').2 ys = r2 at g2 ⊢
  have g3 := getSeriesUids_generated env root r1.2.1.uidCalls r2.2.1 r2.2.2 x g2.1 g2.2.2
  have hf := getSeriesUids_find env root r2.2.1 r2.2.2 x x
  simp only [if_true] at hf
  obtain ⟨n3, hlo, _, hv3⟩ := g3.2.2 x _ hf
  refine ⟨h1, ?_, n3, hlo, hv3⟩
  intro e
  have := hgen n3 n1 (by rw [← hv3, e, hv1])
  omega

/-- Witness of C3: "a" is resolved, the scope is reset, "b" and then "a" are resolved. -/
theorem getSeriesUids_scope_isolation_witness :
    (getSeriesUids sampleDcmtk none
      (resolveAll sampleDcmtk none
        (resolveAll sampleDcmtk none
          ⟨0, []⟩ (getStudyFilenames StudyAnonymizer.default []).2 ["a"]).2.1
        (getStudyFilenames
          (resolveAll sampleDcmtk
            none ⟨0, []⟩ (getStudyFilenames StudyAnonymizer.default []).2 ["a"]).2.2
          []).2 ["b"]).2.1
      (resolveAll sampleDcmtk none
        (resolveAll sampleDcmtk none
          ⟨0, []⟩ (getStudyFilenames StudyAnonymizer.default []).2 ["a"]).2.1
        (getStudyFilenames
          (resolveAll sampleDcmtk
            none ⟨0, []⟩ (getStudyFilenames StudyAnonymizer.default []).2 ["a"]).2.2
          []).2 ["b"]).2.2 "a").1 ≠ "1" :=
  (getSeriesUids_scope_isolation
    sampleDcmtk none
    (sampleDcmtk_uidOf_injective none)
    ⟨0, []⟩ StudyAnonymizer.default [] [] ["a"] ["b"] 0 "a" "1" (by decide) (by decide)).2.1

/-! ### The data set -/

theorem findElement_put_same (ds : DcmDataset) (k : DcmTagKey) (v : String) :
    findElement (putAndInsert ds k v) k = some v := by
  induction ds with
  | nil => simp [putAndInsert, findElement]
  | cons p t ih =>
    obtain ⟨k', v'⟩ := p
    by_cases h : k' = k
    · simp [putAndInsert, findElement, h]
    · by_cases hb : k.before k' = true
      · simp [putAndInsert, findElement, h, hb]
      · simp [putAndInsert, findElement, h, hb, ih]

theorem findElement_put_other (ds : DcmDataset) (k a : DcmTagKey) (v : String) (h : a ≠ k) :
    findElement (putAndInsert ds k v) a = findElement ds a := by
  have hka : ¬ k = a := fun e => h e.symm
  induction ds with
  | nil => simp [putAndInsert, findElement, hka]
  | cons p t ih =>
    obtain ⟨k', v'⟩ := p
    by_cases hk : k' = k
    · subst hk
      simp [putAndInsert, findElement, hka]
    · by_cases hb : k.before k' = true
      · simp [putAndInsert, findElement, hk, hb, hka]
      · by_cases ha : k' = a
        · subst ha
          simp [putAndInsert, findElement, hk, hb]
        · simp [putAndInsert, findElement, hk, hb, ha, ih]

theorem findElement_remove_other (ds : DcmDataset) (k a : DcmTagKey) (h : a ≠ k) :
    findElement (removeTag ds k) a = findElement ds a := by
  have hka : ¬ k = a := fun e => h e.symm
  induction ds with
  | nil => simp [removeTag]
  | cons p t ih =>
    obtain ⟨k', v'⟩ := p
    by_cases hk : k' = k
    · subst hk
      simp [removeTag, findElement, hka]
    · by_cases ha : k' = a
      · subst ha
        simp [removeTag, findElement, hk]
      · simp [removeTag, findElement, hk, ha, ih]

/-- A tag that no element carries is not found. -/
theorem findElement_of_not_mem (ds : DcmDataset) (k : DcmTagKey)
    (h : k ∉ ds.map Prod.fst) : findElement ds k = none := by
  induction ds with
  | nil => simp [findElement]
  | cons p t ih =>
    obtain ⟨k', v'⟩ := p
    simp only [List.map_cons, List.mem_cons, not_or] at h
    have hk : ¬ k' = k := fun e => h.1 e.symm
    simp [findElement, hk, ih h.2]

/-- In a data set without a repeated tag, a removed tag is not found afterwards. -/
theorem findElement_remove_same (ds : DcmDataset) (k : DcmTagKey)
    (h : (ds.map Prod.fst).count k ≤ 1) : findElement (removeTag ds k) k = none := by
  induction ds with
  | nil => simp [removeTag, findElement]
  | cons p t ih =>
    obtain ⟨k', v'⟩ := p
    by_cases hk : k' = k
    · subst hk
      simp only [List.map_cons, List.count_cons_self] at h
      have h0 : (t.map Prod.fst).count k' = 0 := by omega
      simp only [removeTag, if_true]
      exact findElement_of_not_mem t k' (List.count_eq_zero.mp h0)
    · have h' : (t.map Prod.fst).count k ≤ 1 := by
        simpa [List.count_cons, hk] using h
      simp [removeTag, findElement, hk, ih h']

/-- Writing another tag does not change how often a tag occurs. -/
theorem count_put_other (ds : DcmDataset) (k a : DcmTagKey) (v : String) (h : a ≠ k) :
    ((putAndInsert ds k v).map Prod.fst).count a = (ds.map Prod.fst).count a := by
  have hka : ¬ k = a := fun e => h e.symm
  induction ds with
  | nil => simp [putAndInsert, List.count_cons, hka]
  | cons p t ih =>
    obtain ⟨k', v'⟩ := p
    by_cases hk : k' = k
    · subst hk
      simp [putAndInsert, List.count_cons, hka]
    · by_cases hb : k.before k' = true
      · simp [putAndInsert, hk, hb, List.count_cons, hka]
      · simp [putAndInsert, hk, hb, List.count_cons, ih]

theorem removeTag_length (ds : DcmDataset) (k : DcmTagKey) (h : k ∈ ds.map Prod.fst) :
    (removeTag ds k).length + 1 = ds.length := by
  induction ds with
  | nil => simp at h
  | cons p t ih =>
    obtain ⟨k', v'⟩ := p
    by_cases hk : k' = k
    · simp [removeTag, hk]
    · have hk' : ¬ k = k' := fun e => hk e.symm
      simp only [List.map_cons, List.mem_cons, hk', false_or] at h
      simp [removeTag, hk, ih h]

theorem ulongInc_ulongDec (i : Nat) (h : i < ulongModulus) : ulongInc (ulongDec i) = i := by
  simp only [ulongInc, ulongDec, ulongModulus] at *
  omega

theorem ulongInc_eq (i : Nat) (h : i + 1 < ulongModulus) : ulongInc i = i + 1 := by
  simp only [ulongInc, ulongModulus] at *
  omega

/-- Whatever the sweep loop returns, every element whose tag is in the dictionary is as it was. -/
theorem removeInvalidLoop_keeps (env : Dcmtk) :
    ∀ (fuel : Nat) (ds : DcmDataset) (i : Nat) (ds' : DcmDataset),
      removeInvalidLoop env fuel ds i = some ds' →
      ∀ k, env.tagName k ≠ "Unknown Tag & Data" → findElement ds' k = findElement ds k := by
  intro fuel
  induction fuel with
  | zero =>
    intro ds i ds' h k _
    simp only [removeInvalidLoop] at h
    split at h
    · cases h
    · cases h
      rfl
  | succ fuel ih =>
    intro ds i ds' h k hk
    cases hg : ds[i]? with
    | none =>
      simp only [removeInvalidLoop, hg] at h
      cases h
      rfl
    | some element =>
      by_cases hu : env.tagName element.1 = "Unknown Tag & Data"
      · simp only [removeInvalidLoop, hg, hu, if_true] at h
        rw [ih _ _ _ h k hk]
        apply findElement_remove_other
        intro e
        exact hk (e ▸ hu)
      · simp only [removeInvalidLoop, hg, hu, if_false] at h
        exact ih _ _ _ h k hk

/-- The sweep loop of a data set with fewer elements than an `unsigned long` has values ends
within as many iterations as there are elements from the index on. -/
theorem removeInvalidLoop_ends (env : Dcmtk) :
    ∀ (fuel : Nat) (ds : DcmDataset) (i : Nat), ds.length < ulongModulus → i < ulongModulus →
      ds.length - i ≤ fuel → ∃ ds', removeInvalidLoop env fuel ds i = some ds' := by
  intro fuel
  induction fuel with
  | zero =>
    intro ds i _ _ h
    have : ¬ i < ds.length := by omega
    exact ⟨ds, by simp [removeInvalidLoop, this]⟩
  | succ fuel ih =>
    intro ds i hlen hi h
    cases hg : ds[i]? with
    | none => exact ⟨ds, by simp [removeInvalidLoop, hg]⟩
    | some element =>
      have hmem : element ∈ ds := List.getElem?_mem hg
      have hil : i < ds.length := by
        by_contra hc
        rw [List.getElem?_eq_none (Nat.le_of_not_lt hc)] at hg
        cases hg
      by_cases hu : env.tagName element.1 = "Unknown Tag & Data"
      · have hl := removeTag_length ds element.1 (List.mem_map_of_mem Prod.fst hmem)
        obtain ⟨ds', h1⟩ := ih (removeTag ds element.1) i (by omega) hi (by omega)
        exact ⟨ds', by simp [removeInvalidLoop, hg, hu, ulongInc_ulongDec i hi, h1]⟩
      · obtain ⟨ds', h1⟩ := ih ds (i + 1) hlen (by omega) (by omega)
        exact ⟨ds', by simp [removeInvalidLoop, hg, hu, ulongInc_eq i (by omega), h1]⟩

theorem putAndInsert_length_le (ds : DcmDataset) (k : DcmTagKey) (v : String) :
    (putAndInsert ds k v).length ≤ ds.length + 1 := by
  induction ds with
  | nil => simp [putAndInsert]
  | cons p t ih =>
    obtain ⟨k', v'⟩ := p
    by_cases h : k' = k
    · simp [putAndInsert, h]
    · by_cases hb : k.before k' = true
      · simp [putAndInsert, h, hb]
      · simpa [putAndInsert, h, hb] using ih

theorem removeTag_length_le (ds : DcmDataset) (k : DcmTagKey) :
    (removeTag ds k).length ≤ ds.length := by
  induction ds with
  | nil => simp [removeTag]
  | cons p t ih =>
    obtain ⟨k', v'⟩ := p
    by_cases h : k' = k
    · simp [removeTag, h]
    · simpa [removeTag, h] using ih

/-- The profile leaves the identifier fields and every other field it does not name alone. -/
theorem findElement_applyProfile_other (pseudoname : String) (methods : List E_ANONYM_METHODS)
    (ds : DcmDataset) (k : DcmTagKey)
    (h : k ∉ [DCM_PatientName, DCM_PatientID, DCM_PatientAddress, DCM_AdditionalPatientHistory,
      DCM_PatientInstitutionResidence, DCM_PatientAge, DCM_PatientSex, DCM_InstitutionName,
      DCM_InstitutionAddress, DCM_InstitutionalDepartmentName, DCM_OperatorsName,
      DCM_ReferringPhysicianName, DCM_PerformingPhysicianName, DCM_PhysiciansOfRecord,
      DCM_NameOfPhysiciansReadingStudy]) :
    findElement (applyProfile pseudoname methods ds) k = findElement ds k := by
  simp only [List.mem_cons, List.mem_singleton, List.not_mem_nil, not_or, or_false] at h
  obtain ⟨h1, h2, h3, h4, h5, h6, h7, h8, h9, h10, h11, h12, h13, h14, h15⟩ := h
  unfold applyProfile
  by_cases c0 : E_ANONYM_METHODS.M_113100 ∈ methods <;>
  by_cases c8 : E_ANONYM_METHODS.M_113108 ∈ methods <;>
  by_cases c2 : E_ANONYM_METHODS.M_113112 ∈ methods <;>
  simp [c0, c8, c2, findElement_put_other, findElement_remove_other, *]

/-! ### One pass through the loop body -/

theorem getSeriesUids_files (env : Dcmtk) (root : Option String) (w : World)
    (self : StudyAnonymizer) (x : String) :
    (getSeriesUids env root w self x).2.1.files = w.files := by
  cases h : umapFind self.m_series_uids x with
  | some v => rw [getSeriesUids_hit env root w self x v h]
  | none => rw [getSeriesUids_miss env root w self x h]

theorem writeIdentifiers_length_le (ds : DcmDataset) (series sop study : String) :
    (writeIdentifiers ds series sop study).length ≤ ds.length + 3 := by
  dsimp only [writeIdentifiers]
  have h1 := putAndInsert_length_le ds DCM_SeriesInstanceUID series
  have h2 := putAndInsert_length_le (putAndInsert ds DCM_SeriesInstanceUID series)
    DCM_SOPInstanceUID sop
  have h3 := putAndInsert_length_le
    (putAndInsert (putAndInsert ds DCM_SeriesInstanceUID series) DCM_SOPInstanceUID sop)
    DCM_StudyInstanceUID study
  omega

theorem applyProfile_length_le (pseudoname : String) (methods : List E_ANONYM_METHODS)
    (ds : DcmDataset) : (applyProfile pseudoname methods ds).length ≤ ds.length + 14 := by
  have hp : ∀ (d : DcmDataset) (k : DcmTagKey) (v : String) (n : Nat),
      d.length ≤ n → (putAndInsert d k v).length ≤ n + 1 := by
    intro d k v n h
    have := putAndInsert_length_le d k v
    omega
  have hr : ∀ (d : DcmDataset) (k : DcmTagKey) (n : Nat),
      d.length ≤ n → (removeTag d k).length ≤ n := by
    intro d k n h
    have := removeTag_length_le d k
    omega
  have h0 : ds.length ≤ ds.length := Nat.le_refl _
  have b4 := hr _ DCM_PatientInstitutionResidence _
    (hp _ DCM_AdditionalPatientHistory "" _ (hp _ DCM_PatientAddress "" _
      (hp _ DCM_PatientID pseudoname _ (hp _ DCM_PatientName pseudoname _ h0))))
  have b6 := hp _ DCM_PatientSex "O" _ (hp _ DCM_PatientAge "000Y" _ b4)
  have inst : ∀ (d : DcmDataset), d.length ≤ ds.length + 6 →
      (putAndInsert (putAndInsert (putAndInsert (putAndInsert (putAndInsert (putAndInsert
        (putAndInsert (putAndInsert d DCM_InstitutionName "") DCM_InstitutionAddress "")
        DCM_InstitutionalDepartmentName "") DCM_OperatorsName "") DCM_ReferringPhysicianName "")
        DCM_PerformingPhysicianName "") DCM_PhysiciansOfRecord "")
        DCM_NameOfPhysiciansReadingStudy "").length ≤ ds.length + 14 := by
    intro d hd
    exact hp _ _ _ _ (hp _ _ _ _ (hp _ _ _ _ (hp _ _ _ _ (hp _ _ _ _ (hp _ _ _ _
      (hp _ _ _ _ (hp _ _ _ _ hd)))))))
  unfold applyProfile
  dsimp only
  split_ifs <;> first | omega | exact inst _ (by omega)

/-- What lines 115-154 do to a record: the instance identifier is the next one of the generator
after the series call, the series map is the one the series call left, and at most one file was
added; an added file is the swept data set, in which the fields whose tags are in the
dictionary are those after the three identifiers were written. -/
theorem finishRecord_spec (env : Dcmtk) (root : Option String) (newStudyUID : String)
    (w : World) (self : StudyAnonymizer) (fileNumber : Nat) (ds : DcmDataset)
    (oldSeriesUID : String) :
    (finishRecord env root newStudyUID w self fileNumber ds oldSeriesUID).self.m_series_uids =
      (getSeriesUids env root w self oldSeriesUID).2.2.m_series_uids ∧
    (finishRecord env root newStudyUID w self fileNumber ds oldSeriesUID).world.uidCalls =
      (getSeriesUids env root w self oldSeriesUID).2.1.uidCalls + 1 ∧
    ((finishRecord env root newStudyUID w self fileNumber ds oldSeriesUID).world.files =
        w.files ∨
      ∃ path ds',
        (finishRecord env root newStudyUID w self fileNumber ds oldSeriesUID).world.files =
          (path, ds') :: w.files ∧
        (finishRecord env root newStudyUID w self fileNumber ds oldSeriesUID).self.m_dataset =
          some ds' ∧
        ∀ k, env.tagName k ≠ "Unknown Tag & Data" →
          findElement ds' k =
            findElement
              (writeIdentifiers ds (getSeriesUids env root w self oldSeriesUID).1
                (env.uidOf root (getSeriesUids env root w self oldSeriesUID).2.1.uidCalls)
                newStudyUID) k) := by
  have hf := getSeriesUids_files env root w self oldSeriesUID
  simp only [finishRecord, dcmGenerateUniqueIdentifier, removeInvalidTags]
  cases hsw : removeInvalidLoop env
      (writeIdentifiers ds (getSeriesUids env root w self oldSeriesUID).1
        (env.uidOf root (getSeriesUids env root w self oldSeriesUID).2.1.uidCalls)
        newStudyUID).length
      (writeIdentifiers ds (getSeriesUids env root w self oldSeriesUID).1
        (env.uidOf root (getSeriesUids env root w self oldSeriesUID).2.1.uidCalls)
        newStudyUID) 0 with
  | none => exact ⟨rfl, rfl, Or.inl (by simp [Flow.world, hf])⟩
  | some ds' =>
    have h2 := removeInvalidLoop_keeps env _ _ _ _ hsw
    simp only []
    cases (getSeriesUids env root w self oldSeriesUID).2.2.m_filenameType with
    | F_HEX =>
      simp only []
      split
      · exact ⟨rfl, rfl, Or.inr ⟨_, ds', by dsimp only [Flow.world]; rw [hf], rfl, h2⟩⟩
      · exact ⟨rfl, rfl, Or.inl (by simp [Flow.world, hf])⟩
    | F_MODALITY_SOPINSTUID =>
      simp only []
      cases findAndGetString ds' DCM_Modality with
      | none => exact ⟨rfl, rfl, Or.inl (by simp [Flow.world, hf])⟩
      | some modality =>
        simp only []
        split
        · exact ⟨rfl, rfl, Or.inr ⟨_, ds', by dsimp only [Flow.world]; rw [hf], rfl, h2⟩⟩
        · exact ⟨rfl, rfl, Or.inl (by simp [Flow.world, hf])⟩

/-- For a data set with room for three more elements below the range of the loop index, lines
115-154 end with a swept data set in `m_dataset`, saved or not. -/
theorem finishRecord_total (env : Dcmtk) (root : Option String) (newStudyUID : String)
    (w : World) (self : StudyAnonymizer) (fileNumber : Nat) (ds : DcmDataset)
    (oldSeriesUID : String) (hcard : ds.length + 3 < ulongModulus) :
    ∃ ds',
      (∀ k, env.tagName k ≠ "Unknown Tag & Data" →
        findElement ds' k =
          findElement
            (writeIdentifiers ds (getSeriesUids env root w self oldSeriesUID).1
              (env.uidOf root (getSeriesUids env root w self oldSeriesUID).2.1.uidCalls)
              newStudyUID) k) ∧
      (finishRecord env root newStudyUID w self fileNumber ds oldSeriesUID).self.m_dataset =
        some ds' ∧
      ((finishRecord env root newStudyUID w self fileNumber ds oldSeriesUID).world.files =
          w.files ∨
        ∃ path,
          (finishRecord env root newStudyUID w self fileNumber ds oldSeriesUID).world.files =
            (path, ds') :: w.files) := by
  have hf := getSeriesUids_files env root w self oldSeriesUID
  have hlen := writeIdentifiers_length_le ds (getSeriesUids env root w self oldSeriesUID).1
    (env.uidOf root (getSeriesUids env root w self oldSeriesUID).2.1.uidCalls) newStudyUID
  obtain ⟨ds', h1⟩ := removeInvalidLoop_ends env
    (writeIdentifiers ds (getSeriesUids env root w self oldSeriesUID).1
      (env.uidOf root (getSeriesUids env root w self oldSeriesUID).2.1.uidCalls)
      newStudyUID).length _ 0 (by omega) (by simp [ulongModulus]) (Nat.sub_le _ _)
  refine ⟨ds', removeInvalidLoop_keeps env _ _ _ _ h1, ?_⟩
  simp only [finishRecord, dcmGenerateUniqueIdentifier, removeInvalidTags, h1]
  cases (getSeriesUids env root w self oldSeriesUID).2.2.m_filenameType with
  | F_HEX =>
    simp only []
    split
    · exact ⟨rfl, Or.inr ⟨_, by dsimp only [Flow.world]; rw [hf]⟩⟩
    · exact ⟨rfl, Or.inl (by simp [Flow.world, hf])⟩
  | F_MODALITY_SOPINSTUID =>
    simp only []
    cases findAndGetString ds' DCM_Modality with
    | none => exact ⟨rfl, Or.inl (by simp [Flow.world, hf])⟩
    | some modality =>
      simp only []
      split
      · exact ⟨rfl, Or.inr ⟨_, by dsimp only [Flow.world]; rw [hf]⟩⟩
      · exact ⟨rfl, Or.inl (by simp [Flow.world, hf])⟩

theorem findAndGetString_applyProfile (pseudoname : String) (methods : List E_ANONYM_METHODS)
    (ds : DcmDataset) :
    findAndGetString (applyProfile pseudoname methods ds) DCM_SeriesInstanceUID =
      findAndGetString ds DCM_SeriesInstanceUID := by
  unfold findAndGetString
  rw [findElement_applyProfile_other pseudoname methods ds DCM_SeriesInstanceUID (by decide)]

/-- The loop body for a record that loads and has a series identifier is lines 115-154 applied
to the data set that the profile left. -/
theorem anonymizeFile_eq (env : Dcmtk) (pseudoname : String)
    (methods : List E_ANONYM_METHODS) (root : Option String) (newStudyUID : String)
    (w : World) (self : StudyAnonymizer) (fileNumber : Nat) (file : String)
    (ds0 : DcmDataset) (old : String)
    (hload : loadFile w.files file = some ds0)
    (hs : findAndGetString ds0 DCM_SeriesInstanceUID = some old) :
    anonymizeFile env pseudoname methods root newStudyUID w self fileNumber file =
      finishRecord env root newStudyUID w (captureOriginal self ds0) fileNumber
        (applyProfile pseudoname methods ds0) old := by
  have hs' := (findAndGetString_applyProfile pseudoname methods ds0).trans hs
  simp only [anonymizeFile, hload, hs']

/-- What the loop body does to a record that loads and has a series identifier. -/
theorem anonymizeFile_spec (env : Dcmtk) (pseudoname : String)
    (methods : List E_ANONYM_METHODS) (root : Option String) (newStudyUID : String)
    (w : World) (self : StudyAnonymizer) (fileNumber : Nat) (file : String)
    (ds0 : DcmDataset) (old : String)
    (hload : loadFile w.files file = some ds0)
    (hs : findAndGetString ds0 DCM_SeriesInstanceUID = some old) :
    (anonymizeFile env pseudoname methods root newStudyUID w self fileNumber
      file).self.m_series_uids =
      (getSeriesUids env root w (captureOriginal self ds0) old).2.2.m_series_uids ∧
    (anonymizeFile env pseudoname methods root newStudyUID w self fileNumber file).world.uidCalls
      = (getSeriesUids env root w (captureOriginal self ds0) old).2.1.uidCalls + 1 ∧
    ((anonymizeFile env pseudoname methods root newStudyUID w self fileNumber file).world.files
        = w.files ∨
      ∃ path ds',
        (anonymizeFile env pseudoname methods root newStudyUID w self fileNumber
          file).world.files = (path, ds') :: w.files ∧
        (anonymizeFile env pseudoname methods root newStudyUID w self fileNumber
          file).self.m_dataset = some ds' ∧
        ∀ k, env.tagName k ≠ "Unknown Tag & Data" →
          findElement ds' k =
            findElement
              (writeIdentifiers (applyProfile pseudoname methods ds0)
                (getSeriesUids env root w (captureOriginal self ds0) old).1
                (env.uidOf root
                  (getSeriesUids env root w (captureOriginal self ds0) old).2.1.uidCalls)
                newStudyUID) k) := by
  rw [anonymizeFile_eq env pseudoname methods root newStudyUID w self fileNumber file ds0 old
    hload hs]
  exact finishRecord_spec env root newStudyUID w (captureOriginal self ds0) fileNumber
    (applyProfile pseudoname methods ds0) old

/-- For a record that loads, has a series identifier and has room for seventeen more elements
below the range of the loop index, the loop body ends with the transformed data set in
`m_dataset`, saved or not. -/
theorem anonymizeFile_total (env : Dcmtk) (pseudoname : String)
    (methods : List E_ANONYM_METHODS) (root : Option String) (newStudyUID : String)
    (w : World) (self : StudyAnonymizer) (fileNumber : Nat) (file : String)
    (ds0 : DcmDataset) (old : String)
    (hload : loadFile w.files file = some ds0)
    (hs : findAndGetString ds0 DCM_SeriesInstanceUID = some old)
    (hcard : ds0.length + 17 < ulongModulus) :
    ∃ ds',
      (∀ k, env.tagName k ≠ "Unknown Tag & Data" →
        findElement ds' k =
          findElement
            (writeIdentifiers (applyProfile pseudoname methods ds0)
              (getSeriesUids env root w (captureOriginal self ds0) old).1
              (env.uidOf root
                (getSeriesUids env root w (captureOriginal self ds0) old).2.1.uidCalls)
              newStudyUID) k) ∧
      (anonymizeFile env pseudoname methods root newStudyUID w self fileNumber
        file).self.m_dataset = some ds' ∧
      ((anonymizeFile env pseudoname methods root newStudyUID w self fileNumber file).world.files
          = w.files ∨
        ∃ path,
          (anonymizeFile env pseudoname methods root newStudyUID w self fileNumber
            file).world.files = (path, ds') :: w.files) := by
  rw [anonymizeFile_eq env pseudoname methods root newStudyUID w self fileNumber file ds0 old
    hload hs]
  have := applyProfile_length_le pseudoname methods ds0
  exact finishRecord_total env root newStudyUID w (captureOriginal self ds0) fileNumber
    (applyProfile pseudoname methods ds0) old (by omega)

/-- A pass through the loop body that does not get as far as the identifiers changes neither the
world nor the series map. -/
theorem anonymizeFile_early (env : Dcmtk) (pseudoname : String)
    (methods : List E_ANONYM_METHODS) (root : Option String) (newStudyUID : String)
    (w : World) (self : StudyAnonymizer) (fileNumber : Nat) (file : String)
    (h : ∀ ds0, loadFile w.files file = some ds0 →
      findAndGetString ds0 DCM_SeriesInstanceUID = none) :
    (anonymizeFile env pseudoname methods root newStudyUID w self fileNumber file).world = w ∧
    (anonymizeFile env pseudoname methods root newStudyUID w self fileNumber
      file).self.m_series_uids = self.m_series_uids ∧
    ∀ w1 self1 n1,
      anonymizeFile env pseudoname methods root newStudyUID w self fileNumber file ≠
        Flow.next w1 self1 n1 := by
  cases hload : loadFile w.files file with
  | none => simp [anonymizeFile, hload, Flow.world, Flow.self]
  | some ds0 =>
    have hs' := (findAndGetString_applyProfile pseudoname methods ds0).trans (h ds0 hload)
    simp [anonymizeFile, hload, hs', Flow.world, Flow.self, captureOriginal]

/-- A pass through the loop body adds at most one file. -/
theorem anonymizeFile_files (env : Dcmtk) (pseudoname : String)
    (methods : List E_ANONYM_METHODS) (root : Option String) (newStudyUID : String)
    (w : World) (self : StudyAnonymizer) (fileNumber : Nat) (file : String) :
    (anonymizeFile env pseudoname methods root newStudyUID w self fileNumber file).world.files
        = w.files ∨
      ∃ path ds',
        (anonymizeFile env pseudoname methods root newStudyUID w self fileNumber
          file).world.files = (path, ds') :: w.files := by
  cases hload : loadFile w.files file with
  | none =>
    left
    rw [(anonymizeFile_early env pseudoname methods root newStudyUID w self fileNumber file
      (by intro ds0 h; rw [hload] at h; cases h)).1]
  | some ds0 =>
    cases hs : findAndGetString ds0 DCM_SeriesInstanceUID with
    | none =>
      left
      rw [(anonymizeFile_early env pseudoname methods root newStudyUID w self fileNumber file
        (by intro d h; rw [hload] at h; cases h; exact hs)).1]
    | some old =>
      obtain ⟨_, _, h4⟩ := anonymizeFile_spec env pseudoname methods root newStudyUID
        w self fileNumber file ds0 old hload hs
      rcases h4 with h4 | ⟨path, ds', h4, _⟩
      · exact Or.inl h4
      · exact Or.inr ⟨path, ds', h4⟩

/-- A file that a pass through the loop body added is the swept data set of a record that loaded
and had a series identifier. -/
theorem anonymizeFile_written (env : Dcmtk) (pseudoname : String)
    (methods : List E_ANONYM_METHODS) (root : Option String) (newStudyUID : String)
    (w : World) (self : StudyAnonymizer) (fileNumber : Nat) (file : String)
    (path : String) (ds' : DcmDataset)
    (hw : (anonymizeFile env pseudoname methods root newStudyUID w self fileNumber
      file).world.files = (path, ds') :: w.files) :
    ∃ ds0 old, loadFile w.files file = some ds0 ∧
      findAndGetString ds0 DCM_SeriesInstanceUID = some old ∧
      (∀ k, env.tagName k ≠ "Unknown Tag & Data" →
        findElement ds' k =
          findElement
            (writeIdentifiers (applyProfile pseudoname methods ds0)
              (getSeriesUids env root w (captureOriginal self ds0) old).1
              (env.uidOf root
                (getSeriesUids env root w (captureOriginal self ds0) old).2.1.uidCalls)
              newStudyUID) k) := by
  have hne : ∀ (l : List (String × DcmDataset)) (a : String × DcmDataset), l ≠ a :: l := by
    intro l a e
    have := congrArg List.length e
    simp at this
  cases hload : loadFile w.files file with
  | none =>
    rw [(anonymizeFile_early env pseudoname methods root newStudyUID w self fileNumber file
      (by intro ds0 h; rw [hload] at h; cases h)).1] at hw
    exact absurd hw (hne _ _)
  | some ds0 =>
    cases hs : findAndGetString ds0 DCM_SeriesInstanceUID with
    | none =>
      rw [(anonymizeFile_early env pseudoname methods root newStudyUID w self fileNumber file
        (by intro d h; rw [hload] at h; cases h; exact hs)).1] at hw
      exact absurd hw (hne _ _)
    | some old =>
      obtain ⟨_, _, h4⟩ := anonymizeFile_spec env pseudoname methods root newStudyUID
        w self fileNumber file ds0 old hload hs
      rcases h4 with h4 | ⟨path', ds'', h4, _, h1⟩
      · rw [h4] at hw
        exact absurd hw (hne _ _)
      · rw [h4] at hw
        simp only [List.cons.injEq, Prod.mk.injEq, and_true] at hw
        obtain ⟨_, rfl⟩ := hw
        exact ⟨ds0, old, rfl, hs, h1⟩

/-! ### The loop over the files of a study -/

/-- The files that a call adds are in front of the files that were there, and a property that
every pass through the loop body gives the file it adds holds for all of them. -/
theorem anonymizeLoop_writes (env : Dcmtk) (pseudoname : String)
    (methods : List E_ANONYM_METHODS) (root : Option String) (newStudyUID : String)
    (Q : DcmDataset → Prop)
    (hQ : ∀ w self n file path ds',
      (anonymizeFile env pseudoname methods root newStudyUID w self n file).world.files
        = (path, ds') :: w.files → Q ds')
    (files : List String) :
    ∀ (w : World) (self : StudyAnonymizer) (n : Nat),
      ∃ writes,
        (anonymizeLoop env pseudoname methods root newStudyUID w self n files).world.files
          = writes ++ w.files ∧ ∀ p ∈ writes, Q p.2 := by
  induction files with
  | nil => intro w self n; exact ⟨[], by simp [anonymizeLoop, Outcome.world], by simp⟩
  | cons file files ih =>
    intro w self n
    have hd := anonymizeFile_files env pseudoname methods root newStudyUID w self n file
    have hq := hQ w self n file
    simp only [anonymizeLoop]
    cases hflow : anonymizeFile env pseudoname methods root newStudyUID w self n file with
    | next w1 self1 n1 =>
      rw [hflow] at hd hq
      simp only [Flow.world] at hd hq
      obtain ⟨writes, h1, h2⟩ := ih w1 self1 n1
      simp only []
      rcases hd with hd | ⟨path, ds', hd⟩
      · exact ⟨writes, by rw [h1, hd], h2⟩
      · refine ⟨writes ++ [(path, ds')], by rw [h1, hd]; simp, ?_⟩
        intro p hp
        rcases List.mem_append.mp hp with hp | hp
        · exact h2 p hp
        · simp only [List.mem_singleton] at hp
          subst hp
          exact hq path ds' hd
    | ret b w1 self1 =>
      rw [hflow] at hd hq
      simp only [Flow.world] at hd hq
      simp only [Outcome.world]
      rcases hd with hd | ⟨path, ds', hd⟩
      · exact ⟨[], by simp [hd], by simp⟩
      · exact ⟨[(path, ds')], by simp [hd], by simpa using hq path ds' hd⟩
    | abort w1 self1 =>
      rw [hflow] at hd hq
      simp only [Flow.world] at hd hq
      simp only [Outcome.world]
      rcases hd with hd | ⟨path, ds', hd⟩
      · exact ⟨[], by simp [hd], by simp⟩
      · exact ⟨[(path, ds')], by simp [hd], by simpa using hq path ds' hd⟩

theorem findElement_writeIdentifiers (ds : DcmDataset) (series sop study : String) :
    findElement (writeIdentifiers ds series sop study) DCM_SeriesInstanceUID = some series ∧
    findElement (writeIdentifiers ds series sop study) DCM_SOPInstanceUID = some sop ∧
    findElement (writeIdentifiers ds series sop study) DCM_StudyInstanceUID = some study ∧
    ∀ k, k ≠ DCM_SeriesInstanceUID → k ≠ DCM_SOPInstanceUID → k ≠ DCM_StudyInstanceUID →
      findElement (writeIdentifiers ds series sop study) k = findElement ds k := by
  unfold writeIdentifiers
  refine ⟨?_, ?_, ?_, ?_⟩
  · rw [findElement_put_other _ _ _ _ (by decide), findElement_put_other _ _ _ _ (by decide),
      findElement_put_same]
  · rw [findElement_put_other _ _ _ _ (by decide), findElement_put_same]
  · rw [findElement_put_same]
  · intro k h1 h2 h3
    rw [findElement_put_other _ _ _ _ h3, findElement_put_other _ _ _ _ h2,
      findElement_put_other _ _ _ _ h1]

/-- C4 (shared study identifier): whatever the files, options and outcome of a call of
`anonymizeStudy`, every record that the call saved carries as its study identifier the one
identifier that the call generated first, provided the dictionary knows the study identifier
tag (the sweep removes fields of unknown tags). -/
theorem anonymizeStudy_shared_study_uid (env : Dcmtk)
    (hdict : env.tagName DCM_StudyInstanceUID ≠ "Unknown Tag & Data")
    (w : World) (self : StudyAnonymizer) (pseudoname : String)
    (methods : List E_ANONYM_METHODS) (root : Option String) :
    ∃ writes,
      (anonymizeStudy env w self pseudoname methods root).world.files = writes ++ w.files ∧
      ∀ p ∈ writes, findElement p.2 DCM_StudyInstanceUID = some (env.uidOf root w.uidCalls) := by
  simp only [anonymizeStudy, dcmGenerateUniqueIdentifier]
  apply anonymizeLoop_writes env pseudoname methods root (env.uidOf root w.uidCalls)
    (fun ds => findElement ds DCM_StudyInstanceUID = some (env.uidOf root w.uidCalls))
  intro w1 self1 n file path ds' hw
  obtain ⟨ds0, old, _, _, h⟩ := anonymizeFile_written env pseudoname methods root _ w1 self1 n
    file path ds' hw
  rw [h _ hdict]
  exact (findElement_writeIdentifiers _ _ _ _).2.2.1

/-- Witness of C4: the two records of the sample study are saved with the first generated
identifier as their study identifier. -/
theorem anonymizeStudy_shared_study_uid_witness :
    sampleDcmtk.tagName DCM_StudyInstanceUID ≠ "Unknown Tag & Data" ∧
    (∃ writes,
      (anonymizeStudy sampleDcmtk sampleWorld sampleAnonymizer "P01"
        [E_ANONYM_METHODS.M_113100] none).world.files = writes ++ sampleWorld.files ∧
      ∀ p ∈ writes, findElement p.2 DCM_StudyInstanceUID =
        some (sampleDcmtk.uidOf none sampleWorld.uidCalls)) ∧
    (anonymizeStudy sampleDcmtk sampleWorld sampleAnonymizer "P01"
      [E_ANONYM_METHODS.M_113100] none).world.files.length = 4 :=
  ⟨by decide,
    anonymizeStudy_shared_study_uid sampleDcmtk (by decide) sampleWorld sampleAnonymizer "P01"
      [E_ANONYM_METHODS.M_113100] none,
    by decide⟩

/-! ### Instance identifiers -/

theorem FreshWrites.refl (env : Dcmtk) (root : Option String) (w : World)
    (m : List (String × String)) (w' : World) (m' : List (String × String))
    (hw : w' = w) (hm : m' = m) : FreshWrites env root w m w' m' [] := by
  subst hw hm
  refine ⟨by simp, Nat.le_refl _, by simp, List.Pairwise.nil, ?_⟩
  intro a v h
  exact Or.inl h

theorem FreshWrites.trans (env : Dcmtk) (root : Option String)
    (hgen : ∀ a b, env.uidOf root a = env.uidOf root b → a = b)
    (w0 w1 w2 : World) (m0 m1 m2 : List (String × String))
    (writes1 writes2 : List (String × DcmDataset))
    (h1 : FreshWrites env root w0 m0 w1 m1 writes1)
    (h2 : FreshWrites env root w1 m1 w2 m2 writes2) :
    FreshWrites env root w0 m0 w2 m2 (writes2 ++ writes1) := by
  obtain ⟨a1, a2, a3, a4, a5⟩ := h1
  obtain ⟨b1, b2, b3, b4, b5⟩ := h2
  have cross : ∀ p ∈ writes2, ∀ q ∈ writes1,
      findElement p.2 DCM_SOPInstanceUID ≠ findElement q.2 DCM_SOPInstanceUID := by
    intro p hp q hq e
    obtain ⟨n, hn1, _, hn3⟩ := b3 p hp
    obtain ⟨k, _, hk2, hk3⟩ := a3 q hq
    rw [hn3, hk3] at e
    have := hgen n k (Option.some.inj e)
    omega
  refine ⟨by rw [b1, a1]; simp, Nat.le_trans a2 b2, ?_, ?_, ?_⟩
  · intro p hp
    rcases List.mem_append.mp hp with hp | hp
    · obtain ⟨n, hn1, hn2, hn3⟩ := b3 p hp
      exact ⟨n, Nat.le_trans a2 hn1, hn2, hn3⟩
    · obtain ⟨n, hn1, hn2, hn3⟩ := a3 p hp
      exact ⟨n, hn1, Nat.lt_of_lt_of_le hn2 b2, hn3⟩
  · exact List.pairwise_append.mpr ⟨b4, a4, cross⟩
  · intro a v hv
    rcases b5 a v hv with hv1 | ⟨n, hn1, hn2, hn3, hn4⟩
    · rcases a5 a v hv1 with hv0 | ⟨n, hn1, hn2, hn3, hn4⟩
      · exact Or.inl hv0
      · refine Or.inr ⟨n, hn1, Nat.lt_of_lt_of_le hn2 b2, hn3, ?_⟩
        intro p hp
        rcases List.mem_append.mp hp with hp | hp
        · intro e
          obtain ⟨k, hk1, _, hk3⟩ := b3 p hp
          rw [hk3, hn3] at e
          have := hgen k n (Option.some.inj e)
          omega
        · exact hn4 p hp
    · refine Or.inr ⟨n, Nat.le_trans a2 hn1, hn2, hn3, ?_⟩
      intro p hp
      rcases List.mem_append.mp hp with hp | hp
      · exact hn4 p hp
      · intro e
        obtain ⟨k, _, hk2, hk3⟩ := a3 p hp
        rw [hk3, hn3] at e
        have := hgen k n (Option.some.inj e)
        omega

/-- One pass through the loop body. -/
theorem anonymizeFile_fresh (env : Dcmtk) (root : Option String)
    (hgen : ∀ a b, env.uidOf root a = env.uidOf root b → a = b)
    (hdict : env.tagName DCM_SOPInstanceUID ≠ "Unknown Tag & Data")
    (pseudoname : String) (methods : List E_ANONYM_METHODS) (newStudyUID : String)
    (w : World) (self : StudyAnonymizer) (fileNumber : Nat) (file : String) :
    ∃ writes, FreshWrites env root w self.m_series_uids
      (anonymizeFile env pseudoname methods root newStudyUID w self fileNumber file).world
      (anonymizeFile env pseudoname methods root newStudyUID w self fileNumber
        file).self.m_series_uids writes := by
  by_cases hE : ∀ ds0, loadFile w.files file = some ds0 →
      findAndGetString ds0 DCM_SeriesInstanceUID = none
  · obtain ⟨e1, e2, _⟩ := anonymizeFile_early env pseudoname methods root newStudyUID w self
      fileNumber file hE
    exact ⟨[], FreshWrites.refl env root w _ _ _ e1 e2⟩
  · simp only [not_forall] at hE
    obtain ⟨ds0, hload, hs⟩ := hE
    obtain ⟨old, hs⟩ := Option.ne_none_iff_exists'.mp hs
    obtain ⟨h2', h3, h4⟩ := anonymizeFile_spec env pseudoname methods root newStudyUID
      w self fileNumber file ds0 old hload hs
    have hsop : ∀ ds', (∀ k, env.tagName k ≠ "Unknown Tag & Data" →
        findElement ds' k =
          findElement
            (writeIdentifiers (applyProfile pseudoname methods ds0)
              (getSeriesUids env root w (captureOriginal self ds0) old).1
              (env.uidOf root
                (getSeriesUids env root w (captureOriginal self ds0) old).2.1.uidCalls)
              newStudyUID) k) →
        findElement ds' DCM_SOPInstanceUID = some (env.uidOf root
          (getSeriesUids env root w (captureOriginal self ds0) old).2.1.uidCalls) := by
      intro ds' h1
      rw [h1 _ hdict]
      exact (findElement_writeIdentifiers _ _ _ _).2.1
    generalize anonymizeFile env pseudoname methods root newStudyUID w self fileNumber file = F
      at h2' h3 h4 ⊢
    unfold FreshWrites
    rw [h2', h3]
    -- the series call
    have key : w.uidCalls ≤ (getSeriesUids env root w (captureOriginal self ds0) old).2.1.uidCalls
        ∧ ∀ a v, umapFind
          (getSeriesUids env root w (captureOriginal self ds0) old).2.2.m_series_uids a = some v →
          umapFind self.m_series_uids a = some v ∨
            (v = env.uidOf root w.uidCalls ∧
              (getSeriesUids env root w (captureOriginal self ds0) old).2.1.uidCalls
                = w.uidCalls + 1) := by
      cases hx : umapFind (captureOriginal self ds0).m_series_uids old with
      | some v0 =>
        rw [getSeriesUids_hit env root w _ old v0 hx]
        exact ⟨Nat.le_refl _, fun a v h => Or.inl h⟩
      | none =>
        rw [getSeriesUids_miss env root w _ old hx]
        refine ⟨Nat.le_succ _, ?_⟩
        intro a v h
        by_cases ha : a = old
        · subst ha
          simp only [umapFind_assign_same, Option.some.injEq] at h
          exact Or.inr ⟨h.symm, rfl⟩
        · simp only [umapFind_assign_other _ _ _ _ ha] at h
          exact Or.inl h
    generalize getSeriesUids env root w (captureOriginal self ds0) old = r at *
    obtain ⟨k1, k2⟩ := key
    rcases h4 with h4 | ⟨path, ds', h4, _, h1⟩
    · refine ⟨[], by simpa using h4, by simpa using Nat.le_succ_of_le k1, by simp,
        List.Pairwise.nil, ?_⟩
      intro a v h
      rcases k2 a v h with h0 | ⟨hv, hc⟩
      · exact Or.inl h0
      · exact Or.inr ⟨w.uidCalls, Nat.le_refl _, by omega, hv, by simp⟩
    · have hsop' := hsop ds' h1
      refine ⟨[(path, ds')], by simpa using h4, by simpa using Nat.le_succ_of_le k1, ?_,
        List.pairwise_singleton _ _, ?_⟩
      · intro p hp
        simp only [List.mem_singleton] at hp
        subst hp
        exact ⟨r.2.1.uidCalls, k1, by simp, hsop'⟩
      · intro a v h
        rcases k2 a v h with h0 | ⟨hv, hc⟩
        · exact Or.inl h0
        · refine Or.inr ⟨w.uidCalls, Nat.le_refl _, by omega, hv, ?_⟩
          intro p hp
          simp only [List.mem_singleton] at hp
          subst hp
          simp only [hsop', hv]
          intro e
          have := hgen _ _ (Option.some.inj e)
          omega

theorem anonymizeLoop_fresh (env : Dcmtk) (root : Option String)
    (hgen : ∀ a b, env.uidOf root a = env.uidOf root b → a = b)
    (hdict : env.tagName DCM_SOPInstanceUID ≠ "Unknown Tag & Data")
    (pseudoname : String) (methods : List E_ANONYM_METHODS) (newStudyUID : String)
    (files : List String) :
    ∀ (w : World) (self : StudyAnonymizer) (n : Nat),
      ∃ writes, FreshWrites env root w self.m_series_uids
        (anonymizeLoop env pseudoname methods root newStudyUID w self n files).world
        (anonymizeLoop env pseudoname methods root newStudyUID w self n files).self.m_series_uids
        writes := by
  induction files with
  | nil =>
    intro w self n
    exact ⟨[], FreshWrites.refl env root w _ _ _ rfl rfl⟩
  | cons file files ih =>
    intro w self n
    obtain ⟨writes1, h1⟩ := anonymizeFile_fresh env root hgen hdict pseudoname methods
      newStudyUID w self n file
    simp only [anonymizeLoop]
    cases hflow : anonymizeFile env pseudoname methods root newStudyUID w self n file with
    | next w1 self1 n1 =>
      rw [hflow] at h1
      obtain ⟨writes2, h2⟩ := ih w1 self1 n1
      exact ⟨writes2 ++ writes1, FreshWrites.trans env root hgen _ _ _ _ _ _ _ _ h1 h2⟩
    | ret b w1 self1 =>
      rw [hflow] at h1
      exact ⟨writes1, h1⟩
    | abort w1 self1 =>
      rw [hflow] at h1
      exact ⟨writes1, h1⟩

/-- C5 (fresh instance identifiers): in the scope that `getStudyFilenames` opens, with a generator
that never repeats and a dictionary that knows the instance identifier tag, every record that
`anonymizeStudy` saved carries an instance identifier that the generator handed out during the
call after the study identifier; no two saved records have the same one, whatever the records
held before; and none of them is a value of the series map. -/
theorem anonymizeStudy_fresh_instance_uids (env : Dcmtk) (root : Option String)
    (hgen : ∀ a b, env.uidOf root a = env.uidOf root b → a = b)
    (hdict : env.tagName DCM_SOPInstanceUID ≠ "Unknown Tag & Data")
    (w : World) (self : StudyAnonymizer) (entries : List DirEntry) (pseudoname : String)
    (methods : List E_ANONYM_METHODS) :
    ∃ writes,
      (anonymizeStudy env w (getStudyFilenames self entries).2 pseudoname methods
        root).world.files = writes ++ w.files ∧
      (∀ p ∈ writes, ∃ n, w.uidCalls < n ∧
        n < (anonymizeStudy env w (getStudyFilenames self entries).2 pseudoname methods
          root).world.uidCalls ∧
        findElement p.2 DCM_SOPInstanceUID = some (env.uidOf root n)) ∧
      writes.Pairwise (fun p q =>
        findElement p.2 DCM_SOPInstanceUID ≠ findElement q.2 DCM_SOPInstanceUID) ∧
      (∀ p ∈ writes, ∀ a,
        umapFind (anonymizeStudy env w (getStudyFilenames self entries).2 pseudoname methods
          root).self.m_series_uids a ≠ findElement p.2 DCM_SOPInstanceUID) := by
  have h0 := getStudyFilenames_clears self entries
  simp only [anonymizeStudy, dcmGenerateUniqueIdentifier]
  obtain ⟨writes, h1, h2, h3, h4, h5⟩ := anonymizeLoop_fresh env root hgen hdict pseudoname
    methods (env.uidOf root w.uidCalls) (getStudyFilenames self entries).2.m_dicom_files
    { w with uidCalls := w.uidCalls + 1 } (getStudyFilenames self entries).2 0
  refine ⟨writes, h1, ?_, h4, ?_⟩
  · intro p hp
    obtain ⟨n, c1, c2, c3⟩ := h3 p hp
    exact ⟨n, c1, c2, c3⟩
  · intro p hp a e
    obtain ⟨n, _, _, c3⟩ := h3 p hp
    rw [c3] at e
    rcases h5 a _ e with h | ⟨_, _, _, _, h⟩
    · rw [h0] at h
      simp [umapFind] at h
    · exact h p hp c3

/-- Witness of C5: the two files of the sample study hold the same record; both are saved, with
different instance identifiers. -/
theorem anonymizeStudy_fresh_instance_uids_witness :
    (∃ writes,
      (anonymizeStudy sampleDcmtk sampleWorld (getStudyFilenames sampleAnonymizer sampleEntries).2
        "P01" [E_ANONYM_METHODS.M_113100] none).world.files = writes ++ sampleWorld.files ∧
      (∀ p ∈ writes, ∃ n, sampleWorld.uidCalls < n ∧
        n < (anonymizeStudy sampleDcmtk sampleWorld
          (getStudyFilenames sampleAnonymizer sampleEntries).2
          "P01" [E_ANONYM_METHODS.M_113100] none).world.uidCalls ∧
        findElement p.2 DCM_SOPInstanceUID = some (sampleDcmtk.uidOf none n)) ∧
      writes.Pairwise (fun p q =>
        findElement p.2 DCM_SOPInstanceUID ≠ findElement q.2 DCM_SOPInstanceUID) ∧
      (∀ p ∈ writes, ∀ a,
        umapFind (anonymizeStudy sampleDcmtk sampleWorld
          (getStudyFilenames sampleAnonymizer sampleEntries).2
          "P01" [E_ANONYM_METHODS.M_113100] none).self.m_series_uids a ≠
            findElement p.2 DCM_SOPInstanceUID)) ∧
    (anonymizeStudy sampleDcmtk sampleWorld (getStudyFilenames sampleAnonymizer sampleEntries).2
      "P01" [E_ANONYM_METHODS.M_113100] none).world.files.map
        (fun p => findElement p.2 DCM_SOPInstanceUID) =
      [some "1111", some "111", some "9.1", some "9.1"] :=
  ⟨anonymizeStudy_fresh_instance_uids sampleDcmtk none (sampleDcmtk_uidOf_injective none)
      (by decide) sampleWorld sampleAnonymizer sampleEntries "P01" [E_ANONYM_METHODS.M_113100],
    by decide⟩

/-! ### The profile -/

/-- With the basic profile, name and ID are the pseudonym, address and history are empty. -/
theorem applyProfile_basic (pseudoname : String) (methods : List E_ANONYM_METHODS)
    (ds : DcmDataset) (hbasic : E_ANONYM_METHODS.M_113100 ∈ methods) :
    findElement (applyProfile pseudoname methods ds) DCM_PatientName = some pseudoname ∧
    findElement (applyProfile pseudoname methods ds) DCM_PatientID = some pseudoname ∧
    ∀ k ∈ basicClearedTags, findElement (applyProfile pseudoname methods ds) k = some "" := by
  unfold applyProfile basicClearedTags
  by_cases c8 : E_ANONYM_METHODS.M_113108 ∈ methods <;>
  by_cases c2 : E_ANONYM_METHODS.M_113112 ∈ methods <;>
  simp (disch := decide) [hbasic, c8, c2, findElement_put_same, findElement_put_other,
    findElement_remove_other]

/-- With the basic profile, in a record in which the residence tag occurs at most once, no
residence field is left. -/
theorem applyProfile_residence (pseudoname : String) (methods : List E_ANONYM_METHODS)
    (ds : DcmDataset) (hbasic : E_ANONYM_METHODS.M_113100 ∈ methods)
    (hone : (ds.map Prod.fst).count DCM_PatientInstitutionResidence ≤ 1) :
    findElement (applyProfile pseudoname methods ds) DCM_PatientInstitutionResidence = none := by
  have hrem : findElement
      (removeTag
        (putAndInsert
          (putAndInsert
            (putAndInsert (putAndInsert ds DCM_PatientName pseudoname) DCM_PatientID pseudoname)
            DCM_PatientAddress "")
          DCM_AdditionalPatientHistory "")
        DCM_PatientInstitutionResidence) DCM_PatientInstitutionResidence = none := by
    apply findElement_remove_same
    rw [count_put_other _ _ _ _ (by decide), count_put_other _ _ _ _ (by decide),
      count_put_other _ _ _ _ (by decide), count_put_other _ _ _ _ (by decide)]
    exact hone
  unfold applyProfile
  by_cases c8 : E_ANONYM_METHODS.M_113108 ∈ methods <;>
  by_cases c2 : E_ANONYM_METHODS.M_113112 ∈ methods <;>
  simp (disch := decide) [hbasic, c8, c2, findElement_put_other, hrem]

/-- With the basic profile and without the retain-characteristics method, age and sex are the
two sentinels. -/
theorem applyProfile_sentinels (pseudoname : String) (methods : List E_ANONYM_METHODS)
    (ds : DcmDataset) (hbasic : E_ANONYM_METHODS.M_113100 ∈ methods)
    (h8 : E_ANONYM_METHODS.M_113108 ∉ methods) :
    findElement (applyProfile pseudoname methods ds) DCM_PatientAge = some "000Y" ∧
    findElement (applyProfile pseudoname methods ds) DCM_PatientSex = some "O" := by
  unfold applyProfile
  by_cases c2 : E_ANONYM_METHODS.M_113112 ∈ methods <;>
  simp (disch := decide) [hbasic, h8, c2, findElement_put_same, findElement_put_other]

/-- With the retain-characteristics method, age and sex are left as they were. -/
theorem applyProfile_retains_characteristics (pseudoname : String)
    (methods : List E_ANONYM_METHODS) (ds : DcmDataset)
    (h8 : E_ANONYM_METHODS.M_113108 ∈ methods) :
    ∀ k ∈ characteristicsTags,
      findElement (applyProfile pseudoname methods ds) k = findElement ds k := by
  unfold applyProfile characteristicsTags
  by_cases c0 : E_ANONYM_METHODS.M_113100 ∈ methods <;>
  by_cases c2 : E_ANONYM_METHODS.M_113112 ∈ methods <;>
  simp (disch := decide) [h8, c0, c2, findElement_put_other, findElement_remove_other]

/-- Without the retain-institution method, the institution and personnel fields are empty. -/
theorem applyProfile_clears_institution (pseudoname : String)
    (methods : List E_ANONYM_METHODS) (ds : DcmDataset)
    (h12 : E_ANONYM_METHODS.M_113112 ∉ methods) :
    ∀ k ∈ institutionTags, findElement (applyProfile pseudoname methods ds) k = some "" := by
  unfold applyProfile institutionTags
  simp (disch := decide) [h12, findElement_put_same, findElement_put_other]

/-- With the retain-institution method, the institution and personnel fields are left as they
were. -/
theorem applyProfile_retains_institution (pseudoname : String)
    (methods : List E_ANONYM_METHODS) (ds : DcmDataset)
    (h12 : E_ANONYM_METHODS.M_113112 ∈ methods) :
    ∀ k ∈ institutionTags,
      findElement (applyProfile pseudoname methods ds) k = findElement ds k := by
  unfold applyProfile institutionTags
  by_cases c0 : E_ANONYM_METHODS.M_113100 ∈ methods <;>
  by_cases c8 : E_ANONYM_METHODS.M_113108 ∈ methods <;>
  simp (disch := decide) [h12, c0, c8, findElement_put_other, findElement_remove_other]

/-- A field of a saved record whose tag is in the dictionary and is none of the three identifier
tags is as the profile left it. -/
theorem written_field (env : Dcmtk) (ds ds' : DcmDataset) (series sop study : String)
    (h : ∀ k, env.tagName k ≠ "Unknown Tag & Data" →
      findElement ds' k = findElement (writeIdentifiers ds series sop study) k)
    (k : DcmTagKey) (hk : env.tagName k ≠ "Unknown Tag & Data")
    (h1 : k ≠ DCM_SeriesInstanceUID) (h2 : k ≠ DCM_SOPInstanceUID)
    (h3 : k ≠ DCM_StudyInstanceUID) :
    findElement ds' k = findElement ds k := by
  rw [h k hk]
  exact (findElement_writeIdentifiers ds series sop study).2.2.2 k h1 h2 h3

/-- C6 (patient identity replacement): for every method set with the basic profile (the one
`main` always puts in) and whatever the other methods, every record that a call of
`anonymizeStudy` saved has the pseudonym of the call as its patient name and as its patient ID,
provided the dictionary knows the two tags. -/
theorem anonymizeStudy_patient_identity (env : Dcmtk)
    (hname : env.tagName DCM_PatientName ≠ "Unknown Tag & Data")
    (hid : env.tagName DCM_PatientID ≠ "Unknown Tag & Data")
    (w : World) (self : StudyAnonymizer) (pseudoname : String)
    (methods : List E_ANONYM_METHODS) (root : Option String)
    (hbasic : E_ANONYM_METHODS.M_113100 ∈ methods) :
    ∃ writes,
      (anonymizeStudy env w self pseudoname methods root).world.files = writes ++ w.files ∧
      ∀ p ∈ writes, findElement p.2 DCM_PatientName = some pseudoname ∧
        findElement p.2 DCM_PatientID = some pseudoname := by
  simp only [anonymizeStudy, dcmGenerateUniqueIdentifier]
  apply anonymizeLoop_writes env pseudoname methods root (env.uidOf root w.uidCalls)
    (fun ds => findElement ds DCM_PatientName = some pseudoname ∧
      findElement ds DCM_PatientID = some pseudoname)
  intro w1 self1 n file path ds' hw
  obtain ⟨ds0, old, _, _, h⟩ := anonymizeFile_written env pseudoname methods root _ w1 self1 n
    file path ds' hw
  have hp := applyProfile_basic pseudoname methods ds0 hbasic
  constructor
  · rw [written_field env _ ds' _ _ _ h _ hname (by decide) (by decide) (by decide)]
    exact hp.1
  · rw [written_field env _ ds' _ _ _ h _ hid (by decide) (by decide) (by decide)]
    exact hp.2.1

/-- Witness of C6 on the sample study, with all three optional methods selected. -/
theorem anonymizeStudy_patient_identity_witness :
    (∃ writes,
      (anonymizeStudy sampleDcmtk sampleWorld sampleAnonymizer "P01"
        [E_ANONYM_METHODS.M_113100, E_ANONYM_METHODS.M_113108, E_ANONYM_METHODS.M_113109,
          E_ANONYM_METHODS.M_113112] none).world.files = writes ++ sampleWorld.files ∧
      ∀ p ∈ writes, findElement p.2 DCM_PatientName = some "P01" ∧
        findElement p.2 DCM_PatientID = some "P01") ∧
    (anonymizeStudy sampleDcmtk sampleWorld sampleAnonymizer "P01"
      [E_ANONYM_METHODS.M_113100, E_ANONYM_METHODS.M_113108, E_ANONYM_METHODS.M_113109,
        E_ANONYM_METHODS.M_113112] none).world.files.map
        (fun p => findElement p.2 DCM_PatientName) =
      [some "P01", some "P01", some "Doe^John", some "Doe^John"] :=
  ⟨anonymizeStudy_patient_identity sampleDcmtk (by decide) (by decide) sampleWorld
      sampleAnonymizer "P01"
      [E_ANONYM_METHODS.M_113100, E_ANONYM_METHODS.M_113108, E_ANONYM_METHODS.M_113109,
        E_ANONYM_METHODS.M_113112] none (by decide),
    by decide⟩

/-- C7 (age and sex sentinels): for every method set with the basic profile and without the
retain-characteristics method, every record that a call of `anonymizeStudy` saved has the age
"000Y" and the sex "O", whatever it held before and also when it had no such field, provided the
dictionary knows the two tags. -/
theorem anonymizeStudy_age_sex_sentinels (env : Dcmtk)
    (hage : env.tagName DCM_PatientAge ≠ "Unknown Tag & Data")
    (hsex : env.tagName DCM_PatientSex ≠ "Unknown Tag & Data")
    (w : World) (self : StudyAnonymizer) (pseudoname : String)
    (methods : List E_ANONYM_METHODS) (root : Option String)
    (hbasic : E_ANONYM_METHODS.M_113100 ∈ methods)
    (h8 : E_ANONYM_METHODS.M_113108 ∉ methods) :
    ∃ writes,
      (anonymizeStudy env w self pseudoname methods root).world.files = writes ++ w.files ∧
      ∀ p ∈ writes, findElement p.2 DCM_PatientAge = some "000Y" ∧
        findElement p.2 DCM_PatientSex = some "O" := by
  simp only [anonymizeStudy, dcmGenerateUniqueIdentifier]
  apply anonymizeLoop_writes env pseudoname methods root (env.uidOf root w.uidCalls)
    (fun ds => findElement ds DCM_PatientAge = some "000Y" ∧
      findElement ds DCM_PatientSex = some "O")
  intro w1 self1 n file path ds' hw
  obtain ⟨ds0, old, _, _, h⟩ := anonymizeFile_written env pseudoname methods root _ w1 self1 n
    file path ds' hw
  have hp := applyProfile_sentinels pseudoname methods ds0 hbasic h8
  constructor
  · rw [written_field env _ ds' _ _ _ h _ hage (by decide) (by decide) (by decide)]
    exact hp.1
  · rw [written_field env _ ds' _ _ _ h _ hsex (by decide) (by decide) (by decide)]
    exact hp.2

/-- Witness of C7 on the sample study: one record with age and sex, one without. -/
theorem anonymizeStudy_age_sex_sentinels_witness :
    (∃ writes,
      (anonymizeStudy sampleDcmtk
        { uidCalls := 0, files := [("in/a", sampleRecord),
          ("in/b", [(DCM_SeriesInstanceUID, "9.3")])] }
        sampleAnonymizer "P01"
        [E_ANONYM_METHODS.M_113100, E_ANONYM_METHODS.M_113112] none).world.files =
        writes ++ [("in/a", sampleRecord), ("in/b", [(DCM_SeriesInstanceUID, "9.3")])] ∧
      ∀ p ∈ writes, findElement p.2 DCM_PatientAge = some "000Y" ∧
        findElement p.2 DCM_PatientSex = some "O") ∧
    (anonymizeStudy sampleDcmtk
      { uidCalls := 0, files := [("in/a", sampleRecord),
        ("in/b", [(DCM_SeriesInstanceUID, "9.3")])] }
      sampleAnonymizer "P01"
      [E_ANONYM_METHODS.M_113100, E_ANONYM_METHODS.M_113112] none).world.files.map
        (fun p => findElement p.2 DCM_PatientAge) =
      [some "000Y", some "000Y", some "042Y", none] :=
  ⟨anonymizeStudy_age_sex_sentinels sampleDcmtk (by decide) (by decide)
      { uidCalls := 0, files := [("in/a", sampleRecord),
        ("in/b", [(DCM_SeriesInstanceUID, "9.3")])] }
      sampleAnonymizer "P01"
      [E_ANONYM_METHODS.M_113100, E_ANONYM_METHODS.M_113112] none (by decide) (by decide),
    by decide⟩

/-- C8 (retain switches retain): for a record that loads and has a series identifier, the
transformation yields a data set (the one that is saved when the save succeeds) in which, when the
method set contains retain-characteristics, age and sex are as in the loaded record, and, when it
contains retain-institution, the institution, operator and physician fields are as in the loaded
record, in value and in presence.  The dictionary is assumed to know these tags, and the record
to have room for the seventeen fields that can be added below the range of the `unsigned long`
index of the sweep. -/
theorem anonymizeFile_retain_switches (env : Dcmtk)
    (hdict : ∀ k ∈ characteristicsTags ++ institutionTags,
      env.tagName k ≠ "Unknown Tag & Data")
    (pseudoname : String) (methods : List E_ANONYM_METHODS) (root : Option String)
    (newStudyUID : String) (w : World) (self : StudyAnonymizer) (fileNumber : Nat)
    (file : String) (ds0 : DcmDataset) (old : String)
    (hload : loadFile w.files file = some ds0)
    (hs : findAndGetString ds0 DCM_SeriesInstanceUID = some old)
    (hcard : ds0.length + 17 < ulongModulus) :
    ∃ ds',
      (anonymizeFile env pseudoname methods root newStudyUID w self fileNumber
        file).self.m_dataset = some ds' ∧
      ((anonymizeFile env pseudoname methods root newStudyUID w self fileNumber file).world.files
          = w.files ∨
        ∃ path,
          (anonymizeFile env pseudoname methods root newStudyUID w self fileNumber
            file).world.files = (path, ds') :: w.files) ∧
      (E_ANONYM_METHODS.M_113108 ∈ methods →
        ∀ k ∈ characteristicsTags, findElement ds' k = findElement ds0 k) ∧
      (E_ANONYM_METHODS.M_113112 ∈ methods →
        ∀ k ∈ institutionTags, findElement ds' k = findElement ds0 k) := by
  obtain ⟨ds', h1, h2, h4⟩ := anonymizeFile_total env pseudoname methods root newStudyUID
    w self fileNumber file ds0 old hload hs hcard
  have hids : ∀ k ∈ characteristicsTags ++ institutionTags,
      k ≠ DCM_SeriesInstanceUID ∧ k ≠ DCM_SOPInstanceUID ∧ k ≠ DCM_StudyInstanceUID := by
    decide
  refine ⟨ds', h2, h4, ?_, ?_⟩
  · intro h8 k hk
    have hk' : k ∈ characteristicsTags ++ institutionTags := List.mem_append_left _ hk
    rw [written_field env _ ds' _ _ _ h1 k (hdict k hk') (hids k hk').1 (hids k hk').2.1
      (hids k hk').2.2]
    exact applyProfile_retains_characteristics pseudoname methods ds0 h8 k hk
  · intro h12 k hk
    have hk' : k ∈ characteristicsTags ++ institutionTags := List.mem_append_right _ hk
    rw [written_field env _ ds' _ _ _ h1 k (hdict k hk') (hids k hk').1 (hids k hk').2.1
      (hids k hk').2.2]
    exact applyProfile_retains_institution pseudoname methods ds0 h12 k hk

/-- Witness of C8: the first file of the sample study with both retain methods selected. -/
theorem anonymizeFile_retain_switches_witness :
    (∃ ds',
      (anonymizeFile sampleDcmtk "P01"
        [E_ANONYM_METHODS.M_113100, E_ANONYM_METHODS.M_113108, E_ANONYM_METHODS.M_113112]
        none "1" sampleWorld sampleAnonymizer 0 "in/a").self.m_dataset = some ds' ∧
      ((anonymizeFile sampleDcmtk "P01"
        [E_ANONYM_METHODS.M_113100, E_ANONYM_METHODS.M_113108, E_ANONYM_METHODS.M_113112]
        none "1" sampleWorld sampleAnonymizer 0 "in/a").world.files = sampleWorld.files ∨
        ∃ path,
          (anonymizeFile sampleDcmtk "P01"
            [E_ANONYM_METHODS.M_113100, E_ANONYM_METHODS.M_113108, E_ANONYM_METHODS.M_113112]
            none "1" sampleWorld sampleAnonymizer 0 "in/a").world.files =
              (path, ds') :: sampleWorld.files) ∧
      (E_ANONYM_METHODS.M_113108 ∈
          [E_ANONYM_METHODS.M_113100, E_ANONYM_METHODS.M_113108, E_ANONYM_METHODS.M_113112] →
        ∀ k ∈ characteristicsTags, findElement ds' k = findElement sampleRecord k) ∧
      (E_ANONYM_METHODS.M_113112 ∈
          [E_ANONYM_METHODS.M_113100, E_ANONYM_METHODS.M_113108, E_ANONYM_METHODS.M_113112] →
        ∀ k ∈ institutionTags, findElement ds' k = findElement sampleRecord k)) ∧
    (anonymizeFile sampleDcmtk "P01"
      [E_ANONYM_METHODS.M_113100, E_ANONYM_METHODS.M_113108, E_ANONYM_METHODS.M_113112]
      none "1" sampleWorld sampleAnonymizer 0 "in/a").world.files.length = 3 :=
  ⟨anonymizeFile_retain_switches sampleDcmtk (by decide) "P01"
      [E_ANONYM_METHODS.M_113100, E_ANONYM_METHODS.M_113108, E_ANONYM_METHODS.M_113112]
      none "1" sampleWorld sampleAnonymizer 0 "in/a" sampleRecord "9.3" (by decide) (by decide)
      (by decide),
    by decide⟩

/-- C9 (profile completeness): for every method set with the basic profile, whatever the optional
methods, and for a record that loads, has a series identifier and carries no tag twice, the
transformation yields a data set (the one that is saved when the save succeeds) in which patient
address and additional history are empty and there is no patient residence, in which the
institution, operator and physician fields are empty when retain-institution is not selected,
and in which none of these fields holds a non-empty value it had in the loaded record.  The
dictionary is assumed to know these tags, and the record to have room for the seventeen fields
that can be added below the range of the `unsigned long` index of the sweep. -/
theorem anonymizeFile_profile_complete (env : Dcmtk)
    (hdict : ∀ k ∈ DCM_PatientInstitutionResidence :: basicClearedTags ++ institutionTags,
      env.tagName k ≠ "Unknown Tag & Data")
    (pseudoname : String) (methods : List E_ANONYM_METHODS) (root : Option String)
    (newStudyUID : String) (w : World) (self : StudyAnonymizer) (fileNumber : Nat)
    (file : String) (ds0 : DcmDataset) (old : String)
    (hbasic : E_ANONYM_METHODS.M_113100 ∈ methods)
    (hload : loadFile w.files file = some ds0)
    (hs : findAndGetString ds0 DCM_SeriesInstanceUID = some old)
    (hwf : (ds0.map Prod.fst).Nodup)
    (hcard : ds0.length + 17 < ulongModulus) :
    ∃ ds',
      (anonymizeFile env pseudoname methods root newStudyUID w self fileNumber
        file).self.m_dataset = some ds' ∧
      ((anonymizeFile env pseudoname methods root newStudyUID w self fileNumber file).world.files
          = w.files ∨
        ∃ path,
          (anonymizeFile env pseudoname methods root newStudyUID w self fileNumber
            file).world.files = (path, ds') :: w.files) ∧
      (∀ k ∈ basicClearedTags, findElement ds' k = some "") ∧
      findElement ds' DCM_PatientInstitutionResidence = none ∧
      (E_ANONYM_METHODS.M_113112 ∉ methods →
        ∀ k ∈ institutionTags, findElement ds' k = some "") ∧
      (∀ k ∈ DCM_PatientInstitutionResidence :: basicClearedTags ++
          (if E_ANONYM_METHODS.M_113112 ∈ methods then [] else institutionTags),
        ∀ v, findElement ds0 k = some v → v ≠ "" → findElement ds' k ≠ some v) := by
  obtain ⟨ds', h1, h2, h4⟩ := anonymizeFile_total env pseudoname methods root newStudyUID
    w self fileNumber file ds0 old hload hs hcard
  have hids : ∀ k ∈ DCM_PatientInstitutionResidence :: basicClearedTags ++ institutionTags,
      k ≠ DCM_SeriesInstanceUID ∧ k ≠ DCM_SOPInstanceUID ∧ k ≠ DCM_StudyInstanceUID := by
    decide
  have field : ∀ k ∈ DCM_PatientInstitutionResidence :: basicClearedTags ++ institutionTags,
      findElement ds' k = findElement (applyProfile pseudoname methods ds0) k := by
    intro k hk
    exact written_field env _ ds' _ _ _ h1 k (hdict k hk) (hids k hk).1 (hids k hk).2.1
      (hids k hk).2.2
  have hbasicTags : ∀ k ∈ basicClearedTags, findElement ds' k = some "" := by
    intro k hk
    rw [field k (by simp [hk])]
    exact (applyProfile_basic pseudoname methods ds0 hbasic).2.2 k hk
  have hres : findElement ds' DCM_PatientInstitutionResidence = none := by
    rw [field _ (by simp)]
    exact applyProfile_residence pseudoname methods ds0 hbasic
      (List.nodup_iff_count_le_one.mp hwf _)
  have hinst : E_ANONYM_METHODS.M_113112 ∉ methods →
      ∀ k ∈ institutionTags, findElement ds' k = some "" := by
    intro h12 k hk
    rw [field k (by simp [hk])]
    exact applyProfile_clears_institution pseudoname methods ds0 h12 k hk
  refine ⟨ds', h2, h4, hbasicTags, hres, hinst, ?_⟩
  intro k hk v _ hv e
  simp only [List.cons_append, List.mem_cons, List.mem_append] at hk
  rcases hk with hk | hk | hk
  · subst hk
    rw [hres] at e
    cases e
  · rw [hbasicTags k hk] at e
    exact hv (Option.some.inj e).symm
  · by_cases h12 : E_ANONYM_METHODS.M_113112 ∈ methods
    · simp [h12] at hk
    · simp only [h12, if_false] at hk
      rw [hinst h12 k hk] at e
      exact hv (Option.some.inj e).symm

/-- Witness of C9: the first file of the sample study, which has all the fields, with only the
basic profile. -/
theorem anonymizeFile_profile_complete_witness :
    (∃ ds',
      (anonymizeFile sampleDcmtk "P01" [E_ANONYM_METHODS.M_113100]
        none "1" sampleWorld sampleAnonymizer 0 "in/a").self.m_dataset = some ds' ∧
      ((anonymizeFile sampleDcmtk "P01" [E_ANONYM_METHODS.M_113100]
        none "1" sampleWorld sampleAnonymizer 0 "in/a").world.files = sampleWorld.files ∨
        ∃ path,
          (anonymizeFile sampleDcmtk "P01" [E_ANONYM_METHODS.M_113100]
            none "1" sampleWorld sampleAnonymizer 0 "in/a").world.files =
              (path, ds') :: sampleWorld.files) ∧
      (∀ k ∈ basicClearedTags, findElement ds' k = some "") ∧
      findElement ds' DCM_PatientInstitutionResidence = none ∧
      (E_ANONYM_METHODS.M_113112 ∉ [E_ANONYM_METHODS.M_113100] →
        ∀ k ∈ institutionTags, findElement ds' k = some "") ∧
      (∀ k ∈ DCM_PatientInstitutionResidence :: basicClearedTags ++
          (if E_ANONYM_METHODS.M_113112 ∈ [E_ANONYM_METHODS.M_113100] then []
            else institutionTags),
        ∀ v, findElement sampleRecord k = some v → v ≠ "" →
          findElement ds' k ≠ some v)) ∧
    (anonymizeFile sampleDcmtk "P01" [E_ANONYM_METHODS.M_113100]
      none "1" sampleWorld sampleAnonymizer 0 "in/a").world.files.length = 3 :=
  ⟨anonymizeFile_profile_complete sampleDcmtk (by decide) "P01" [E_ANONYM_METHODS.M_113100]
      none "1" sampleWorld sampleAnonymizer 0 "in/a" sampleRecord "9.3" (by decide) (by decide)
      (by decide) (by decide) (by decide),
    by decide⟩

/-- The retain-device method has no effect on what the profile does to a record. -/
theorem applyProfile_ignores_retain_device (pseudoname : String)
    (methods : List E_ANONYM_METHODS) (ds : DcmDataset) :
    applyProfile pseudoname (E_ANONYM_METHODS.M_113109 :: methods) ds =
      applyProfile pseudoname methods ds := by
  simp [applyProfile]

/-- C10 (device-identity switch), the code at the failing input: the station name "CT01" of the
sample record is still there in both saved records when retain-device is not selected, and the
saved records are the same with and without retain-device. -/
theorem anonymizeStudy_device_fields_not_cleared :
    findElement sampleRecord DCM_StationName = some "CT01" ∧
    E_ANONYM_METHODS.M_113109 ∉ [E_ANONYM_METHODS.M_113100] ∧
    ((anonymizeStudy sampleDcmtk sampleWorld sampleAnonymizer "P01"
      [E_ANONYM_METHODS.M_113100] none).world.files.map
        (fun p => findElement p.2 DCM_StationName)).take 2 = [some "CT01", some "CT01"] ∧
    (anonymizeStudy sampleDcmtk sampleWorld sampleAnonymizer "P01"
      [E_ANONYM_METHODS.M_113100] none).world.files.map Prod.snd =
    (anonymizeStudy sampleDcmtk sampleWorld sampleAnonymizer "P01"
      [E_ANONYM_METHODS.M_113100, E_ANONYM_METHODS.M_113109] none).world.files.map Prod.snd := by
  decide

/-! ### The sweep of unrecognized fields -/

/-- Removing a tag that no element of the front part carries takes out the first element of the
rest. -/
theorem removeTag_append (pre post : DcmDataset) (k : DcmTagKey)
    (h : ∀ p ∈ pre, p.1 ≠ k) : removeTag (pre ++ post) k = pre ++ removeTag post k := by
  induction pre with
  | nil => rfl
  | cons p t ih =>
    obtain ⟨k', v'⟩ := p
    have hk : ¬ k' = k := h (k', v') (by simp)
    have ht : ∀ p ∈ t, p.1 ≠ k := fun p hp => h p (by simp [hp])
    simp [removeTag, hk, ih ht]

/-- The sweep loop, started behind a front part of recognized fields with as many iterations
left as the rest has elements, ends with the front part and the recognized fields of the rest. -/
theorem removeInvalidLoop_filter (env : Dcmtk) :
    ∀ (fuel : Nat) (pre post : DcmDataset),
      (∀ p ∈ pre, recognized env p = true) → (pre ++ post).length < ulongModulus →
      post.length ≤ fuel →
      removeInvalidLoop env fuel (pre ++ post) pre.length =
        some (pre ++ recognizedFields env post) := by
  intro fuel
  induction fuel with
  | zero =>
    intro pre post _ _ hfuel
    have hp : post = [] := List.length_eq_zero.mp (Nat.le_zero.mp hfuel)
    subst hp
    simp [removeInvalidLoop, recognizedFields]
  | succ fuel ih =>
    intro pre post hpre hlen hfuel
    cases post with
    | nil => simp [removeInvalidLoop, recognizedFields]
    | cons e rest =>
      have hg : (pre ++ e :: rest)[pre.length]? = some e := by
        rw [List.getElem?_append_right (Nat.le_refl _)]
        simp
      have hlt : pre.length + 1 + rest.length < ulongModulus := by
        simp only [List.length_append, List.length_cons] at hlen
        omega
      by_cases hu : env.tagName e.1 = "Unknown Tag & Data"
      · have hne : ∀ p ∈ pre, p.1 ≠ e.1 := by
          intro p hp heq
          have := hpre p hp
          simp [recognized, heq, hu] at this
        have hrem : removeTag (pre ++ e :: rest) e.1 = pre ++ rest := by
          rw [removeTag_append pre (e :: rest) e.1 hne]
          simp [removeTag]
        have hrec : recognized env e = false := by simp [recognized, hu]
        simp only [removeInvalidLoop, hg, hu, if_true, hrem,
          ulongInc_ulongDec pre.length (by omega)]
        rw [ih pre rest hpre (by simp only [List.length_append]; omega)
          (by simp only [List.length_cons] at hfuel; omega)]
        simp [recognizedFields, List.filter_cons, hrec]
      · have hrec : recognized env e = true := by simp [recognized, hu]
        have hpre' : ∀ p ∈ pre ++ [e], recognized env p = true := by
          intro p hp
          rcases List.mem_append.mp hp with hp | hp
          · exact hpre p hp
          · simp only [List.mem_singleton] at hp
            rw [hp]
            exact hrec
        have happ : pre ++ e :: rest = (pre ++ [e]) ++ rest := by simp
        have hidx : pre.length + 1 = (pre ++ [e]).length := by simp
        simp only [removeInvalidLoop, hg, hu, if_false, ulongInc_eq pre.length (by omega)]
        rw [happ, hidx, ih (pre ++ [e]) rest hpre'
          (by simp only [List.length_append, List.length_cons, List.length_nil]; omega)
          (by simp only [List.length_cons] at hfuel; omega)]
        simp [recognizedFields, List.filter_cons, hrec]

/-- The sweep of a data set that fits the loop index returns success with the recognized
fields. -/
theorem removeInvalidTags_eq (env : Dcmtk) (ds : DcmDataset) (hcard : ds.length < ulongModulus) :
    removeInvalidTags env (some ds) = some (true, some (recognizedFields env ds)) := by
  have h := removeInvalidLoop_filter env ds.length [] ds (by simp) (by simpa using hcard)
    (Nat.le_refl _)
  simp only [List.nil_append, List.length_nil] at h
  simp [removeInvalidTags, h]

/-- C11 (invalid-field sweep): for every data set that fits the `unsigned long` loop index,
`removeInvalidTags` ends and returns success, and the data set afterwards is the list of the
recognized fields of the input, in their order and with their values; no field of an unknown tag
is left, wherever such fields sat. -/
theorem removeInvalidTags_sweep (env : Dcmtk) (ds : DcmDataset)
    (hcard : ds.length < ulongModulus) :
    ∃ ds', removeInvalidTags env (some ds) = some (true, some ds') ∧
      ds' = recognizedFields env ds ∧
      ds'.Sublist ds ∧
      (∀ e, e ∈ ds' ↔ (e ∈ ds ∧ env.tagName e.1 ≠ "Unknown Tag & Data")) ∧
      (∀ e ∈ ds', env.tagName e.1 ≠ "Unknown Tag & Data") := by
  refine ⟨recognizedFields env ds, removeInvalidTags_eq env ds hcard, rfl, ?_, ?_, ?_⟩
  · exact List.filter_sublist ds
  · intro e
    simp [recognizedFields, recognized, List.mem_filter]
  · intro e he
    simp only [recognizedFields, recognized, List.mem_filter, decide_eq_true_eq] at he
    exact he.2

/-- Witness of C11: unknown tags at index 0, next to each other and at the end. -/
theorem removeInvalidTags_sweep_witness :
    ∃ ds', removeInvalidTags sampleDcmtk
        (some [(⟨0x0009, 0x0001⟩, "a"), (⟨0x0009, 0x0002⟩, "b"), (DCM_PatientName, "x"),
          (DCM_PatientID, "y"), (⟨0x0011, 0x0001⟩, "c")]) = some (true, some ds') ∧
      ds' = recognizedFields sampleDcmtk
        [(⟨0x0009, 0x0001⟩, "a"), (⟨0x0009, 0x0002⟩, "b"), (DCM_PatientName, "x"),
          (DCM_PatientID, "y"), (⟨0x0011, 0x0001⟩, "c")] ∧
      ds'.Sublist [(⟨0x0009, 0x0001⟩, "a"), (⟨0x0009, 0x0002⟩, "b"), (DCM_PatientName, "x"),
          (DCM_PatientID, "y"), (⟨0x0011, 0x0001⟩, "c")] ∧
      (∀ e, e ∈ ds' ↔ (e ∈ [(⟨0x0009, 0x0001⟩, "a"), (⟨0x0009, 0x0002⟩, "b"),
          (DCM_PatientName, "x"), (DCM_PatientID, "y"), (⟨0x0011, 0x0001⟩, "c")] ∧
        sampleDcmtk.tagName e.1 ≠ "Unknown Tag & Data")) ∧
      (∀ e ∈ ds', sampleDcmtk.tagName e.1 ≠ "Unknown Tag & Data") :=
  removeInvalidTags_sweep sampleDcmtk
    [(⟨0x0009, 0x0001⟩, "a"), (⟨0x0009, 0x0002⟩, "b"), (DCM_PatientName, "x"),
      (DCM_PatientID, "y"), (⟨0x0011, 0x0001⟩, "c")] (by decide)

/-- C12 (sweep idempotence): for every data set that fits the loop index, a second run of
`removeInvalidTags` on the result of the first returns success and leaves that result as it
is. -/
theorem removeInvalidTags_idempotent (env : Dcmtk) (ds : DcmDataset)
    (hcard : ds.length < ulongModulus) :
    ∃ ds1, removeInvalidTags env (some ds) = some (true, some ds1) ∧
      removeInvalidTags env (some ds1) = some (true, some ds1) := by
  refine ⟨recognizedFields env ds, removeInvalidTags_eq env ds hcard, ?_⟩
  have hlen : (recognizedFields env ds).length < ulongModulus :=
    Nat.lt_of_le_of_lt (List.length_filter_le _ _) hcard
  rw [removeInvalidTags_eq env _ hlen]
  simp [recognizedFields, List.filter_filter]

/-- Witness of C12 on a data set with three fields of unknown tags. -/
theorem removeInvalidTags_idempotent_witness :
    (∃ ds1, removeInvalidTags sampleDcmtk
        (some [(⟨0x0009, 0x0001⟩, "a"), (⟨0x0009, 0x0002⟩, "b"), (DCM_PatientName, "x"),
          (DCM_PatientID, "y"), (⟨0x0011, 0x0001⟩, "c")]) = some (true, some ds1) ∧
      removeInvalidTags sampleDcmtk (some ds1) = some (true, some ds1)) ∧
    removeInvalidTags sampleDcmtk
        (some [(⟨0x0009, 0x0001⟩, "a"), (⟨0x0009, 0x0002⟩, "b"), (DCM_PatientName, "x"),
          (DCM_PatientID, "y"), (⟨0x0011, 0x0001⟩, "c")]) =
      some (true, some [(DCM_PatientName, "x"), (DCM_PatientID, "y")]) :=
  ⟨removeInvalidTags_idempotent sampleDcmtk
    [(⟨0x0009, 0x0001⟩, "a"), (⟨0x0009, 0x0002⟩, "b"), (DCM_PatientName, "x"),
      (DCM_PatientID, "y"), (⟨0x0011, 0x0001⟩, "c")] (by decide), by decide⟩

/-! ### Output names -/

theorem hexValue_hexDigit : ∀ d, d < 16 → hexValue (hexDigit d) = d := by
  decide

theorem ofDigits_replicate_zero (b n : Nat) : Nat.ofDigits b (List.replicate n 0) = 0 := by
  induction n with
  | zero => rfl
  | succ n ih => simp [List.replicate_succ, Nat.ofDigits_cons, ih]

theorem map_hexValue_hexDigit (l : List Nat) (h : ∀ d ∈ l, d < 16) :
    (l.map hexDigit).map hexValue = l := by
  induction l with
  | nil => rfl
  | cons d t ih =>
    simp only [List.map_cons, List.cons.injEq]
    exact ⟨hexValue_hexDigit d (h d (by simp)), ih (fun x hx => h x (by simp [hx]))⟩

/-- The characters of the name of a file number that is not zero. -/
theorem formatHex08_data (k : Nat) (hk : k ≠ 0) :
    (formatHex08 k).data =
      List.replicate (8 - (Nat.digits 16 k).length) '0' ++
        (Nat.digits 16 k).reverse.map hexDigit := by
  have hne : Nat.digits 16 k ≠ [] := Nat.digits_ne_nil_iff_ne_zero.mpr hk
  have hne' : ((Nat.digits 16 k).reverse.map hexDigit).isEmpty = false := by
    cases h : (Nat.digits 16 k).reverse with
    | nil =>
      simp only [List.reverse_eq_nil_iff] at h
      exact absurd h hne
    | cons a t => rfl
  unfold formatHex08
  simp only [hne', Bool.false_eq_true, if_false, List.length_map, List.length_reverse]

theorem formatHex08_zero : formatHex08 0 = "00000000" := by
  simp [formatHex08]

/-- The file number can be read back from the name. -/
theorem decodeHex_formatHex08 (k : Nat) : decodeHex (formatHex08 k) = k := by
  by_cases hk : k = 0
  · subst hk
    rw [formatHex08_zero]
    decide
  · have hd : ((Nat.digits 16 k).map hexDigit).map hexValue = Nat.digits 16 k :=
      map_hexValue_hexDigit _ (fun d hd => Nat.digits_lt_base (by norm_num) hd)
    have h0 : hexValue '0' = 0 := by decide
    unfold decodeHex
    rw [formatHex08_data k hk, List.reverse_append, List.map_append, List.reverse_replicate,
      List.map_replicate, h0, Nat.ofDigits_append, ofDigits_replicate_zero, Nat.mul_zero,
      Nat.add_zero]
    simp only [List.map_reverse, List.reverse_reverse, hd, Nat.ofDigits_digits]

theorem formatHex08_injective (a b : Nat) (h : formatHex08 a = formatHex08 b) : a = b := by
  have := congrArg decodeHex h
  rwa [decodeHex_formatHex08, decodeHex_formatHex08] at this

/-- A file number below 16^8 gives a name of eight characters. -/
theorem formatHex08_length (k : Nat) (hk : k < 16 ^ 8) : (formatHex08 k).length = 8 := by
  by_cases h0 : k = 0
  · subst h0
    rw [formatHex08_zero]
    rfl
  · have hlen : (Nat.digits 16 k).length ≤ 8 := by
      have h1 := Nat.base_pow_length_digits_le 16 k (by norm_num) h0
      have h2 : 16 ^ (Nat.digits 16 k).length < 16 ^ 9 := by omega
      have := (Nat.pow_lt_pow_iff_right (by norm_num : 1 < 16)).mp h2
      omega
    show (formatHex08 k).data.length = 8
    rw [formatHex08_data k h0]
    simp only [List.length_append, List.length_replicate, List.length_map, List.length_reverse]
    omega

theorem string_append_cancel_left (p a b : String) (h : p ++ a = p ++ b) : a = b := by
  have := congrArg String.data h
  simp only [String.data_append, List.append_cancel_left_eq] at this
  exact String.ext this

/-- A call of `getSeriesUids` changes no member but the series map. -/
theorem getSeriesUids_fields (env : Dcmtk) (root : Option String) (w : World)
    (self : StudyAnonymizer) (x : String) :
    (getSeriesUids env root w self x).2.2 =
      { self with m_series_uids := (getSeriesUids env root w self x).2.2.m_series_uids } := by
  cases h : umapFind self.m_series_uids x with
  | some v => rw [getSeriesUids_hit env root w self x v h]
  | none => rw [getSeriesUids_miss env root w self x h]

/-- The sweep of a data set that is there does not return failure. -/
theorem removeInvalidTags_some (env : Dcmtk) (ds : DcmDataset) :
    removeInvalidTags env (some ds) = none ∨
      ∃ ds', removeInvalidTags env (some ds) = some (true, some ds') := by
  simp only [removeInvalidTags]
  cases removeInvalidLoop env ds.length ds 0 with
  | none => exact Or.inl rfl
  | some ds' => exact Or.inr ⟨ds', rfl⟩

/-- Lines 115-154 once the sweep has ended: the name is formed, and the record is saved under it
in the output directory of the study, or the save fails and the function returns false. -/
theorem finishRecord_unfold (env : Dcmtk) (root : Option String) (newStudyUID : String)
    (w : World) (self : StudyAnonymizer) (fileNumber : Nat) (ds : DcmDataset)
    (oldSeriesUID : String) (ds' : DcmDataset)
    (hsw : removeInvalidTags env
      (some (writeIdentifiers ds (getSeriesUids env root w self oldSeriesUID).1
        (env.uidOf root (getSeriesUids env root w self oldSeriesUID).2.1.uidCalls)
        newStudyUID)) = some (true, some ds')) :
    finishRecord env root newStudyUID w self fileNumber ds oldSeriesUID =
      match outputNameOf self.m_filenameType fileNumber ds'
          (env.uidOf root (getSeriesUids env root w self oldSeriesUID).2.1.uidCalls) with
      | none =>
        Flow.abort
          { (getSeriesUids env root w self oldSeriesUID).2.1 with
            uidCalls := (getSeriesUids env root w self oldSeriesUID).2.1.uidCalls + 1 }
          { (getSeriesUids env root w self oldSeriesUID).2.2 with m_dataset := some ds' }
      | some name =>
        if env.canSave (self.m_outputStudyDir ++ "/" ++ name) then
          Flow.next
            { uidCalls := (getSeriesUids env root w self oldSeriesUID).2.1.uidCalls + 1,
              files := (self.m_outputStudyDir ++ "/" ++ name, ds') :: w.files }
            { (getSeriesUids env root w self oldSeriesUID).2.2 with m_dataset := some ds' }
            (fileNumber + 1)
        else
          Flow.ret false
            { (getSeriesUids env root w self oldSeriesUID).2.1 with
              uidCalls := (getSeriesUids env root w self oldSeriesUID).2.1.uidCalls + 1 }
            { (getSeriesUids env root w self oldSeriesUID).2.2 with m_dataset := some ds' } := by
  have hf := getSeriesUids_files env root w self oldSeriesUID
  have hfld := getSeriesUids_fields env root w self oldSeriesUID
  have ht : (getSeriesUids env root w self oldSeriesUID).2.2.m_filenameType =
      self.m_filenameType := by rw [hfld]
  have hd : (getSeriesUids env root w self oldSeriesUID).2.2.m_outputStudyDir =
      self.m_outputStudyDir := by rw [hfld]
  simp only [finishRecord, dcmGenerateUniqueIdentifier, hsw, ht, hd, hf, outputNameOf]

/-- What one pass through the loop body can do: go on after saving one file under a name in the
output directory, with the file number one higher; return false with no file added; or not
return, with no file added. -/
theorem anonymizeFile_step (env : Dcmtk) (pseudoname : String)
    (methods : List E_ANONYM_METHODS) (root : Option String) (newStudyUID : String)
    (w : World) (self : StudyAnonymizer) (fileNumber : Nat) (file : String) :
    (∀ w1 self1 n1,
      anonymizeFile env pseudoname methods root newStudyUID w self fileNumber file =
        Flow.next w1 self1 n1 →
      n1 = fileNumber + 1 ∧ self1.m_filenameType = self.m_filenameType ∧
      self1.m_outputStudyDir = self.m_outputStudyDir ∧
      ∃ ds0 ds' name, loadFile w.files file = some ds0 ∧
        self1.m_oldName = findAndGetOFString ds0 DCM_PatientName ∧
        self1.m_oldID = findAndGetOFString ds0 DCM_PatientID ∧
        self1.m_dataset = some ds' ∧
        env.canSave (self.m_outputStudyDir ++ "/" ++ name) = true ∧
        w1.files = (self.m_outputStudyDir ++ "/" ++ name, ds') :: w.files ∧
        (self.m_filenameType = E_FILENAMES.F_HEX → name = formatHex08 fileNumber)) ∧
    (∀ b w1 self1,
      anonymizeFile env pseudoname methods root newStudyUID w self fileNumber file =
        Flow.ret b w1 self1 → b = false ∧ w1.files = w.files) ∧
    (∀ w1 self1,
      anonymizeFile env pseudoname methods root newStudyUID w self fileNumber file =
        Flow.abort w1 self1 → w1.files = w.files) := by
  cases hload : loadFile w.files file with
  | none =>
    have e : anonymizeFile env pseudoname methods root newStudyUID w self fileNumber file =
        Flow.ret false w self := by simp only [anonymizeFile, hload]
    rw [e]
    refine ⟨?_, ?_, ?_⟩
    · intro w1 self1 n1 h; cases h
    · intro b w1 self1 h; cases h; exact ⟨rfl, rfl⟩
    · intro w1 self1 h; cases h
  | some ds0 =>
    cases hs : findAndGetString (applyProfile pseudoname methods ds0) DCM_SeriesInstanceUID with
    | none =>
      have e : anonymizeFile env pseudoname methods root newStudyUID w self fileNumber file =
          Flow.abort w { captureOriginal self ds0 with
            m_dataset := some (applyProfile pseudoname methods ds0) } := by
        simp only [anonymizeFile, hload, hs]
      rw [e]
      refine ⟨?_, ?_, ?_⟩
      · intro w1 self1 n1 h; cases h
      · intro b w1 self1 h; cases h
      · intro w1 self1 h; cases h; rfl
    | some old =>
      have e : anonymizeFile env pseudoname methods root newStudyUID w self fileNumber file =
          finishRecord env root newStudyUID w (captureOriginal self ds0) fileNumber
            (applyProfile pseudoname methods ds0) old := by
        simp only [anonymizeFile, hload, hs]
      rw [e]
      have hf := getSeriesUids_files env root w (captureOriginal self ds0) old
      have hfld := getSeriesUids_fields env root w (captureOriginal self ds0) old
      rcases removeInvalidTags_some env
        (writeIdentifiers (applyProfile pseudoname methods ds0)
          (getSeriesUids env root w (captureOriginal self ds0) old).1
          (env.uidOf root (getSeriesUids env root w (captureOriginal self ds0) old).2.1.uidCalls)
          newStudyUID) with hsw | ⟨ds', hsw⟩
      · have e2 : finishRecord env root newStudyUID w (captureOriginal self ds0) fileNumber
            (applyProfile pseudoname methods ds0) old =
            Flow.abort
              { (getSeriesUids env root w (captureOriginal self ds0) old).2.1 with
                uidCalls :=
                  (getSeriesUids env root w (captureOriginal self ds0) old).2.1.uidCalls + 1 }
              { (getSeriesUids env root w (captureOriginal self ds0) old).2.2 with
                m_dataset := some (writeIdentifiers (applyProfile pseudoname methods ds0)
                  (getSeriesUids env root w (captureOriginal self ds0) old).1
                  (env.uidOf root
                    (getSeriesUids env root w (captureOriginal self ds0) old).2.1.uidCalls)
                  newStudyUID) } := by
          simp only [finishRecord, dcmGenerateUniqueIdentifier, hsw]
        rw [e2]
        refine ⟨?_, ?_, ?_⟩
        · intro w1 self1 n1 h; cases h
        · intro b w1 self1 h; cases h
        · intro w1 self1 h; cases h; exact hf
      · rw [finishRecord_unfold env root newStudyUID w (captureOriginal self ds0) fileNumber
          (applyProfile pseudoname methods ds0) old ds' hsw]
        cases hname : outputNameOf (captureOriginal self ds0).m_filenameType fileNumber ds'
            (env.uidOf root
              (getSeriesUids env root w (captureOriginal self ds0) old).2.1.uidCalls) with
        | none =>
          refine ⟨?_, ?_, ?_⟩
          · intro w1 self1 n1 h; cases h
          · intro b w1 self1 h; cases h
          · intro w1 self1 h; cases h; exact hf
        | some name =>
          by_cases hsave : env.canSave ((captureOriginal self ds0).m_outputStudyDir ++ "/" ++ name)
              = true
          · simp only [hsave, if_true]
            refine ⟨?_, ?_, ?_⟩
            · intro w1 self1 n1 h
              cases h
              refine ⟨rfl, by rw [hfld]; rfl, by rw [hfld]; rfl, ds0, ds', name, rfl,
                by rw [hfld]; rfl, by rw [hfld]; rfl, rfl, hsave, rfl, ?_⟩
              intro hhex
              have hhex' : (captureOriginal self ds0).m_filenameType = E_FILENAMES.F_HEX := hhex
              rw [hhex'] at hname
              simp only [outputNameOf, Option.some.injEq] at hname
              exact hname.symm
            · intro b w1 self1 h; cases h
            · intro w1 self1 h; cases h
          · simp only [hsave, if_false]
            refine ⟨?_, ?_, ?_⟩
            · intro w1 self1 n1 h; cases h
            · intro b w1 self1 h; cases h; exact ⟨rfl, hf⟩
            · intro w1 self1 h; cases h

/-- In hex naming mode the files that the loop saves are named, in the order of saving, with the
file numbers from the first one on. -/
theorem anonymizeLoop_hex (env : Dcmtk) (pseudoname : String)
    (methods : List E_ANONYM_METHODS) (root : Option String) (newStudyUID : String)
    (files : List String) :
    ∀ (w : World) (self : StudyAnonymizer) (n : Nat),
      self.m_filenameType = E_FILENAMES.F_HEX →
      ∃ writes,
        (anonymizeLoop env pseudoname methods root newStudyUID w self n files).world.files
          = writes ++ w.files ∧
        writes.reverse.map Prod.fst =
          (List.range' n writes.length).map
            (fun k => self.m_outputStudyDir ++ "/" ++ formatHex08 k) := by
  induction files with
  | nil =>
    intro w self n _
    exact ⟨[], by simp [anonymizeLoop, Outcome.world], by simp⟩
  | cons file files ih =>
    intro w self n hhex
    obtain ⟨s1, s2, s3⟩ := anonymizeFile_step env pseudoname methods root newStudyUID w self n
      file
    simp only [anonymizeLoop]
    cases hflow : anonymizeFile env pseudoname methods root newStudyUID w self n file with
    | next w1 self1 n1 =>
      obtain ⟨hn, ht, hd, _, ds', name, _, _, _, _, _, hw, hname⟩ := s1 w1 self1 n1 hflow
      obtain ⟨writes, h1, h2⟩ := ih w1 self1 n1 (ht.trans hhex)
      refine ⟨writes ++ [(self.m_outputStudyDir ++ "/" ++ name, ds')], ?_, ?_⟩
      · simp only []
        rw [h1, hw]
        simp
      · rw [hn, hd] at h2
        have hl : (writes ++ [(self.m_outputStudyDir ++ "/" ++ name, ds')]).length =
            writes.length + 1 := by simp
        rw [hl, List.range'_succ, List.reverse_append]
        simp only [List.reverse_cons, List.reverse_nil, List.nil_append, List.singleton_append,
          List.map_cons]
        rw [h2, hname hhex]
    | ret b w1 self1 =>
      exact ⟨[], by simp [Outcome.world, (s2 b w1 self1 hflow).2], by simp⟩
    | abort w1 self1 =>
      exact ⟨[], by simp [Outcome.world, s3 w1 self1 hflow], by simp⟩

/-- When the loop over a front part of the files returns true, every file of the front part was
saved, and the loop over more files goes on from there. -/
theorem anonymizeLoop_append (env : Dcmtk) (pseudoname : String)
    (methods : List E_ANONYM_METHODS) (root : Option String) (newStudyUID : String)
    (pre rest : List String) :
    ∀ (w : World) (self : StudyAnonymizer) (n : Nat),
      (anonymizeLoop env pseudoname methods root newStudyUID w self n pre).result = some true →
      anonymizeLoop env pseudoname methods root newStudyUID w self n (pre ++ rest) =
        anonymizeLoop env pseudoname methods root newStudyUID
          (anonymizeLoop env pseudoname methods root newStudyUID w self n pre).world
          (anonymizeLoop env pseudoname methods root newStudyUID w self n pre).self
          (n + pre.length) rest ∧
      ∃ writes,
        (anonymizeLoop env pseudoname methods root newStudyUID w self n pre).world.files
          = writes ++ w.files ∧ writes.length = pre.length := by
  induction pre with
  | nil =>
    intro w self n _
    exact ⟨by simp [anonymizeLoop, Outcome.world, Outcome.self], [],
      by simp [anonymizeLoop, Outcome.world], rfl⟩
  | cons file pre ih =>
    intro w self n h
    obtain ⟨s1, s2, _⟩ := anonymizeFile_step env pseudoname methods root newStudyUID w self n
      file
    cases hflow : anonymizeFile env pseudoname methods root newStudyUID w self n file with
    | next w1 self1 n1 =>
      have u : ∀ fs, anonymizeLoop env pseudoname methods root newStudyUID w self n (file :: fs) =
          anonymizeLoop env pseudoname methods root newStudyUID w1 self1 n1 fs := by
        intro fs
        simp only [anonymizeLoop, hflow]
      rw [u] at h
      simp only [List.cons_append, u]
      obtain ⟨hn, _, _, _, ds', name, _, _, _, _, _, hw, _⟩ := s1 w1 self1 n1 hflow
      obtain ⟨e, writes, h1, h2⟩ := ih w1 self1 n1 h
      refine ⟨?_, writes ++ [(self.m_outputStudyDir ++ "/" ++ name, ds')], ?_, ?_⟩
      · rw [e, hn, List.length_cons]
        have : n + 1 + pre.length = n + (pre.length + 1) := by omega
        rw [this]
      · rw [h1, hw]
        simp
      · simp [h2]
    | ret b w1 self1 =>
      have u : anonymizeLoop env pseudoname methods root newStudyUID w self n (file :: pre) =
          Outcome.returned b w1 self1 := by
        simp only [anonymizeLoop, hflow]
      rw [u] at h
      simp only [Outcome.result, Option.some.injEq] at h
      have := (s2 b w1 self1 hflow).1
      rw [h] at this
      cases this
    | abort w1 self1 =>
      have u : anonymizeLoop env pseudoname methods root newStudyUID w self n (file :: pre) =
          Outcome.aborted w1 self1 := by
        simp only [anonymizeLoop, hflow]
      rw [u] at h
      simp [Outcome.result] at h

theorem anonymizeFile_load_fails (env : Dcmtk) (pseudoname : String)
    (methods : List E_ANONYM_METHODS) (root : Option String) (newStudyUID : String)
    (w : World) (self : StudyAnonymizer) (fileNumber : Nat) (file : String)
    (h : loadFile w.files file = none) :
    anonymizeFile env pseudoname methods root newStudyUID w self fileNumber file =
      Flow.ret false w self := by
  simp only [anonymizeFile, h]

theorem anonymizeFile_save_fails (env : Dcmtk) (pseudoname : String)
    (methods : List E_ANONYM_METHODS) (root : Option String) (newStudyUID : String)
    (w : World) (self : StudyAnonymizer) (fileNumber : Nat) (file : String)
    (h : SaveFails env pseudoname methods root newStudyUID w self fileNumber file) :
    ∃ w1 self1,
      anonymizeFile env pseudoname methods root newStudyUID w self fileNumber file =
        Flow.ret false w1 self1 ∧ w1.files = w.files := by
  obtain ⟨ds0, old, ds', name, hload, hs, hsw, hname, hsave⟩ := h
  rw [anonymizeFile_eq env pseudoname methods root newStudyUID w self fileNumber file ds0 old
    hload hs,
    finishRecord_unfold env root newStudyUID w (captureOriginal self ds0) fileNumber
      (applyProfile pseudoname methods ds0) old ds' hsw]
  have hname' : outputNameOf (captureOriginal self ds0).m_filenameType fileNumber ds'
      (env.uidOf root (getSeriesUids env root w (captureOriginal self ds0) old).2.1.uidCalls)
      = some name := hname
  have hsave' : env.canSave ((captureOriginal self ds0).m_outputStudyDir ++ "/" ++ name)
      = false := hsave
  rw [hname']
  simp only [hsave', Bool.false_eq_true, if_false]
  exact ⟨_, _, rfl, getSeriesUids_files env root w (captureOriginal self ds0) old⟩

/-- C16 (hex output naming): in hex naming mode the files that a call of `anonymizeStudy` saved
are named, in the order of saving, with the positions 0, 1, 2, ... written by `formatHex08` in
the output directory of the study, so no two of them have the same path; the name of every
position below 2^31 has eight characters, and different positions have different names. -/
theorem anonymizeStudy_hex_names (env : Dcmtk) (w : World) (self : StudyAnonymizer)
    (pseudoname : String) (methods : List E_ANONYM_METHODS) (root : Option String)
    (hhex : self.m_filenameType = E_FILENAMES.F_HEX) :
    (∃ writes,
      (anonymizeStudy env w self pseudoname methods root).world.files = writes ++ w.files ∧
      writes.reverse.map Prod.fst =
        (List.range writes.length).map
          (fun k => self.m_outputStudyDir ++ "/" ++ formatHex08 k) ∧
      (writes.map Prod.fst).Nodup) ∧
    (∀ k, k < 2 ^ 31 → (formatHex08 k).length = 8) ∧
    (∀ a b, formatHex08 a = formatHex08 b → a = b) := by
  refine ⟨?_, ?_, formatHex08_injective⟩
  · simp only [anonymizeStudy, dcmGenerateUniqueIdentifier]
    obtain ⟨writes, h1, h2⟩ := anonymizeLoop_hex env pseudoname methods root
      (env.uidOf root w.uidCalls) self.m_dicom_files { w with uidCalls := w.uidCalls + 1 } self 0
      hhex
    rw [← List.range_eq_range'] at h2
    refine ⟨writes, h1, h2, ?_⟩
    have hinj : Function.Injective
        (fun k => self.m_outputStudyDir ++ "/" ++ formatHex08 k) := by
      intro a b e
      exact formatHex08_injective a b (string_append_cancel_left _ _ _ e)
    have hnd : (writes.reverse.map Prod.fst).Nodup := by
      rw [h2]
      exact List.Nodup.map hinj (List.nodup_range _)
    rw [List.map_reverse, List.nodup_reverse] at hnd
    exact hnd
  · intro k hk
    exact formatHex08_length k (by omega)

/-- Witness of C16 on the sample study, which is in hex naming mode: two files are saved, and
position 10 is named "0000000A". -/
theorem anonymizeStudy_hex_names_witness :
    ((∃ writes,
      (anonymizeStudy sampleDcmtk sampleWorld sampleAnonymizer "P01"
        [E_ANONYM_METHODS.M_113100] none).world.files = writes ++ sampleWorld.files ∧
      writes.reverse.map Prod.fst =
        (List.range writes.length).map
          (fun k => sampleAnonymizer.m_outputStudyDir ++ "/" ++ formatHex08 k) ∧
      (writes.map Prod.fst).Nodup) ∧
    (∀ k, k < 2 ^ 31 → (formatHex08 k).length = 8) ∧
    (∀ a b, formatHex08 a = formatHex08 b → a = b)) ∧
    (anonymizeStudy sampleDcmtk sampleWorld sampleAnonymizer "P01"
      [E_ANONYM_METHODS.M_113100] none).world.files.length = 4 ∧
    formatHex08 10 = "0000000A" :=
  ⟨anonymizeStudy_hex_names sampleDcmtk sampleWorld sampleAnonymizer "P01"
      [E_ANONYM_METHODS.M_113100] none rfl,
    by decide, by simp [formatHex08, hexDigit]⟩

/-- C17 (record I/O failure aborts the study): when the records before position k of a study were
loaded, transformed and saved and the record at position k cannot be loaded or cannot be saved,
`anonymizeStudy` returns false; the files on disk are then those after the first k records, k
of them added by this call and none removed, and the call ends in the same way as for the study
without the records after position k.  A call that returns true has saved as many files as the
study has records. -/
theorem anonymizeStudy_io_failure (env : Dcmtk) (w : World) (self : StudyAnonymizer)
    (pseudoname : String) (methods : List E_ANONYM_METHODS) (root : Option String)
    (pre post : List String) (f : String)
    (hfiles : self.m_dicom_files = pre ++ f :: post)
    (hpre : (anonymizeLoop env pseudoname methods root (env.uidOf root w.uidCalls)
      { w with uidCalls := w.uidCalls + 1 } self 0 pre).result = some true)
    (hfail :
      loadFile (anonymizeLoop env pseudoname methods root (env.uidOf root w.uidCalls)
        { w with uidCalls := w.uidCalls + 1 } self 0 pre).world.files f = none ∨
      SaveFails env pseudoname methods root (env.uidOf root w.uidCalls)
        (anonymizeLoop env pseudoname methods root (env.uidOf root w.uidCalls)
          { w with uidCalls := w.uidCalls + 1 } self 0 pre).world
        (anonymizeLoop env pseudoname methods root (env.uidOf root w.uidCalls)
          { w with uidCalls := w.uidCalls + 1 } self 0 pre).self pre.length f) :
    (anonymizeStudy env w self pseudoname methods root).result = some false ∧
    (anonymizeStudy env w self pseudoname methods root).world.files =
      (anonymizeLoop env pseudoname methods root (env.uidOf root w.uidCalls)
        { w with uidCalls := w.uidCalls + 1 } self 0 pre).world.files ∧
    (∃ writes,
      (anonymizeStudy env w self pseudoname methods root).world.files = writes ++ w.files ∧
      writes.length = pre.length) ∧
    anonymizeStudy env w self pseudoname methods root =
      anonymizeLoop env pseudoname methods root (env.uidOf root w.uidCalls)
        { w with uidCalls := w.uidCalls + 1 } self 0 (pre ++ [f]) ∧
    (∀ (w' : World) (self' : StudyAnonymizer),
      (anonymizeStudy env w' self' pseudoname methods root).result = some true →
      ∃ writes,
        (anonymizeStudy env w' self' pseudoname methods root).world.files = writes ++ w'.files ∧
        writes.length = self'.m_dicom_files.length) := by
  have key : ∀ rest,
      ∃ w2 self2,
        anonymizeLoop env pseudoname methods root (env.uidOf root w.uidCalls)
          { w with uidCalls := w.uidCalls + 1 } self 0 (pre ++ f :: rest) =
          Outcome.returned false w2 self2 ∧
        w2.files =
          (anonymizeLoop env pseudoname methods root (env.uidOf root w.uidCalls)
            { w with uidCalls := w.uidCalls + 1 } self 0 pre).world.files ∧
        anonymizeLoop env pseudoname methods root (env.uidOf root w.uidCalls)
          { w with uidCalls := w.uidCalls + 1 } self 0 (pre ++ f :: rest) =
        anonymizeLoop env pseudoname methods root (env.uidOf root w.uidCalls)
          { w with uidCalls := w.uidCalls + 1 } self 0 (pre ++ [f]) := by
    have step : ∃ w2 self2,
        anonymizeFile env pseudoname methods root (env.uidOf root w.uidCalls)
          (anonymizeLoop env pseudoname methods root (env.uidOf root w.uidCalls)
            { w with uidCalls := w.uidCalls + 1 } self 0 pre).world
          (anonymizeLoop env pseudoname methods root (env.uidOf root w.uidCalls)
            { w with uidCalls := w.uidCalls + 1 } self 0 pre).self (0 + pre.length) f =
          Flow.ret false w2 self2 ∧
        w2.files =
          (anonymizeLoop env pseudoname methods root (env.uidOf root w.uidCalls)
            { w with uidCalls := w.uidCalls + 1 } self 0 pre).world.files := by
      rw [Nat.zero_add]
      rcases hfail with hl | hsv
      · exact ⟨_, _, anonymizeFile_load_fails env pseudoname methods root _ _ _ _ f hl, rfl⟩
      · exact anonymizeFile_save_fails env pseudoname methods root _ _ _ _ f hsv
    obtain ⟨w2, self2, hstep, hw2⟩ := step
    intro rest
    have e1 := (anonymizeLoop_append env pseudoname methods root (env.uidOf root w.uidCalls)
      pre (f :: rest) { w with uidCalls := w.uidCalls + 1 } self 0 hpre).1
    have e2 := (anonymizeLoop_append env pseudoname methods root (env.uidOf root w.uidCalls)
      pre [f] { w with uidCalls := w.uidCalls + 1 } self 0 hpre).1
    refine ⟨w2, self2, ?_, hw2, ?_⟩
    · rw [e1]
      simp only [anonymizeLoop, hstep]
    · rw [e1, e2]
      simp only [anonymizeLoop, hstep]
  obtain ⟨writes, hwr, hlen⟩ :=
    (anonymizeLoop_append env pseudoname methods root (env.uidOf root w.uidCalls)
      pre [] { w with uidCalls := w.uidCalls + 1 } self 0 hpre).2
  obtain ⟨w2, self2, h1, h2, h3⟩ := key post
  have hstudy : anonymizeStudy env w self pseudoname methods root =
      anonymizeLoop env pseudoname methods root (env.uidOf root w.uidCalls)
        { w with uidCalls := w.uidCalls + 1 } self 0 (pre ++ f :: post) := by
    simp only [anonymizeStudy, dcmGenerateUniqueIdentifier, hfiles]
  refine ⟨?_, ?_, ?_, ?_, ?_⟩
  · rw [hstudy, h1]
    rfl
  · rw [hstudy, h1]
    exact h2
  · refine ⟨writes, ?_, hlen⟩
    rw [hstudy, h1]
    exact h2.trans hwr
  · rw [hstudy]
    exact h3
  · intro w' self' hres
    have hs : anonymizeStudy env w' self' pseudoname methods root =
        anonymizeLoop env pseudoname methods root (env.uidOf root w'.uidCalls)
          { w' with uidCalls := w'.uidCalls + 1 } self' 0 self'.m_dicom_files := by
      simp only [anonymizeStudy, dcmGenerateUniqueIdentifier]
    rw [hs] at hres ⊢
    exact (anonymizeLoop_append env pseudoname methods root (env.uidOf root w'.uidCalls)
      self'.m_dicom_files [] { w' with uidCalls := w'.uidCalls + 1 } self' 0 hres).2

/-- A save failure as C17 means it: in the sample study with the second naming mode the first
record is saved as "CT111" and the second, to be saved as "CT1111", cannot be saved; the call
returns false and the first file stays. -/
theorem anonymizeStudy_save_failure_sample :
    (anonymizeStudy sampleDcmtkNoSave sampleWorld sampleAnonymizerModality "P01"
      [E_ANONYM_METHODS.M_113100] none).result = some false ∧
    (anonymizeStudy sampleDcmtkNoSave sampleWorld sampleAnonymizerModality "P01"
      [E_ANONYM_METHODS.M_113100] none).world.files.map Prod.fst =
      ["out/P01/DATA/CT111", "in/a", "in/b"] := by
  decide

/-- The hypothesis of C17 for a save failure can be met: after the first record of the sample
study in the second naming mode, the second record cannot be saved. -/
theorem saveFails_sample :
    SaveFails sampleDcmtkNoSave "P01" [E_ANONYM_METHODS.M_113100] none
      (sampleDcmtkNoSave.uidOf none sampleWorld.uidCalls)
      (anonymizeLoop sampleDcmtkNoSave "P01" [E_ANONYM_METHODS.M_113100] none
        (sampleDcmtkNoSave.uidOf none sampleWorld.uidCalls)
        { sampleWorld with uidCalls := sampleWorld.uidCalls + 1 } sampleAnonymizerModality 0
        ["in/a"]).world
      (anonymizeLoop sampleDcmtkNoSave "P01" [E_ANONYM_METHODS.M_113100] none
        (sampleDcmtkNoSave.uidOf none sampleWorld.uidCalls)
        { sampleWorld with uidCalls := sampleWorld.uidCalls + 1 } sampleAnonymizerModality 0
        ["in/a"]).self
      1 "in/b" := by
  refine ⟨sampleRecord, "9.3", _, "CT1111", ?_, ?_, removeInvalidTags_eq _ _ ?_, ?_, ?_⟩ <;>
    decide

/-- Witness of C17, for both kinds of failure.  Load: the second of three files is not on disk;
the first record is saved, the call returns false, the third record is not saved.  Save: the
second record of the sample study cannot be saved; the call returns false and the first record
stays saved. -/
theorem anonymizeStudy_io_failure_witness :
    ((anonymizeStudy sampleDcmtk sampleWorld sampleAnonymizerMissing "P01"
        [E_ANONYM_METHODS.M_113100] none).result = some false ∧
      (anonymizeStudy sampleDcmtk sampleWorld sampleAnonymizerMissing "P01"
        [E_ANONYM_METHODS.M_113100] none).world.files.length = 3) ∧
    ((anonymizeStudy sampleDcmtkNoSave sampleWorld sampleAnonymizerModality "P01"
        [E_ANONYM_METHODS.M_113100] none).result = some false ∧
      (anonymizeStudy sampleDcmtkNoSave sampleWorld sampleAnonymizerModality "P01"
        [E_ANONYM_METHODS.M_113100] none).world.files.length = 3) :=
  ⟨⟨(anonymizeStudy_io_failure sampleDcmtk sampleWorld sampleAnonymizerMissing "P01"
      [E_ANONYM_METHODS.M_113100] none ["in/a"] ["in/b"] "in/x" rfl (by decide)
      (Or.inl (by decide))).1, by decide⟩,
    ⟨(anonymizeStudy_io_failure sampleDcmtkNoSave sampleWorld sampleAnonymizerModality "P01"
      [E_ANONYM_METHODS.M_113100] none ["in/a"] [] "in/b" rfl (by decide)
      (Or.inr saveFails_sample)).1, by decide⟩⟩

/-! ### The captured identity -/

/-- Lines 115-154 do not touch the captured name and ID. -/
theorem finishRecord_keeps_identity (env : Dcmtk) (root : Option String) (newStudyUID : String)
    (w : World) (self : StudyAnonymizer) (fileNumber : Nat) (ds : DcmDataset)
    (oldSeriesUID : String) :
    (finishRecord env root newStudyUID w self fileNumber ds oldSeriesUID).self.m_oldName =
      self.m_oldName ∧
    (finishRecord env root newStudyUID w self fileNumber ds oldSeriesUID).self.m_oldID =
      self.m_oldID := by
  have hfld := getSeriesUids_fields env root w self oldSeriesUID
  have h1 : (getSeriesUids env root w self oldSeriesUID).2.2.m_oldName = self.m_oldName := by
    rw [hfld]
  have h2 : (getSeriesUids env root w self oldSeriesUID).2.2.m_oldID = self.m_oldID := by
    rw [hfld]
  rcases removeInvalidTags_some env
    (writeIdentifiers ds (getSeriesUids env root w self oldSeriesUID).1
      (env.uidOf root (getSeriesUids env root w self oldSeriesUID).2.1.uidCalls)
      newStudyUID) with hsw | ⟨ds', hsw⟩
  · simp only [finishRecord, dcmGenerateUniqueIdentifier, hsw, Flow.self]
    exact ⟨h1, h2⟩
  · rw [finishRecord_unfold env root newStudyUID w self fileNumber ds oldSeriesUID ds' hsw]
    cases outputNameOf self.m_filenameType fileNumber ds'
        (env.uidOf root (getSeriesUids env root w self oldSeriesUID).2.1.uidCalls) with
    | none => exact ⟨h1, h2⟩
    | some name =>
      by_cases hsave : env.canSave (self.m_outputStudyDir ++ "/" ++ name) = true
      · simp only [hsave, if_true, Flow.self]
        exact ⟨h1, h2⟩
      · simp only [hsave, if_false, Flow.self]
        exact ⟨h1, h2⟩

/-- C18 (original identity capture): for a record that loads, has a series identifier and fits
the loop index of the sweep, the name and ID that the loop body leaves in `m_oldName` and
`m_oldID` for the key list are the values of the loaded record, read before any field is
changed: the value of the field when the record has it, the empty string when it has not.  So
the captured value is the pseudonym only when the loaded record held the pseudonym already (or
held nothing and the pseudonym is empty).  Absent fields do not stop the transformation: a data
set results, and in hex naming mode with a disk that takes every file the record is saved. -/
theorem anonymizeFile_captures_original (env : Dcmtk) (pseudoname : String)
    (methods : List E_ANONYM_METHODS) (root : Option String) (newStudyUID : String)
    (w : World) (self : StudyAnonymizer) (fileNumber : Nat) (file : String)
    (ds0 : DcmDataset) (old : String)
    (hload : loadFile w.files file = some ds0)
    (hs : findAndGetString ds0 DCM_SeriesInstanceUID = some old)
    (hcard : ds0.length + 17 < ulongModulus) :
    (anonymizeFile env pseudoname methods root newStudyUID w self fileNumber file).self.m_oldName
      = (findElement ds0 DCM_PatientName).getD "" ∧
    (anonymizeFile env pseudoname methods root newStudyUID w self fileNumber file).self.m_oldID
      = (findElement ds0 DCM_PatientID).getD "" ∧
    ((anonymizeFile env pseudoname methods root newStudyUID w self fileNumber file).self.m_oldName
        = pseudoname →
      findElement ds0 DCM_PatientName = some pseudoname ∨
        (findElement ds0 DCM_PatientName = none ∧ pseudoname = "")) ∧
    ((anonymizeFile env pseudoname methods root newStudyUID w self fileNumber file).self.m_oldID
        = pseudoname →
      findElement ds0 DCM_PatientID = some pseudoname ∨
        (findElement ds0 DCM_PatientID = none ∧ pseudoname = "")) ∧
    (∃ ds',
      (anonymizeFile env pseudoname methods root newStudyUID w self fileNumber
        file).self.m_dataset = some ds') ∧
    (self.m_filenameType = E_FILENAMES.F_HEX → (∀ p, env.canSave p = true) →
      ∃ w1 self1,
        anonymizeFile env pseudoname methods root newStudyUID w self fileNumber file =
          Flow.next w1 self1 (fileNumber + 1)) := by
  have e := anonymizeFile_eq env pseudoname methods root newStudyUID w self fileNumber file
    ds0 old hload hs
  have hk := finishRecord_keeps_identity env root newStudyUID w (captureOriginal self ds0)
    fileNumber (applyProfile pseudoname methods ds0) old
  rw [← e] at hk
  have hname : (anonymizeFile env pseudoname methods root newStudyUID w self fileNumber
      file).self.m_oldName = (findElement ds0 DCM_PatientName).getD "" := hk.1
  have hid : (anonymizeFile env pseudoname methods root newStudyUID w self fileNumber
      file).self.m_oldID = (findElement ds0 DCM_PatientID).getD "" := hk.2
  have hopt : ∀ (o : Option String), o.getD "" = pseudoname →
      o = some pseudoname ∨ (o = none ∧ pseudoname = "") := by
    intro o ho
    cases o with
    | none => exact Or.inr ⟨rfl, ho.symm⟩
    | some v => exact Or.inl (congrArg some ho)
  obtain ⟨ds', _, hds, _⟩ := anonymizeFile_total env pseudoname methods root newStudyUID w self
    fileNumber file ds0 old hload hs hcard
  refine ⟨hname, hid, fun h => hopt _ (hname ▸ h), fun h => hopt _ (hid ▸ h), ⟨ds', hds⟩, ?_⟩
  intro hhex hsave
  have hlen1 := applyProfile_length_le pseudoname methods ds0
  have hlen2 := writeIdentifiers_length_le (applyProfile pseudoname methods ds0)
    (getSeriesUids env root w (captureOriginal self ds0) old).1
    (env.uidOf root (getSeriesUids env root w (captureOriginal self ds0) old).2.1.uidCalls)
    newStudyUID
  have hsw := removeInvalidTags_eq env
    (writeIdentifiers (applyProfile pseudoname methods ds0)
      (getSeriesUids env root w (captureOriginal self ds0) old).1
      (env.uidOf root (getSeriesUids env root w (captureOriginal self ds0) old).2.1.uidCalls)
      newStudyUID) (by omega)
  rw [e, finishRecord_unfold env root newStudyUID w (captureOriginal self ds0) fileNumber
    (applyProfile pseudoname methods ds0) old _ hsw]
  have hhex' : (captureOriginal self ds0).m_filenameType = E_FILENAMES.F_HEX := hhex
  simp only [hhex', outputNameOf, hsave, if_true]
  exact ⟨_, _, rfl⟩

/-- Witness of C18: a record with neither patient name nor patient ID; the captured values are
empty and the record is saved. -/
theorem anonymizeFile_captures_original_witness :
    (anonymizeFile sampleDcmtk "P01" [E_ANONYM_METHODS.M_113100] none "1"
      { uidCalls := 1, files := [("in/c", [(DCM_SeriesInstanceUID, "9.3")])] }
      sampleAnonymizer 0 "in/c").self.m_oldName = "" ∧
    (anonymizeFile sampleDcmtk "P01" [E_ANONYM_METHODS.M_113100] none "1"
      { uidCalls := 1, files := [("in/c", [(DCM_SeriesInstanceUID, "9.3")])] }
      sampleAnonymizer 0 "in/c").self.m_oldID = "" ∧
    (anonymizeFile sampleDcmtk "P01" [E_ANONYM_METHODS.M_113100] none "1"
      { uidCalls := 1, files := [("in/c", [(DCM_SeriesInstanceUID, "9.3")])] }
      sampleAnonymizer 0 "in/c").world.files.length = 2 ∧
    (anonymizeFile sampleDcmtk "P01" [E_ANONYM_METHODS.M_113100] none "1" sampleWorld
      sampleAnonymizer 0 "in/a").self.m_oldName = "Doe^John" :=
  ⟨(anonymizeFile_captures_original sampleDcmtk "P01" [E_ANONYM_METHODS.M_113100] none "1"
      { uidCalls := 1, files := [("in/c", [(DCM_SeriesInstanceUID, "9.3")])] }
      sampleAnonymizer 0 "in/c" [(DCM_SeriesInstanceUID, "9.3")] "9.3"
      (by decide) (by decide) (by decide)).1,
    (anonymizeFile_captures_original sampleDcmtk "P01" [E_ANONYM_METHODS.M_113100] none "1"
      { uidCalls := 1, files := [("in/c", [(DCM_SeriesInstanceUID, "9.3")])] }
      sampleAnonymizer 0 "in/c" [(DCM_SeriesInstanceUID, "9.3")] "9.3"
      (by decide) (by decide) (by decide)).2.1,
    by decide,
    (anonymizeFile_captures_original sampleDcmtk "P01" [E_ANONYM_METHODS.M_113100] none "1"
      sampleWorld sampleAnonymizer 0 "in/a" sampleRecord "9.3"
      (by decide) (by decide) (by decide)).1⟩

/-! ## A record with no series identifier -/

/-- C19 (missing series identifier), the code at a failing input: the first file of the study
holds a record with no series identifier.  The lookup of line 118 leaves the null pointer, its
result is not looked at, and line 120 hands the pointer to `getSeriesUids`, whose parameter is a
string: the call of `anonymizeStudy` does not return, so it does not return failure, and nothing
is written.  A file that cannot be loaded, in the same place, makes the call return false. -/
theorem anonymizeStudy_missing_series_uid_no_return :
    findElement sampleRecordNoSeries DCM_SeriesInstanceUID = none ∧
    (anonymizeStudy sampleDcmtk sampleWorldNoSeries sampleAnonymizer "P01" [] none).result =
      none ∧
    (anonymizeStudy sampleDcmtk sampleWorldNoSeries sampleAnonymizer "P01" [] none).world.files =
      sampleWorldNoSeries.files ∧
    (anonymizeStudy sampleDcmtk sampleWorldNoSeries sampleAnonymizer "P01" []
      none).self.m_series_uids = [] ∧
    (anonymizeStudy sampleDcmtk sampleWorldNoSeries sampleAnonymizer "P01" [] none).result ≠
      some false ∧
    (anonymizeStudy sampleDcmtk { sampleWorldNoSeries with files := [] } sampleAnonymizer "P01" []
      none).result = some false := by
  decide

/-! ## The decimal form of the index and its padding -/

theorem toDigitsCore_eq : ∀ (fuel n : Nat) (acc : List Char), n < fuel →
    Nat.toDigitsCore 10 fuel n acc =
      (if n = 0 then ['0'] else (Nat.digits 10 n).reverse.map Nat.digitChar) ++ acc := by
  intro fuel
  induction fuel with
  | zero => intro n acc h; omega
  | succ fuel ih =>
    intro n acc h
    unfold Nat.toDigitsCore
    by_cases h0 : n / 10 = 0
    · have hn : n < 10 := by omega
      simp only [h0, if_true]
      by_cases hz : n = 0
      · subst hz; simp; rfl
      · have : Nat.digits 10 n = [n % 10] := by
          rw [Nat.digits_def' (by norm_num) (by omega), h0]; simp
        simp [hz, this]
    · have hz : n ≠ 0 := by omega
      have hd : Nat.digits 10 n = (n % 10) :: Nat.digits 10 (n / 10) :=
        Nat.digits_def' (by norm_num) (by omega)
      simp only [h0, if_false]
      rw [ih (n / 10) _ (by omega)]
      simp [h0, hz, hd]

/-- The decimal digits of a number that is not zero are the digits of `Nat.digits`, the most
significant one first. -/
theorem decimalDigits_eq (n : Nat) (hn : n ≠ 0) :
    decimalDigits n = (Nat.digits 10 n).reverse.map Nat.digitChar := by
  unfold decimalDigits Nat.toDigits
  rw [toDigitsCore_eq (n + 1) n [] (by omega)]
  simp [hn]

theorem decimalDigits_zero : decimalDigits 0 = ['0'] := by
  decide

theorem decimalValue_digitChar : ∀ d, d < 10 → decimalValue (Nat.digitChar d) = d := by
  decide

theorem map_decimalValue_digitChar (l : List Nat) (h : ∀ d ∈ l, d < 10) :
    (l.map Nat.digitChar).map decimalValue = l := by
  induction l with
  | nil => rfl
  | cons d t ih =>
    simp only [List.map_cons, List.cons.injEq]
    exact ⟨decimalValue_digitChar d (h d (by simp)), ih (fun x hx => h x (by simp [hx]))⟩

/-- The decimal digits denote the number. -/
theorem ofDigits_decimalDigits (n : Nat) :
    Nat.ofDigits 10 ((decimalDigits n).reverse.map decimalValue) = n := by
  by_cases hn : n = 0
  · subst hn
    rw [decimalDigits_zero]
    decide
  · have hd : ((Nat.digits 10 n).map Nat.digitChar).map decimalValue = Nat.digits 10 n :=
      map_decimalValue_digitChar _ (fun d hd => Nat.digits_lt_base (by norm_num) hd)
    rw [decimalDigits_eq n hn]
    simp only [List.map_reverse, List.reverse_reverse, hd, Nat.ofDigits_digits]

/-- The index can be read back from its padded form, whatever the width. -/
theorem decodeDecimal_formatZeroPadded (index width : Nat) :
    decodeDecimal (formatZeroPadded index width) = index := by
  have h0 : decimalValue '0' = 0 := by decide
  unfold decodeDecimal formatZeroPadded
  rw [List.reverse_append, List.map_append, List.reverse_replicate, List.map_replicate, h0,
    Nat.ofDigits_append, ofDigits_replicate_zero, Nat.mul_zero, Nat.add_zero]
  exact ofDigits_decimalDigits index

theorem formatZeroPadded_injective (a b wa wb : Nat)
    (h : formatZeroPadded a wa = formatZeroPadded b wb) : a = b := by
  have := congrArg decodeDecimal h
  rwa [decodeDecimal_formatZeroPadded, decodeDecimal_formatZeroPadded] at this

theorem decimalDigits_length_pos (n : Nat) : 0 < (decimalDigits n).length := by
  by_cases hn : n = 0
  · subst hn
    rw [decimalDigits_zero]
    decide
  · rw [decimalDigits_eq n hn, List.length_map, List.length_reverse]
    exact List.length_pos.mpr (Nat.digits_ne_nil_iff_ne_zero.mpr hn)

/-- A number that is not above another one has no more decimal digits. -/
theorem decimalDigits_length_mono (i N : Nat) (h : i ≤ N) :
    (decimalDigits i).length ≤ (decimalDigits N).length := by
  by_cases hi : i = 0
  · subst hi
    rw [decimalDigits_zero]
    exact decimalDigits_length_pos N
  · have hN : N ≠ 0 := by omega
    rw [decimalDigits_eq i hi, decimalDigits_eq N hN]
    simp only [List.length_map, List.length_reverse]
    exact Nat.le_digits_len_le 10 i N h

/-- A number below 10^e has at most e decimal digits, for e at least 1. -/
theorem decimalDigits_length_le (n e : Nat) (he : 0 < e) (h : n < 10 ^ e) :
    (decimalDigits n).length ≤ e := by
  by_cases hn : n = 0
  · subst hn
    rw [decimalDigits_zero]
    exact he
  · rw [decimalDigits_eq n hn, List.length_map, List.length_reverse]
    have h1 := Nat.base_pow_length_digits_le 10 n (by norm_num) hn
    have h2 : 10 ^ (Nat.digits 10 n).length < 10 ^ (e + 1) := by
      rw [pow_succ]
      omega
    have := (Nat.pow_lt_pow_iff_right (by norm_num : 1 < 10)).mp h2
    omega

/-- The length of the padded index: the width, or the number of digits when that is more. -/
theorem formatZeroPadded_length (index width : Nat) :
    (formatZeroPadded index width).length = max width (decimalDigits index).length := by
  show (formatZeroPadded index width).data.length = _
  unfold formatZeroPadded
  simp only [List.length_append, List.length_replicate]
  omega

/-- The padded index begins with a zero when the width is above the number of digits. -/
theorem formatZeroPadded_head (index width : Nat) (h : (decimalDigits index).length < width) :
    (formatZeroPadded index width).data.head? = some '0' := by
  unfold formatZeroPadded
  obtain ⟨k, hk⟩ : ∃ k, width - (decimalDigits index).length = k + 1 :=
    ⟨width - (decimalDigits index).length - 1, by omega⟩
  rw [hk, List.replicate_succ]
  rfl

/-- The width of the newer `main` is the number of digits plus one, for a number of study
directories that a `size_t` holds. -/
theorem m_count_width_eq (N : Nat) (hN : N < 2 ^ 64) :
    m_count_width N = (decimalDigits N).length + 1 := by
  have h := decimalDigits_length_le N 20 (by norm_num) (by
    calc N < 2 ^ 64 := hN
      _ ≤ 10 ^ 20 := by norm_num)
  unfold m_count_width
  omega

/-! ## The loop of `main` over the studies -/

/-- One pass of the loop of `main`: the key list file gets the row of the study if the study was
completed and nothing else; and either no pseudonym is assigned and the index stays, or the
pseudonym of the index is assigned and the index goes up by one. -/
theorem processStudy_step (env : Dcmtk) (opts : MainOptions) (width : Nat) (s : MainState)
    (d : StudyDir) :
    (processStudy env opts width s d).2.keyListFile =
        s.keyListFile ++ completedRows [(processStudy env opts width s d).1] ∧
    (((processStudy env opts width s d).2.index = s.index ∧
        (processStudy env opts width s d).2.applied = s.applied) ∨
      ((processStudy env opts width s d).2.index = s.index + 1 ∧
        (processStudy env opts width s d).2.applied =
          s.applied ++ [opts.opt_anonymizedPrefix ++ formatZeroPadded s.index width])) := by
  cases hdir : d.is_directory with
  | false => simp [processStudy, hdir, completedRows]
  | true =>
    rcases hfiles : getStudyFilenames s.anonymizer d.entries with ⟨cond, a1⟩
    cases cond with
    | false => simp [processStudy, hdir, hfiles, completedRows]
    | true =>
      cases hrun : anonymizeStudy env s.world
          { a1 with m_outputStudyDir := opts.opt_outDirectory ++ "/" ++
            (opts.opt_anonymizedPrefix ++ formatZeroPadded s.index width) ++ "/DATA" }
          (opts.opt_anonymizedPrefix ++ formatZeroPadded s.index width)
          opts.opt_anonymizationMethods opts.opt_rootUID with
      | aborted w a3 => simp [processStudy, hdir, hfiles, hrun, completedRows]
      | returned b w a3 =>
        cases b <;> simp [processStudy, hdir, hfiles, hrun, completedRows]

theorem mainLoop_cons (env : Dcmtk) (opts : MainOptions) (width : Nat) (s : MainState)
    (d : StudyDir) (ds : List StudyDir) :
    mainLoop env opts width s (d :: ds) =
      if (processStudy env opts width s d).1 = StudyResult.crashed then
        ([StudyResult.crashed], (processStudy env opts width s d).2)
      else
        ((processStudy env opts width s d).1 ::
            (mainLoop env opts width (processStudy env opts width s d).2 ds).1,
          (mainLoop env opts width (processStudy env opts width s d).2 ds).2) := by
  rcases h : processStudy env opts width s d with ⟨r, s1⟩
  cases r <;> simp [mainLoop, h]

/-- The loop of `main`: the key list file gets the rows of the completed studies, in their order,
and nothing else; the pseudonyms assigned are those of the consecutive indices from the index at
the start on; every entry is gone through unless a pass does not end. -/
theorem mainLoop_spec (env : Dcmtk) (opts : MainOptions) (width : Nat) :
    ∀ (dirs : List StudyDir) (s : MainState),
      (mainLoop env opts width s dirs).2.keyListFile =
          s.keyListFile ++ completedRows (mainLoop env opts width s dirs).1 ∧
      (∃ n, n ≤ dirs.length ∧ (mainLoop env opts width s dirs).2.index = s.index + n ∧
        (mainLoop env opts width s dirs).2.applied =
          s.applied ++ (List.range n).map
            (fun j => opts.opt_anonymizedPrefix ++ formatZeroPadded (s.index + j) width)) ∧
      (mainLoop env opts width s dirs).1.length ≤ dirs.length ∧
      (StudyResult.crashed ∉ (mainLoop env opts width s dirs).1 →
        (mainLoop env opts width s dirs).1.length = dirs.length) := by
  intro dirs
  induction dirs with
  | nil =>
    intro s
    refine ⟨by simp [mainLoop, completedRows], ⟨0, by simp [mainLoop]⟩, by simp [mainLoop],
      by simp [mainLoop]⟩
  | cons d ds ih =>
    intro s
    obtain ⟨hk, hi⟩ := processStudy_step env opts width s d
    obtain ⟨ih1, ⟨n, hn, hidx, happ⟩, ih3, ih4⟩ := ih (processStudy env opts width s d).2
    have hstep : ∃ n0, n0 ≤ 1 ∧ (processStudy env opts width s d).2.index = s.index + n0 ∧
        (processStudy env opts width s d).2.applied =
          s.applied ++ (List.range n0).map
            (fun j => opts.opt_anonymizedPrefix ++ formatZeroPadded (s.index + j) width) := by
      rcases hi with ⟨h1, h2⟩ | ⟨h1, h2⟩
      · exact ⟨0, by omega, by simpa using h1, by simpa using h2⟩
      · exact ⟨1, by omega, h1, by simpa using h2⟩
    rw [mainLoop_cons]
    by_cases hc : (processStudy env opts width s d).1 = StudyResult.crashed
    · simp only [hc, if_true]
      refine ⟨?_, ?_, by simp, by simp⟩
      · rw [hk, hc]
      · obtain ⟨n0, hn0, h1, h2⟩ := hstep
        exact ⟨n0, by simp only [List.length_cons]; omega, h1, h2⟩
    · simp only [hc, if_false]
      refine ⟨?_, ?_, ?_, ?_⟩
      · rw [ih1, hk, List.append_assoc]
        congr 1
        cases hr : (processStudy env opts width s d).1 <;> simp [completedRows]
      · obtain ⟨n0, hn0, h1, h2⟩ := hstep
        refine ⟨n0 + n, by simp only [List.length_cons]; omega, by omega, ?_⟩
        rw [happ, h2, h1, List.append_assoc]
        congr 1
        rw [List.range_add, List.map_append, List.map_map]
        congr 1
        apply List.map_congr_left
        intro j _
        simp [Nat.add_assoc]
      · simp only [List.length_cons]
        omega
      · intro hnot
        simp only [List.mem_cons, not_or] at hnot
        simp only [List.length_cons]
        rw [ih4 hnot.2]

theorem completedRows_length_le (rs : List StudyResult) :
    (completedRows rs).length ≤ rs.length := by
  induction rs with
  | nil => simp [completedRows]
  | cons r t ih =>
    cases r <;> simp [completedRows] <;> omega

/-- C13 (sequential pseudonym uniqueness): in a run of `main` over fewer than 2^31 - 1 entries of
the input directory, the i-th pseudonym that is assigned, i counted from 1, is the prefix followed
by the padded index i at the width computed at line 221, and the index stays within an `int`; the
padded index is the decimal digits of i behind as many zeros as the digits are short of the
width, so that it is never shorter than the width and never truncated, and i can be read back
from it; for every prefix, every width and all indices i ≠ j the two pseudonyms are different
strings; so no two studies of the run share a pseudonym. -/
theorem mainRun_sequential_pseudonyms (env : Dcmtk) (opts : MainOptions) (w : World)
    (inDirectory : List StudyDir) (hint : inDirectory.length < 2 ^ 31 - 1) :
    (mainRun env opts w inDirectory).2.applied =
      (List.range (mainRun env opts w inDirectory).2.applied.length).map
        (fun j => opts.opt_anonymizedPrefix ++
          formatZeroPadded (j + 1) (indexWidth (getNumberOfStudies inDirectory))) ∧
    (mainRun env opts w inDirectory).2.index =
      (mainRun env opts w inDirectory).2.applied.length + 1 ∧
    (mainRun env opts w inDirectory).2.index ≤ 2 ^ 31 - 1 ∧
    (∀ i width : Nat,
      (formatZeroPadded i width).data =
        List.replicate (width - (decimalDigits i).length) '0' ++ decimalDigits i ∧
      width ≤ (formatZeroPadded i width).length ∧
      (decimalDigits i).length ≤ (formatZeroPadded i width).length ∧
      decodeDecimal (String.mk (decimalDigits i)) = i ∧
      decodeDecimal (formatZeroPadded i width) = i) ∧
    (∀ (pre : String) (width i j : Nat), i ≠ j →
      pre ++ formatZeroPadded i width ≠ pre ++ formatZeroPadded j width) ∧
    (mainRun env opts w inDirectory).2.applied.Nodup := by
  obtain ⟨-, ⟨n, hn, hidx, happ⟩, -, -⟩ :=
    mainLoop_spec env opts (indexWidth (getNumberOfStudies inDirectory)) inDirectory
      { world := w,
        anonymizer := { StudyAnonymizer.default with m_filenameType := opts.opt_filenameType },
        index := 1, keyListFile := ["old name, old id, new name/id\n"], applied := [] }
  have happ' : (mainRun env opts w inDirectory).2.applied =
      (List.range n).map (fun j => opts.opt_anonymizedPrefix ++
        formatZeroPadded (j + 1) (indexWidth (getNumberOfStudies inDirectory))) := by
    show (mainLoop env opts _ _ inDirectory).2.applied = _
    rw [happ, List.nil_append]
    apply List.map_congr_left
    intro j _
    rw [Nat.add_comm]
  have hidx' : (mainRun env opts w inDirectory).2.index = 1 + n := hidx
  have hlen : (mainRun env opts w inDirectory).2.applied.length = n := by
    rw [happ', List.length_map, List.length_range]
  have hinj : ∀ (pre : String) (width i j : Nat), i ≠ j →
      pre ++ formatZeroPadded i width ≠ pre ++ formatZeroPadded j width := by
    intro pre width i j hij e
    exact hij (formatZeroPadded_injective i j width width (string_append_cancel_left _ _ _ e))
  refine ⟨by rw [hlen]; exact happ', by rw [hlen, hidx']; omega, by rw [hidx']; omega, ?_,
    hinj, ?_⟩
  · intro i width
    refine ⟨rfl, ?_, ?_, ?_, decodeDecimal_formatZeroPadded i width⟩
    · rw [formatZeroPadded_length]
      exact Nat.le_max_left _ _
    · rw [formatZeroPadded_length]
      exact Nat.le_max_right _ _
    · exact ofDigits_decimalDigits i
  · rw [happ']
    apply List.Nodup.map _ (List.nodup_range n)
    intro a b e
    have := formatZeroPadded_injective _ _ _ _ (string_append_cancel_left _ _ _ e)
    omega

/-- Witness of C13 on the sample input directory of four studies, of which the second holds no
file and gets no pseudonym: the pseudonyms P1, P2 and P3 are assigned; index 7 at width 3 is 007
and index 1234 at width 3 is not truncated. -/
theorem mainRun_sequential_pseudonyms_witness :
    sampleInDirectory.length < 2 ^ 31 - 1 ∧
    (mainRun sampleDcmtk sampleOptions sampleWorld sampleInDirectory).2.applied =
      ["P1", "P2", "P3"] ∧
    (mainRun sampleDcmtk sampleOptions sampleWorld sampleInDirectory).2.applied.Nodup ∧
    (mainRun sampleDcmtk sampleOptions sampleWorld sampleInDirectory).2.index = 4 ∧
    formatZeroPadded 7 3 = "007" ∧ formatZeroPadded 1234 3 = "1234" ∧
    "P" ++ formatZeroPadded 7 3 ≠ "P" ++ formatZeroPadded 70 3 :=
  ⟨by decide, by decide,
    (mainRun_sequential_pseudonyms sampleDcmtk sampleOptions sampleWorld sampleInDirectory
      (by decide)).2.2.2.2.2,
    by decide, by decide, by decide,
    (mainRun_sequential_pseudonyms sampleDcmtk sampleOptions sampleWorld sampleInDirectory
      (by decide)).2.2.2.2.1 "P" 3 7 70 (by decide)⟩

/-! ## The width of the padding -/

/-- No decimal form of a number that is not zero begins with a zero. -/
theorem decimalDigits_head (n : Nat) (hn : n ≠ 0) : (decimalDigits n).head? ≠ some '0' := by
  have hne : Nat.digits 10 n ≠ [] := Nat.digits_ne_nil_iff_ne_zero.mpr hn
  have hlt : (Nat.digits 10 n).getLast hne < 10 :=
    Nat.digits_lt_base (by norm_num) (List.getLast_mem hne)
  have h0 := Nat.getLast_digit_ne_zero 10 hn
  have hchar : ∀ d, d < 10 → Nat.digitChar d = '0' → d = 0 := by decide
  rw [decimalDigits_eq n hn, List.head?_map, List.head?_reverse, List.getLast?_eq_getLast _ hne]
  intro h
  simp only [Option.map_some', Option.some.injEq] at h
  exact h0 (hchar _ hlt h)

/-- C14 (padding width and leading zero): for a run of `main` of src/src/main.cpp that finds N
study directories, N below 2^64 as the size of a vector is, the width `m_count_width` is the
number of decimal digits of N plus one, and every index i with 1 ≤ i ≤ N, padded to it, has
exactly that width and begins with a zero. -/
theorem m_count_width_leading_zero (N : Nat) (hN : N < 2 ^ 64) :
    m_count_width N = (decimalDigits N).length + 1 ∧
    ∀ i, 1 ≤ i → i ≤ N →
      (formatZeroPadded i (m_count_width N)).length = m_count_width N ∧
      (formatZeroPadded i (m_count_width N)).data.head? = some '0' := by
  have hw := m_count_width_eq N hN
  refine ⟨hw, ?_⟩
  intro i _ hi
  have hlen := decimalDigits_length_mono i N hi
  refine ⟨?_, formatZeroPadded_head i _ (by omega)⟩
  rw [formatZeroPadded_length]
  omega

/-- Witness of C14 on the sample input directory: five study directories are found, the width is
2, and the indices 1 and 5 are padded to 01 and 05. -/
theorem m_count_width_leading_zero_witness :
    (findStudyDirectories sampleFiveStudies).length = 5 ∧
    (findStudyDirectories sampleFiveStudies).length < 2 ^ 64 ∧
    m_count_width (findStudyDirectories sampleFiveStudies).length = 2 ∧
    ((formatZeroPadded 1 (m_count_width (findStudyDirectories sampleFiveStudies).length)).length =
        m_count_width (findStudyDirectories sampleFiveStudies).length ∧
      (formatZeroPadded 1
        (m_count_width (findStudyDirectories sampleFiveStudies).length)).data.head? = some '0') ∧
    formatZeroPadded 1 (m_count_width 5) = "01" ∧
    formatZeroPadded 5 (m_count_width 5) = "05" :=
  ⟨by decide, by decide,
    (m_count_width_leading_zero (findStudyDirectories sampleFiveStudies).length (by decide)).1,
    (m_count_width_leading_zero (findStudyDirectories sampleFiveStudies).length (by decide)).2 1
      (by decide) (by decide),
    by decide, by decide⟩

/-- The width of src/main.cpp: for N entries, N at least 1, it is the number of decimal digits of
N with nothing added, and the index N, padded to it, is its decimal digits with no zero in
front. -/
theorem indexWidth_no_leading_zero (N : Nat) (hN : 1 ≤ N) :
    indexWidth N = (decimalDigits N).length ∧
    formatZeroPadded N (indexWidth N) = String.mk (decimalDigits N) ∧
    (formatZeroPadded N (indexWidth N)).data.head? ≠ some '0' := by
  have h : formatZeroPadded N (indexWidth N) = String.mk (decimalDigits N) := by
    simp [formatZeroPadded, indexWidth]
  refine ⟨rfl, h, ?_⟩
  rw [h]
  exact decimalDigits_head N (by omega)

/-- The two widths side by side on an input directory of five study directories.  In `main` of
src/main.cpp the number of studies is 5 and the width of line 221 is 1: the pseudonyms assigned
are P1 to P5, each index one character wide.  The width of src/src/main.cpp for five study
directories is 2, and the index 1 padded to it is 01. -/
theorem mainRun_five_studies_width :
    getNumberOfStudies sampleFiveStudies = 5 ∧
    indexWidth (getNumberOfStudies sampleFiveStudies) = 1 ∧
    (mainRun sampleDcmtk sampleOptions sampleWorld sampleFiveStudies).2.applied =
      ["P1", "P2", "P3", "P4", "P5"] ∧
    formatZeroPadded 1 (indexWidth 5) = "1" ∧
    (formatZeroPadded 1 (indexWidth 5)).data.head? ≠ some '0' ∧
    m_count_width 5 = 2 ∧
    formatZeroPadded 1 (m_count_width 5) = "01" := by
  decide

/-! ## The crosswalk -/

/-- The loop of src/src/main.cpp adds to the lines written so far the rows of the studies whose
condition is good, in the order of the studies. -/
theorem crosswalkLoop_spec {σ : Type} (anonymizeStudyNew : σ → String → Bool × σ)
    (fields : σ → CrosswalkFields) :
    ∀ (studyDirs : List String) (s : σ) (lines : List String),
      (crosswalkLoop anonymizeStudyNew fields (s, lines) studyDirs).2 =
        lines ++ ((studyOutcomes anonymizeStudyNew s studyDirs).filter (fun o => o.1)).map
          (fun o => crosswalkRow (fields o.2)) := by
  intro studyDirs
  induction studyDirs with
  | nil => intro s lines; simp [crosswalkLoop, studyOutcomes]
  | cons d ds ih =>
    intro s lines
    rcases h : anonymizeStudyNew s d with ⟨good, s1⟩
    cases good with
    | false => simp [crosswalkLoop, studyOutcomes, h, ih]
    | true => simp [crosswalkLoop, studyOutcomes, h, ih]

theorem studyOutcomes_length {σ : Type} (anonymizeStudyNew : σ → String → Bool × σ) :
    ∀ (studyDirs : List String) (s : σ),
      (studyOutcomes anonymizeStudyNew s studyDirs).length = studyDirs.length := by
  intro studyDirs
  induction studyDirs with
  | nil => intro s; rfl
  | cons d ds ih => intro s; simp [studyOutcomes, ih]

/-- C15 (crosswalk append-only).  In `main` of src/src/main.cpp, whatever the member function
`anonymizeStudy` does to the anonymizer and whichever conditions it returns: over k study
directories every one of them is processed, and the lines written are the header followed by one
row for each study whose condition was good, made of the members of the anonymizer after that
study, in the order of processing; so with m such studies there are m rows after the header, and
m ≤ k.  In `main` of src/main.cpp the lines printed to the key list file are its header followed
by the rows of the completed studies in their order, a study that found no file or whose
`anonymizeStudy` returned false adds nothing, and all entries are gone through unless a pass does
not end. -/
theorem main_crosswalk_append_only {σ : Type} (anonymizeStudyNew : σ → String → Bool × σ)
    (fields : σ → CrosswalkFields) (s0 : σ) (studyDirs : List String)
    (env : Dcmtk) (opts : MainOptions) (w : World) (inDirectory : List StudyDir) :
    ((crosswalkLoop anonymizeStudyNew fields (s0, [crosswalkHeader]) studyDirs).2 =
        crosswalkSpec fields (studyOutcomes anonymizeStudyNew s0 studyDirs) ∧
      (studyOutcomes anonymizeStudyNew s0 studyDirs).length = studyDirs.length ∧
      (crosswalkLoop anonymizeStudyNew fields (s0, [crosswalkHeader]) studyDirs).2.length =
        1 + ((studyOutcomes anonymizeStudyNew s0 studyDirs).filter (fun o => o.1)).length ∧
      ((studyOutcomes anonymizeStudyNew s0 studyDirs).filter (fun o => o.1)).length ≤
        studyDirs.length) ∧
    ((mainRun env opts w inDirectory).2.keyListFile =
        "old name, old id, new name/id\n" :: completedRows (mainRun env opts w inDirectory).1 ∧
      (∀ rs, completedRows (StudyResult.noFiles :: rs) = completedRows rs ∧
        completedRows (StudyResult.failed :: rs) = completedRows rs) ∧
      (completedRows (mainRun env opts w inDirectory).1).length ≤
        (mainRun env opts w inDirectory).1.length ∧
      (mainRun env opts w inDirectory).1.length ≤ inDirectory.length ∧
      (StudyResult.crashed ∉ (mainRun env opts w inDirectory).1 →
        (mainRun env opts w inDirectory).1.length = inDirectory.length)) := by
  have hnew := crosswalkLoop_spec anonymizeStudyNew fields studyDirs s0 [crosswalkHeader]
  have hlen := studyOutcomes_length anonymizeStudyNew studyDirs s0
  obtain ⟨hk, -, h3, h4⟩ :=
    mainLoop_spec env opts (indexWidth (getNumberOfStudies inDirectory)) inDirectory
      { world := w,
        anonymizer := { StudyAnonymizer.default with m_filenameType := opts.opt_filenameType },
        index := 1, keyListFile := ["old name, old id, new name/id\n"], applied := [] }
  refine ⟨⟨?_, hlen, ?_, ?_⟩, ?_, ?_, completedRows_length_le _, h3, h4⟩
  · rw [hnew]
    rfl
  · rw [hnew]
    simp only [List.length_append, List.length_map, List.length_singleton]
  · rw [← hlen]
    exact List.length_filter_le _ _
  · exact hk
  · intro rs
    exact ⟨rfl, rfl⟩

/-- Witness of C15.  The stand-in for the newer `anonymizeStudy` fails on the second of three
studies: the header and the rows of the first and the third study are written.  The run of the
older `main` on the sample input directory, whose second study holds no file and whose third
cannot be loaded: the header and the rows of the first and the fourth study are printed. -/
theorem main_crosswalk_append_only_witness :
    (crosswalkLoop sampleAnonymizeStudy sampleFields (0, [crosswalkHeader])
        ["s1", "bad", "s3"]).2 =
      [ "PatientID,PatientName,Pseudoname,StudyDate,OldStudyInstanceUID,NewStudyInstanceUID\n",
        "P-17,Doe^John,S1,,9.2,1\n", "P-17,Doe^John,S3,,9.2,1\n" ] ∧
    crosswalkSpec sampleFields (studyOutcomes sampleAnonymizeStudy 0 ["s1", "bad", "s3"]) =
      (crosswalkLoop sampleAnonymizeStudy sampleFields (0, [crosswalkHeader])
        ["s1", "bad", "s3"]).2 ∧
    (mainRun sampleDcmtk sampleOptions sampleWorld sampleInDirectory).1 =
      [ StudyResult.completed "Doe^John,P-17,P1\n", StudyResult.noFiles, StudyResult.failed,
        StudyResult.completed "Doe^John,P-17,P3\n" ] ∧
    (mainRun sampleDcmtk sampleOptions sampleWorld sampleInDirectory).2.keyListFile =
      [ "old name, old id, new name/id\n", "Doe^John,P-17,P1\n", "Doe^John,P-17,P3\n" ] ∧
    (mainRun sampleDcmtk sampleOptions sampleWorld sampleInDirectory).2.keyListFile =
      "old name, old id, new name/id\n" ::
        completedRows (mainRun sampleDcmtk sampleOptions sampleWorld sampleInDirectory).1 :=
  ⟨by decide,
    (main_crosswalk_append_only sampleAnonymizeStudy sampleFields 0 ["s1", "bad", "s3"]
      sampleDcmtk sampleOptions sampleWorld sampleInDirectory).1.1.symm,
    by decide, by decide,
    (main_crosswalk_append_only sampleAnonymizeStudy sampleFields 0 ["s1", "bad", "s3"]
      sampleDcmtk sampleOptions sampleWorld sampleInDirectory).2.1⟩

end Fnodcmanon
